import Mathlib

/-!
# Verification of the ode-data-engine profiling pipeline

Shallow embedding of the repository's profiling-and-insight pipeline:
`app/lib/typeInference.ts`, `app/lib/eda.ts`, `app/lib/charts.ts`,
`app/lib/kpis.ts`, `app/lib/insights.ts`, `app/lib/ask.ts`.

Modelling conventions:
* JavaScript numbers are modelled as exact rationals `ℚ` (the sources never
  rely on IEEE-754 rounding for control flow on the properties verified here);
  `Math.sqrt` and `Math.log10` are modelled by the corresponding real-valued
  functions, so statistics such as `stdev` and all chart scores live in `ℝ`.
* Cell values are `null/undefined`, numbers, or strings (`Val` below).  The
  ingestion collaborator contract (spec §6) guarantees rows are delivered as
  scalar-valued maps, with rich values normalised to primitives beforehand,
  so `Date` objects and nested objects do not occur in rows.
* `Date.parse` is implementation-defined beyond the ECMA Date Time String
  Format; it is modelled here as the ECMA ISO format (`YYYY[-MM[-DD]]` with
  an optional `THH:MM[:SS][Z]` suffix), interpreted in UTC, plus the explicit
  `D/M/Y` fallback the sources implement themselves.
* JavaScript object-field access distinguishes `null` and `undefined`; both
  are modelled as `Option.none`.  Every read of the affected profile fields
  was checked to behave identically under this merge on the verified
  properties (e.g. `num(null) = 0` is immediately discarded by the
  `mean === 0` / `ratio >= 3` guards of the outlier rule).
-/

namespace ODE

/-- A scalar cell value of a row: `null`/`undefined`/missing key, a finite
JS number, or a string. -/
inductive Val where
  | vNull : Val
  | vNum (q : ℚ) : Val
  | vStr (s : String) : Val
deriving DecidableEq, Repr

/-- A row is a string-keyed map of scalars (association list; JS objects have
no duplicate keys). -/
def Row : Type := List (String × Val)

instance : DecidableEq Row := by
  unfold Row
  infer_instance

/-- `row?.[col]` : field access, `none` models `undefined`. -/
def rowGet (row : Row) (col : String) : Option Val :=
  (row.find? (fun p => p.1 == col)).map Prod.snd

/-- `isMissing` (duplicated verbatim in eda.ts / charts.ts / kpis.ts):
`v === null || v === undefined || (typeof v === "string" && v.trim() === "")`. -/
def isMissing : Option Val → Bool
  | none => true
  | some .vNull => true
  | some (.vNum _) => false
  | some (.vStr s) => s.trim == ""

/-- Decimal digit string to `ℕ`. -/
def digitsToNat (cs : List Char) : Nat :=
  cs.foldl (fun acc c => acc * 10 + (c.toNat - '0'.toNat)) 0

/-- Render a natural number in decimal. -/
def natToDigits (n : Nat) : String := toString n

/-- JS `String(x)` for a finite number, restricted to the rationals that
arise in this development: integers print as plain decimals, non-integers
with a power-of-ten denominator print as finite decimals (matching the JS
shortest-round-trip output for exactly representable values); other
rationals fall back to a canonical `num/den` form (such values only arise
as statistics, which the sources never stringify). -/
def qToString (q : ℚ) : String :=
  if q.den = 1 then toString q.num
  else
    match (List.range 40).find? (fun k => (10 ^ k : Nat) % q.den = 0) with
    | some k =>
        let scaled : Int := q.num * ((10 ^ k : Nat) / q.den : Nat)
        let sign := if scaled < 0 then "-" else ""
        let a := scaled.natAbs
        let ip := a / 10 ^ k
        let fpDigits := natToDigits (a % 10 ^ k)
        let fp := String.mk (List.replicate (k - fpDigits.length) '0') ++ fpDigits
        let fp := String.mk (fp.toList.reverse.dropWhile (· == '0')).reverse
        sign ++ natToDigits ip ++ "." ++ fp
    | none => toString q.num ++ "/" ++ toString q.den

/-- JS `String(v)` on a cell value (`String(null) = "null"`). -/
def valToString : Val → String
  | .vNull => "null"
  | .vNum q => qToString q
  | .vStr s => s

/-- The currency symbols stripped by `safeToNumberLoose` / `looksNumeric`. -/
def currencyChars : List Char := "£€$₹₽¥₩₦₱₫₪₴₲₵₸₺₼₾₿".toList

/-- `.replace(/[currency]/g, "").replace(/NBSP/g, " ").replace(/\s+/g, "")`:
currency symbols dropped, NBSP turned into a space, then every whitespace
character removed. -/
def stripCurrencyWs (s : String) : String :=
  String.mk ((s.toList.filter (fun c => ¬ (c ∈ currencyChars))).filter
    (fun c => ¬ (c == '\u00A0' ∨ c.isWhitespace)))

/-- `.replace(/%$/, "")` : drop a single trailing percent sign. -/
def dropTrailingPercent (s : String) : String :=
  if s.endsWith "%" then s.dropRight 1 else s

/-- Does the string end in `,(\d{1,3})$` — a comma followed by one to three
digits at the end (comma-as-decimal heuristic)? -/
def commaDecimalSuffix (s : String) : Bool :=
  let rcs := s.toList.reverse
  let t := (rcs.takeWhile Char.isDigit).length
  decide (1 ≤ t) && decide (t ≤ 3) &&
    (match rcs.drop t with
     | ',' :: _ => true
     | _ => false)

/-- The comma/dot disambiguation shared by `safeToNumberLoose` and
`looksNumeric`:
if both present drop commas; if only commas, turn them into a dot when the
string ends in `,(\d{1,3})$`, otherwise drop them. -/
def commaDotNormalize (s : String) : String :=
  let hasComma := s.toList.contains ','
  let hasDot := s.toList.contains '.'
  if hasComma ∧ hasDot then String.mk (s.toList.filter (· ≠ ','))
  else if hasComma then
    if commaDecimalSuffix s then s.map (fun c => if c == ',' then '.' else c)
    else String.mk (s.toList.filter (· ≠ ','))
  else s

/-- Parse `\d+` (one or more digits), returning the digits and the rest. -/
def takeDigits (cs : List Char) : List Char × List Char :=
  (cs.takeWhile Char.isDigit, cs.dropWhile Char.isDigit)

/-- Exact rational value of `sign intPart [. fracPart] [e expSign expDigits]`.
JS converts via IEEE-754; the embedding keeps the exact decimal value. -/
def decimalToRat (sign : ℤ) (ip fp : List Char) (esign : ℤ) (ed : List Char) : ℚ :=
  let mantissa : ℚ := (digitsToNat ip : ℚ) + (digitsToNat fp : ℚ) / ((10 : ℚ) ^ fp.length)
  (sign : ℚ) * mantissa * (10 : ℚ) ^ (esign * (digitsToNat ed : ℤ))

/-- The strict numeric-literal test-and-parse of `safeToNumberLoose`:
`/^[-+]?\d+(\.\d+)?(?:e[-+]?\d+)?$/i` followed by `Number(s)`. -/
def parseStrictNum (s : String) : Option ℚ :=
  let cs := s.toList
  let (sign, cs) := match cs with
    | '+' :: r => ((1 : ℤ), r)
    | '-' :: r => ((-1 : ℤ), r)
    | _ => ((1 : ℤ), cs)
  let (ip, cs) := takeDigits cs
  if ip.isEmpty then none
  else
    let (fp, cs) := match cs with
      | '.' :: r =>
          let (d, r') := takeDigits r
          if d.isEmpty then ([], '.' :: r) else (d, r')
      | _ => ([], cs)
    -- a dot not followed by digits must fail the whole match
    match cs with
    | '.' :: _ => none
    | _ =>
      let (esign, ed, cs) := match cs with
        | 'e' :: r | 'E' :: r =>
            let (sg, r) := match r with
              | '+' :: r' => ((1 : ℤ), r')
              | '-' :: r' => ((-1 : ℤ), r')
              | _ => ((1 : ℤ), r)
            let (d, r') := takeDigits r
            if d.isEmpty then ((1 : ℤ), ([] : List Char), 'e' :: r)
            else (sg, d, r')
        | _ => ((1 : ℤ), ([] : List Char), cs)
      match cs with
      | [] => some (decimalToRat sign ip fp esign ed)
      | _ => none

/-- `safeToNumberLoose` (identical copies in eda.ts / charts.ts / kpis.ts):
robust currency/commas/percent/parenthesis-negative numeric parsing. -/
def safeToNumberLoose (v : Option Val) : Option ℚ :=
  if isMissing v then none
  else match v with
  | some (.vNum q) => some q
  | some v' =>
      let s := (valToString v').trim
      if s = "" then none
      else
        let (negative, s) :=
          if s.startsWith "(" ∧ s.endsWith ")" ∧ 2 ≤ s.length then
            -- the length guard is vacuous (no length-1 string satisfies both
            -- prefix and suffix tests) and only eases reasoning
            (true, ((s.drop 1).dropRight 1).trim)
          else (false, s)
        let s := dropTrailingPercent (stripCurrencyWs s)
        if s = "" then none
        else
          let s := commaDotNormalize s
          match parseStrictNum s with
          | none => none
          | some n => some (if negative then -n else n)
  | none => none

/-! ## Calendar model (UTC)

`Date` values are epoch milliseconds.  Civil-date conversions use the
standard era-based algorithms; all components are interpreted in UTC (the
sources run them in the host's local time zone, which none of the verified
properties depend on). -/

/-- Days since 1970-01-01 of a civil date; linear in `d`, so JS `Date`'s
day/month overflow normalisation is obtained by pre-normalising the month
and adding the day offset. -/
def daysFromCivil (y m d : ℤ) : ℤ :=
  let y2 := y - (if m ≤ 2 then 1 else 0)
  let era := Int.fdiv y2 400
  let yoe := y2 - era * 400
  let doy := (153 * (m + (if 2 < m then -3 else 9)) + 2) / 5 + d - 1
  let doe := yoe * 365 + yoe / 4 - yoe / 100 + doy
  era * 146097 + doe - 719468

/-- Civil `(year, month, day)` of a day number (inverse of `daysFromCivil`). -/
def civilFromDays (z0 : ℤ) : ℤ × ℤ × ℤ :=
  let z := z0 + 719468
  let era := Int.fdiv z 146097
  let doe := z - era * 146097
  let yoe := (doe - doe / 1460 + doe / 36524 - doe / 146096) / 365
  let y := yoe + era * 400
  let doy := doe - (365 * yoe + yoe / 4 - yoe / 100)
  let mp := (5 * doy + 2) / 153
  let d := doy - (153 * mp + 2) / 5 + 1
  let m := mp + (if mp < 10 then 3 else -9)
  (y + (if m ≤ 2 then 1 else 0), m, d)

def isLeapYear (y : ℤ) : Bool :=
  (y % 4 == 0 ∧ y % 100 != 0) ∨ y % 400 == 0

def daysInMonth (y : ℤ) (m : Nat) : Nat :=
  if m = 2 then (if isLeapYear y then 29 else 28)
  else if m = 4 ∨ m = 6 ∨ m = 9 ∨ m = 11 then 30 else 31

/-- Parse exactly `n` decimal digits. -/
def parseNDigits (n : Nat) (cs : List Char) : Option (Nat × List Char) :=
  let d := cs.take n
  if d.length = n ∧ d.all Char.isDigit then some (digitsToNat d, cs.drop n) else none

/-- `Date.parse`, modelled as the ECMA-262 Date Time String Format
`YYYY[-MM[-DD]][THH:MM[:SS][Z]]` interpreted in UTC (anything beyond that
format is implementation-defined in JS and not modelled).  Returns epoch
milliseconds. -/
def jsDateParse (s : String) : Option ℤ := do
  let cs := s.toList
  let (y, cs) ← parseNDigits 4 cs
  let (m, cs) ← match cs with
    | '-' :: r => do
        let (m, r') ← parseNDigits 2 r
        pure (m, r')
    | _ => pure (1, cs)
  let (d, cs) ← match cs, s.toList.drop 4 with
    | '-' :: r, '-' :: _ => do
        let (d, r') ← parseNDigits 2 r
        pure (d, r')
    | _, _ => pure (1, cs)
  let (hh, mi, ss, cs) ← match cs with
    | 'T' :: r => do
        let (hh, r) ← parseNDigits 2 r
        let (mi, r) ← match r with
          | ':' :: r' => parseNDigits 2 r'
          | _ => none
        let (ss, r) ← match r with
          | ':' :: r' => parseNDigits 2 r'
          | _ => pure (0, r)
        let r := match r with
          | 'Z' :: r' => r'
          | _ => r
        pure (hh, mi, ss, r)
    | _ => pure (0, 0, 0, cs)
  if cs.isEmpty ∧ 1 ≤ m ∧ m ≤ 12 ∧ 1 ≤ d ∧ d ≤ daysInMonth y m ∧
      hh ≤ 23 ∧ mi ≤ 59 ∧ ss ≤ 59 then
    pure (daysFromCivil y m d * 86400000 + (hh * 3600000 + mi * 60000 + ss * 1000 : Nat))
  else none

/-- Parse one or two digits followed by the rest (used for the regex groups
`(\d{1,2})` which must be delimited by a non-digit). -/
def parse1or2Digits (cs : List Char) : Option (Nat × List Char) :=
  let (d, r) := takeDigits cs
  if 1 ≤ d.length ∧ d.length ≤ 2 then some (digitsToNat d, r) else none

/-- `safeToDateLoose` (identical copies in eda.ts / charts.ts): ECMA parse
first, then the explicit `dd/mm/yyyy` or `dd-mm-yyyy` fallback built with
`new Date(yy, mm - 1, dd)` (month/day overflow normalised like JS `Date`).
Returns epoch milliseconds.  The regex fallback `^(\\d{1,2})[\\/\\-](\\d{1,2})[\\/\\-](\\d{2,4})$`
is `dmyFallbackParse`. -/
def dmyFallbackParse (s : String) : Option ℤ :=
  match parse1or2Digits s.toList with
  | none => none
  | some (dd, r) =>
    match r with
    | [] => none
    | sep1 :: r1 =>
      if ¬ (sep1 == '/' ∨ sep1 == '-') then none
      else match parse1or2Digits r1 with
      | none => none
      | some (mm, r2) =>
        match r2 with
        | [] => none
        | sep2 :: r3 =>
          if ¬ (sep2 == '/' ∨ sep2 == '-') then none
          else
            let (yd, r4) := takeDigits r3
            if 2 ≤ yd.length ∧ yd.length ≤ 4 ∧ r4.isEmpty then
              let yy : ℤ := if digitsToNat yd < 100 then digitsToNat yd + 2000
                            else digitsToNat yd
              let m0 : ℤ := (mm : ℤ) - 1
              let yAdj := yy + Int.fdiv m0 12
              let mNorm := Int.emod m0 12 + 1
              some ((daysFromCivil yAdj mNorm 1 + (dd - 1)) * 86400000)
            else none

def safeToDateLoose (v : Option Val) : Option ℤ :=
  if isMissing v then none
  else match v with
  | none | some .vNull => none
  | some v' =>
    let s := (valToString v').trim
    if s = "" then none
    else match jsDateParse s with
    | some t => some t
    | none => dmyFallbackParse s

def pad2 (n : ℤ) : String :=
  if 0 ≤ n ∧ n < 10 then "0" ++ toString n else toString n

def pad3 (n : ℤ) : String :=
  if 0 ≤ n ∧ n < 10 then "00" ++ toString n
  else if 0 ≤ n ∧ n < 100 then "0" ++ toString n else toString n

/-- `Date.prototype.toISOString` (UTC): `YYYY-MM-DDTHH:mm:ss.sssZ`. -/
def msToIso (ms : ℤ) : String :=
  let days := Int.fdiv ms 86400000
  let rem := ms - days * 86400000
  let c := civilFromDays days
  let hh := rem / 3600000
  let mi := rem % 3600000 / 60000
  let ss := rem % 60000 / 1000
  let msr := rem % 1000
  toString c.1 ++ "-" ++ pad2 c.2.1 ++ "-" ++ pad2 c.2.2 ++ "T" ++
    pad2 hh ++ ":" ++ pad2 mi ++ ":" ++ pad2 ss ++ "." ++ pad3 msr ++ "Z"

/-- `formatDayKey` (charts.ts): `YYYY-MM-DD` of a date (UTC model). -/
def formatDayKey (ms : ℤ) : String :=
  let c := civilFromDays (Int.fdiv ms 86400000)
  toString c.1 ++ "-" ++ pad2 c.2.1 ++ "-" ++ pad2 c.2.2

/-- `formatMonthKey` (charts.ts): `YYYY-MM`. -/
def formatMonthKey (ms : ℤ) : String :=
  let c := civilFromDays (Int.fdiv ms 86400000)
  toString c.1 ++ "-" ++ pad2 c.2.1

/-! ## typeInference.ts -/

/-- `isMissing` on a bare value. -/
def isMissingV (v : Val) : Bool := isMissing (some v)

/-- `safeString` (typeInference.ts): `String(v ?? "").trim()`. -/
def safeStringV : Val → String
  | .vNull => ""
  | v => (valToString v).trim

/-- Shape test for `/^[-+]?(?:\d+\.?\d*|\d*\.?\d+)(?:e[-+]?\d+)?$/i`. -/
def looseNumShape (cs0 : List Char) : Bool :=
  let cs := match cs0 with
    | '+' :: r => r
    | '-' :: r => r
    | _ => cs0
  let (ip, cs) := takeDigits cs
  let (fp, cs) := match cs with
    | '.' :: r => takeDigits r
    | _ => ([], cs)
  if ip.length + fp.length = 0 then false
  else match cs with
    | [] => true
    | 'e' :: r | 'E' :: r =>
        let r := match r with
          | '+' :: r' => r'
          | '-' :: r' => r'
          | _ => r
        let (ed, r) := takeDigits r
        ¬ ed.isEmpty ∧ r.isEmpty
    | _ => false

/-- `looksNumeric` (typeInference.ts): numeric-like detector for strings;
accepts currency, separators, parenthesis negatives and `%`, rejects mixed
alphanumeric tokens. -/
def looksNumeric (raw : String) : Bool :=
  let s := raw.trim
  if s = "" then false
  else
    let s := if s.startsWith "(" ∧ s.endsWith ")" ∧ 2 ≤ s.length then
               "-" ++ ((s.drop 1).dropRight 1)
             else s
    let s := dropTrailingPercent ((stripCurrencyWs s).trim)
    if s = "" then false
    else looseNumShape (commaDotNormalize s).toList

/-- `looksDate` (typeInference.ts): `Number.isFinite(Date.parse(s))`. -/
def looksDate (raw : String) : Bool :=
  let s := raw.trim
  if s = "" then false else (jsDateParse s).isSome

/-- `/^[A-Za-z0-9\-_]+$/` : compact alphanumeric token. -/
def tokenShaped (s : String) : Bool :=
  ¬ s.isEmpty ∧ s.toList.all (fun c => c.isAlphanum ∨ c == '-' ∨ c == '_')

/-- `isLikelyID` (typeInference.ts): very high uniqueness, tokeny values,
and explicitly NOT mostly numeric-like or date-like. -/
def isLikelyID (values : List Val) : Bool :=
  let nonNull := values.filter (fun v => ¬ isMissingV v)
  if nonNull.length < 20 then false
  else
    let asStr := (nonNull.map safeStringV).filter (fun s => s ≠ "")
    if asStr.length < 20 then false
    else
      let len : ℚ := asStr.length
      let uniqRatio : ℚ := (asStr.dedup.length : ℚ) / len
      let numericLike : ℚ := (asStr.countP looksNumeric : ℚ) / len
      if (85 : ℚ) / 100 ≤ numericLike then false
      else
        let dateLike : ℚ := (asStr.countP looksDate : ℚ) / len
        if (85 : ℚ) / 100 ≤ dateLike then false
        else
          let avgLen : ℚ := ((asStr.map String.length).sum : ℚ) / len
          let tokeny : ℚ := (asStr.countP tokenShaped : ℚ) / len
          let longAlphaNum : ℚ :=
            (asStr.countP (fun x => tokenShaped x ∧ 6 ≤ x.length) : ℚ) / len
          (9 : ℚ) / 10 < uniqRatio ∧ (6 : ℚ) / 10 < tokeny ∧
            (avgLen ≤ 24 ∨ (6 : ℚ) / 10 < longAlphaNum)

/-- `inferColumnType` (typeInference.ts). -/
def inferColumnType (values : List (Option Val)) : String :=
  let nonNull := values.filterMap (fun v => if isMissing v then none else v)
  if nonNull.isEmpty then "categorical"
  else
    let cleaned := (nonNull.map safeStringV).filter (fun s => s ≠ "")
    let sample := cleaned.take 250
    if isLikelyID (sample.map Val.vStr) then "id"
    else
      let n : ℚ := max 1 sample.length
      if (8 : ℚ) / 10 ≤ (sample.countP looksNumeric : ℚ) / n then "numeric"
      else if (8 : ℚ) / 10 ≤ (sample.countP looksDate : ℚ) / n then "date"
      else if 30 < ((sample.map String.length).sum : ℚ) / n then "text"
      else "categorical"

/-! ## Stable sort model

`Array.prototype.sort` is a stable comparison sort (ES2019); for a total
preorder comparator every stable sort yields the same list, so it is
modelled by a structurally recursive stable insertion sort (kernel-
evaluable, unlike well-founded `mergeSort`). `le a b = true` means "`a` may
stay before `b`" (JS comparator `cmp(a,b) <= 0`). -/

/-- Insert `x` after every element it need not precede (stability: `x`
goes after existing elements equal to it). -/
def insertStable (le : α → α → Bool) (x : α) : List α → List α
  | [] => [x]
  | y :: ys => if le y x then y :: insertStable le x ys else x :: y :: ys

/-- Stable sort by a boolean comparator (model of `Array.prototype.sort`). -/
def jsSortBy (le : α → α → Bool) (l : List α) : List α :=
  l.foldl (fun acc x => insertStable le x acc) []

/-! ## eda.ts -/

/-- Substring test (`/pat/.test(s)` for a literal pattern). -/
def strContains (s pat : String) : Bool :=
  pat == "" ∨ 2 ≤ (s.splitOn pat).length

/-- `nameHintsId` (identical copies in eda.ts / charts.ts / kpis.ts):
`/(^id$|_id$| id$|uuid|guid|hash|token|key$|^key|identifier)/` on the
lower-cased column name. -/
def nameHintsId (col : String) : Bool :=
  let n := col.toLower
  n == "id" ∨ n.endsWith "_id" ∨ n.endsWith " id" ∨ strContains n "uuid" ∨
    strContains n "guid" ∨ strContains n "hash" ∨ strContains n "token" ∨
    n.endsWith "key" ∨ n.startsWith "key" ∨ strContains n "identifier"

/-- `Math.round` (half toward +∞). -/
def jsRound (q : ℚ) : ℤ := ⌊q + 1 / 2⌋

/-- `Math.floor`. -/
def jsFloor (q : ℚ) : ℤ := ⌊q⌋

/-- `isIntegerLike` (eda.ts): `Math.abs(n - Math.round(n)) < 1e-9`. -/
def isIntegerLike (n : ℚ) : Bool :=
  |n - (jsRound n : ℚ)| < 1 / 1000000000

/-- `toFixed(2)` for the reason strings (round to nearest, ties away from
zero picking the larger candidate, per ECMA `Number.prototype.toFixed`). -/
def toFixed2 (q : ℚ) : String :=
  let n : ℤ := ⌊q * 100 + 1 / 2⌋
  let sign := if n < 0 then "-" else ""
  let a := n.natAbs
  sign ++ toString (a / 100) ++ "." ++ pad2 (a % 100)

/-- `looksSequentialId` (eda.ts): strided sampling of the sorted unique
values, testing near-perfect increase with step ≈ stride. -/
def looksSequentialId (numsSorted : List ℚ) (uniqueCount : Nat) : Bool :=
  if uniqueCount < 30 then false
  else if numsSorted.length ≠ uniqueCount then false
  else
    let N := numsSorted.length
    let steps := min 400 (N - 1)
    let stride := max 1 ((N - 1) / steps)
    let idxs := (List.range N).filter (fun i => i % stride = 0 ∧ i < N - stride)
    let checked := idxs.length
    if checked = 0 then false
    else
      let diffs := idxs.map (fun i => numsSorted.getD (i + stride) 0 - numsSorted.getD i 0)
      let nonDecreasing := diffs.countP (fun d => 0 ≤ d)
      let inc1 := diffs.countP (fun d => |d - (stride : ℚ)| < 1 / 1000000)
      (98 : ℚ) / 100 < (nonDecreasing : ℚ) / (checked : ℚ) ∧
        (85 : ℚ) / 100 < (inc1 : ℚ) / (checked : ℚ)

/-- `isIdLikeNumericColumn` (eda.ts): numeric columns that behave like row
identifiers (name hint, or ≥98% unique integer-likes that are sequential or
index-like in range). -/
def isIdLikeNumericColumn (col : String) (nums : List ℚ) (uniqueCount : Nat) : Bool :=
  if nameHintsId col then true
  else if nums.length < 30 then false
  else if (uniqueCount : ℚ) / (max 1 nums.length : ℚ) < 98 / 100 then false
  else
    let sampleN := min 500 nums.length
    let stride := max 1 (nums.length / sampleN)
    let idxs := (List.range nums.length).filter (fun i => i % stride = 0)
    let checked := idxs.length
    let intOk := idxs.countP (fun i => isIntegerLike (nums.getD i 0))
    if (intOk : ℚ) / (max 1 checked : ℚ) < 98 / 100 then false
    else
      let sortedUnique := jsSortBy (fun a b => decide (a ≤ b)) nums.dedup
      if looksSequentialId sortedUnique sortedUnique.length then true
      else
        match sortedUnique.head?, sortedUnique.getLast? with
        | some mn, some mx =>
            let range := |mx - mn|
            0 < range ∧ range ≤ (sortedUnique.length : ℚ) * (12 / 10)
        | _, _ => false

/-- `decideType` (eda.ts): identifier detection first (name hint, content
heuristic, numeric-sequential heuristic), then density thresholds for
date/numeric, then the `inferColumnType` hint, else categorical.
Returns `(type, reason)`. -/
def decideType (col : String) (values : List (Option Val)) : String × String :=
  let nonMissing := values.filterMap (fun v => if isMissing v then none else v)
  if nonMissing.isEmpty then ("categorical", "empty")
  else if nameHintsId col then ("id", "name-hint")
  else if isLikelyID nonMissing then ("id", "id-like")
  else
    let N : ℚ := nonMissing.length
    let numericOk := nonMissing.countP (fun v => (safeToNumberLoose (some v)).isSome)
    let dateOk := nonMissing.countP (fun v => (safeToDateLoose (some v)).isSome)
    let numericRatio := (numericOk : ℚ) / N
    let dateRatio := (dateOk : ℚ) / N
    let hinted := inferColumnType values
    let idHit :=
      if (7 : ℚ) / 10 ≤ numericRatio then
        let nums := nonMissing.filterMap (fun v => safeToNumberLoose (some v))
        let uniqueCount := nums.dedup.length
        isIdLikeNumericColumn col nums uniqueCount
      else false
    if idHit then ("id", "numeric-id-pattern")
    else if (85 : ℚ) / 100 ≤ dateRatio ∧ numericRatio ≤ dateRatio then
      ("date", "dateRatio=" ++ toFixed2 dateRatio)
    else if (85 : ℚ) / 100 ≤ numericRatio then
      ("numeric", "numericRatio=" ++ toFixed2 numericRatio)
    else if hinted == "date" ∧ (7 : ℚ) / 10 ≤ dateRatio then ("date", "hint+ok")
    else if hinted == "numeric" ∧ (7 : ℚ) / 10 ≤ numericRatio then ("numeric", "hint+ok")
    else ("categorical", "fallback")

/-- One ranked top value of a categorical profile (`value` is the
stringified unique-map key, `pct` relative to the non-missing count). -/
structure TopVal where
  value : String
  count : Nat
  pct : ℚ
deriving DecidableEq, Repr

/-- A column profile (`ColumnEDA`).  Absent and `null` JS fields are both
`none`; `minV`/`maxV` hold numbers for numeric columns and ISO strings for
date columns, mirroring the dynamic field of the source. -/
structure ColInfo where
  type : String := "categorical"
  missing : Nat := 0
  uniqueCount : Nat := 0
  topValues : List TopVal := []
  minV : Option Val := none
  maxV : Option Val := none
  meanV : Option ℚ := none
  medianV : Option ℚ := none
  stdevV : Option ℝ := none
  zeros : Nat := 0
  negatives : Nat := 0
  inferredAs : Option String := none
  nonMissingCount : Option Nat := none
  parseReason : String := ""

/-- The dataset profile (`EDAResult`). -/
structure Eda where
  duplicates : Nat := 0
  emptyColumns : List String := []
  constantColumns : List String := []
  columns : List (String × ColInfo) := []

/-- `median` (eda.ts) of an ascending list. -/
def medianSorted (sorted : List ℚ) : Option ℚ :=
  let n := sorted.length
  if n = 0 then none
  else
    let mid := n / 2
    if n % 2 = 0 then some ((sorted.getD (mid - 1) 0 + sorted.getD mid 0) / 2)
    else some (sorted.getD mid 0)

/-- `stdev` (eda.ts): sample standard deviation, `null` below two values. -/
noncomputable def stdevSample (vals : List ℚ) (mean : ℚ) : Option ℝ :=
  if vals.length < 2 then none
  else some (Real.sqrt (((vals.map (fun v => (v - mean) ^ 2)).sum / (vals.length - 1 : ℚ) : ℚ) : ℝ))

/-- `fingerprintRow` (eda.ts): `String(v ?? "")` joined by `"||"` over the
canonical column order. -/
def fingerprintRow (row : Row) (cols : List String) : String :=
  String.intercalate "||" (cols.map (fun c =>
    match rowGet row c with
    | none | some .vNull => ""
    | some v => valToString v))

/-- Insertion-ordered key set accumulation (JS `Set` iteration order). -/
def addUnique (acc : List String) (x : String) : List String :=
  if x ∈ acc then acc else acc ++ [x]

/-- Union of row keys in first-seen order. -/
def columnNames (data : List Row) : List String :=
  data.foldl (fun acc row => row.foldl (fun a p => addUnique a p.1) acc) []

/-- Duplicate rows by full-row fingerprint. -/
def countDuplicates (data : List Row) (cols : List String) : Nat :=
  (data.foldl (fun (st : List String × Nat) row =>
    let fp := fingerprintRow row cols
    if fp ∈ st.1 then (st.1, st.2 + 1) else (fp :: st.1, st.2)) ([], 0)).2

/-- Insertion-ordered frequency map update (JS `Map`). -/
def upsertCount (m : List (String × Nat)) (k : String) : List (String × Nat) :=
  if m.any (fun p => p.1 == k) then
    m.map (fun p => if p.1 == k then (p.1, p.2 + 1) else p)
  else m ++ [(k, 1)]

/-- The unique-value map of a column: stringified keys (insertion order)
with occurrence counts, over non-missing values only. -/
def uniquesOf (values : List (Option Val)) : List (String × Nat) :=
  values.foldl (fun m v =>
    if isMissing v then m
    else match v with
      | some v' => upsertCount m (valToString v')
      | none => m) []

/-- Ranked `topValues`: unique-map entries by count descending (stable),
top `k`, with percentages of the non-missing count. -/
def topValuesOf (uniques : List (String × Nat)) (nonMissingCount : Nat) (k : Nat) :
    List TopVal :=
  ((jsSortBy (fun a b => decide (b.2 ≤ a.2)) uniques).take k).map (fun p =>
    { value := p.1, count := p.2,
      pct := (p.2 : ℚ) / (max 1 nonMissingCount : ℚ) * 100 })

/-- The values of one column across all rows. -/
def colValues (data : List Row) (col : String) : List (Option Val) :=
  data.map (fun row => rowGet row col)

/-- The numeric parses of one column (order-preserving). -/
def parsedNums (data : List Row) (col : String) : List ℚ :=
  (colValues data col).filterMap safeToNumberLoose

/-- Per-column profile construction of `runEDA`. -/
noncomputable def profileColumn (data : List Row) (emptyColumns : List String) (col : String) :
    ColInfo :=
  let values := colValues data col
  let missing := values.countP isMissing
  let nonMissingCount := data.length - missing
  let uniques := uniquesOf values
  let uniqueCount := uniques.length
  let decided := decideType col values
  if decided.1 == "id" then
    { type := "categorical", missing := missing, uniqueCount := uniqueCount,
      topValues := topValuesOf uniques nonMissingCount 8,
      inferredAs := some "id", nonMissingCount := some nonMissingCount,
      parseReason := decided.2 }
  else if decided.1 == "numeric" ∧ ¬ (col ∈ emptyColumns) then
    let nums0 := parsedNums data col
    let zeros := nums0.countP (fun n => n = 0)
    let negatives := nums0.countP (fun n => n < 0)
    let nums := jsSortBy (fun a b => decide (a ≤ b)) nums0
    let meanVal : Option ℚ :=
      if nums.isEmpty then none else some (nums.sum / (nums.length : ℚ))
    { type := "numeric", missing := missing, uniqueCount := uniqueCount,
      minV := nums.head?.map Val.vNum,
      maxV := nums.getLast?.map Val.vNum,
      meanV := meanVal,
      medianV := if nums.isEmpty then none else medianSorted nums,
      stdevV := match meanVal with
        | some m => stdevSample nums m
        | none => none,
      zeros := zeros, negatives := negatives,
      nonMissingCount := some nums.length, parseReason := decided.2 }
  else if decided.1 == "date" ∧ ¬ (col ∈ emptyColumns) then
    let dates0 := values.filterMap safeToDateLoose
    let seenDate := (dates0.map msToIso).dedup
    let dates := jsSortBy (fun a b => decide (a ≤ b)) dates0
    { type := "date", missing := missing, uniqueCount := seenDate.length,
      minV := (dates.head?.map (fun d => Val.vStr (msToIso d))),
      maxV := (dates.getLast?.map (fun d => Val.vStr (msToIso d))),
      nonMissingCount := some dates.length, parseReason := decided.2 }
  else
    { type := "categorical", missing := missing, uniqueCount := uniqueCount,
      topValues := topValuesOf uniques nonMissingCount 8,
      nonMissingCount := some nonMissingCount, parseReason := decided.2 }

/-- Is the column constant (exactly one distinct non-missing value)? -/
def isConstantCol (data : List Row) (col : String) : Bool :=
  let values := colValues data col
  0 < values.countP (fun v => ¬ isMissing v) ∧ (uniquesOf values).length = 1

/-- `runEDA` (eda.ts): the profiling entrypoint. -/
noncomputable def runEDA (data : List Row) : Eda :=
  if data.isEmpty then {}
  else
    let columns := columnNames data
    let emptyColumns := columns.filter (fun col =>
      data.all (fun row => isMissing (rowGet row col)))
    let duplicates := countDuplicates data columns
    let constantColumns := columns.filter (fun col => isConstantCol data col)
    { duplicates := duplicates, emptyColumns := emptyColumns,
      constantColumns := constantColumns,
      columns := columns.map (fun col => (col, profileColumn data emptyColumns col)) }

/-- `eda.columns?.[col]` : profile lookup. -/
def lookupCol (eda : Eda) (col : String) : Option ColInfo :=
  (eda.columns.find? (fun p => p.1 == col)).map Prod.snd

/-! ## charts.ts -/

/-- `Math.log10`, on reals (scores are never branched on by the verified
properties; sorts by score are handled by permutation reasoning). -/
noncomputable def rlog10 (x : ℝ) : ℝ := Real.logb 10 x

/-- A chart specification (`ChartSpec` union of charts.ts; the constant
per-constructor `purpose` tag of the payload is carried by the candidate). -/
inductive ChartSpec where
  | histogram (column : String) (bins : Nat) (edges : List ℚ) (counts : List Nat)
      (min max : ℚ) (total : Nat)
  | box (column : String) (min q1 median q3 max iqr : ℚ)
      (outliers : List ℚ) (total : Nat)
  | bar (column : String) (labels : List String) (counts : List Nat) (maxBars : Nat)
  | time (column xColumn yColumn : String) (points : List (String × ℚ))
      (granularity : String)
  | scatter (column xColumn yColumn : String) (points : List (ℚ × ℚ))
      (correlation : Option ℝ)
  | corr (column : String) (columns : List String) (matrix : List (List ℝ))

/-- `(c.spec as any).type`. -/
def specType : ChartSpec → String
  | .histogram .. => "histogram"
  | .box .. => "box"
  | .bar .. => "bar"
  | .time .. => "time"
  | .scatter .. => "scatter"
  | .corr .. => "corr"

/-- A scored chart candidate. -/
structure Candidate where
  spec : ChartSpec
  score : ℝ
  purpose : String

/-- `isIdLikeNumeric` (charts.ts). -/
def isIdLikeNumeric (col : String) (info : Option ColInfo) (rowCount : Nat) : Bool :=
  if nameHintsId col then true
  else if (info.bind (fun i => i.inferredAs)) == some "id" then true
  else
    let nn := match info.bind (fun i => i.nonMissingCount) with
      | some nn => nn
      | none => rowCount
    let unique := match info with
      | some i => i.uniqueCount
      | none => 0
    20 ≤ unique ∧ (98 : ℚ) / 100 < (unique : ℚ) / (max 1 nn : ℚ)

/-- `isIdLikeCategorical` (charts.ts). -/
def isIdLikeCategorical (col : String) (info : Option ColInfo) : Bool :=
  if nameHintsId col then true
  else match info with
  | none => false
  | some i =>
    if i.inferredAs == some "id" then true
    else
      let nonMissing := i.nonMissingCount.getD 0
      if nonMissing = 0 then false
      else (9 : ℚ) / 10 < (i.uniqueCount : ℚ) / (max 1 nonMissing : ℚ)

/-- `isNameListColumn` (charts.ts and kpis.ts): big list-like text field. -/
def isNameListColumn (i : ColInfo) : Bool :=
  let nonMissing := i.nonMissingCount.getD 0
  let dominance : ℚ := match i.topValues.head? with
    | some t => t.pct
    | none => 0
  if nonMissing = 0 then false
  else
    50 ≤ i.uniqueCount ∧ (1 : ℚ) / 2 < (i.uniqueCount : ℚ) / (max 1 nonMissing : ℚ) ∧
      dominance < 40

/-- `chooseBins` (charts.ts). -/
def chooseBins (n : Nat) : Nat :=
  if n ≤ 30 then 8 else if n ≤ 200 then 10 else if n ≤ 1000 then 12 else 14

structure HistOut where
  min : ℚ
  max : ℚ
  edges : List ℚ
  counts : List Nat
  total : Nat

/-- The bin index of a value: `Math.min(bins-1, Math.max(0, Math.floor(t*bins)))`
with `t = (v - min)/span`. -/
def histIdx (mn span : ℚ) (bins : Nat) (v : ℚ) : Nat :=
  min (bins - 1) (max 0 (jsFloor ((v - mn) / span * bins))).toNat

/-- `computeHistogram` (charts.ts): equal-width bins over `[min, max]`
(the `Number.isFinite` filter is vacuous for exact rationals). -/
def computeHistogram (values : List ℚ) (bins : Nat) : Option HistOut :=
  let clean := jsSortBy (fun a b => decide (a ≤ b)) values
  if clean.isEmpty then none
  else
    let mn := clean.headD 0
    let mx := clean.getLastD 0
    let span := if mx - mn = 0 then 1 else mx - mn
    some { min := mn, max := mx,
           edges := (List.range (bins + 1)).map (fun i => mn + span * i / bins),
           counts := (List.range bins).map (fun i =>
             clean.countP (fun v => histIdx mn span bins v = i)),
           total := clean.length }

/-- `quantileSorted` (charts.ts): linear-interpolation order statistic of an
ascending list. -/
def quantileSorted (sorted : List ℚ) (q : ℚ) : Option ℚ :=
  let n := sorted.length
  if n = 0 then none
  else if n = 1 then sorted.head?
  else
    let pos := ((n : ℚ) - 1) * q
    let base := (jsFloor pos).toNat
    let rest := pos - base
    let a := sorted.getD base 0
    let b := sorted.getD (min (n - 1) (base + 1)) 0
    some (a + (b - a) * rest)

structure BoxOut where
  min : ℚ
  q1 : ℚ
  median : ℚ
  q3 : ℚ
  max : ℚ
  iqr : ℚ
  outliers : List ℚ
  total : Nat

/-- `computeBox` (charts.ts): quartiles, 1.5·IQR fences, strict-outside
outliers in ascending order, whisker ends as the extreme in-fence values. -/
def computeBox (values : List ℚ) : Option BoxOut :=
  let clean := jsSortBy (fun a b => decide (a ≤ b)) values
  if clean.length < 12 then none
  else
    match quantileSorted clean (1 / 4), quantileSorted clean (1 / 2),
        quantileSorted clean (3 / 4) with
    | some q1, some median, some q3 =>
      let iqr := q3 - q1
      let lowFence := q1 - 3 / 2 * iqr
      let highFence := q3 + 3 / 2 * iqr
      let outliers := clean.filter (fun v => v < lowFence ∨ highFence < v)
      let wMin := (clean.find? (fun v => lowFence ≤ v)).getD (clean.headD 0)
      let wMax := ((clean.reverse.find? (fun v => v ≤ highFence)).getD (clean.getLastD 0))
      some { min := wMin, q1 := q1, median := median, q3 := q3, max := wMax,
             iqr := iqr, outliers := outliers, total := clean.length }
    | _, _, _ => none

/-- `capTopValuesWithOther` (charts.ts). -/
def capTopValuesWithOther (i : ColInfo) (maxBars : Nat) : List (String × Nat) :=
  let nonMissing := i.nonMissingCount.getD 0
  let trimmed := (i.topValues.take maxBars).map (fun t => (t.value, t.count))
  let shownSum := (trimmed.map (fun p => p.2)).sum
  let other := nonMissing - shownSum
  if 0 < other then trimmed ++ [("Other", other)] else trimmed

/-- Insertion-ordered additive map update (JS `Map` aggregation). -/
def upsertAddQ (m : List (String × ℚ)) (k : String) (y : ℚ) : List (String × ℚ) :=
  if m.any (fun p => p.1 == k) then
    m.map (fun p => if p.1 == k then (p.1, p.2 + y) else p)
  else m ++ [(k, y)]

/-- `buildTimeSeries` (charts.ts): day keys for spans of at most 90 days,
month keys otherwise; key sort modelled lexicographically (the keys are
ASCII digit/dash strings, where `localeCompare` agrees with code-unit
order). -/
def buildTimeSeries (data : List Row) (dateCol numCol : String) :
    Option (List (String × ℚ) × String) :=
  let pairs := data.filterMap (fun row =>
    match safeToDateLoose (rowGet row dateCol), safeToNumberLoose (rowGet row numCol) with
    | some d, some y => some (d, y)
    | _, _ => none)
  if pairs.length < 20 then none
  else
    let pairs := jsSortBy (fun a b => decide (a.1 ≤ b.1)) pairs
    let first := (pairs.headD (0, 0)).1
    let last := (pairs.getLastD (0, 0)).1
    let days := max 1 (jsRound (((last - first : ℤ) : ℚ) / 86400000))
    let granularity := if days ≤ 90 then "day" else "month"
    let agg := pairs.foldl (fun m p =>
      upsertAddQ m (if granularity == "day" then formatDayKey p.1 else formatMonthKey p.1) p.2) []
    let points := jsSortBy (fun a b => decide (a.1 ≤ b.1)) agg
    if points.length < 8 then none
    else some (points, granularity)

/-- `mean` (charts.ts). -/
def qmean (xs : List ℚ) : ℚ := xs.sum / (max 1 xs.length : ℚ)

/-- Sum of squared deviations from the mean (the `dx`/`dy` accumulators of
`pearson`, and the variance numerator of `stdev`). -/
def devSq (xs : List ℚ) : ℚ := (xs.map (fun x => (x - qmean xs) ^ 2)).sum

/-- `stdev` (charts.ts): sample standard deviation, `0` below two values. -/
noncomputable def stdevCharts (xs : List ℚ) : ℝ :=
  if xs.length < 2 then 0
  else Real.sqrt (((devSq xs / ((xs.length : ℚ) - 1)) : ℚ) : ℝ)

/-- `pearson` (charts.ts): `null` for short or degenerate inputs, else
`num / sqrt(dx·dy)`. -/
noncomputable def pearson (x y : List ℚ) : Option ℝ :=
  if x.length ≠ y.length ∨ x.length < 8 then none
  else
    let mx := qmean x
    let my := qmean y
    let num : ℚ := ((x.zip y).map (fun p => (p.1 - mx) * (p.2 - my))).sum
    let dx : ℚ := devSq x
    let dy : ℚ := devSq y
    let den : ℝ := Real.sqrt (((dx * dy : ℚ) : ℝ))
    open Classical in
    if den = 0 then none else some (((num : ℚ) : ℝ) / den)

structure ScatterOut where
  points : List (ℚ × ℚ)
  correlation : Option ℝ
  n : Nat
  sx : ℝ
  sy : ℝ

/-- `buildScatter` (charts.ts): co-present pairs, evenly strided
downsampling to 1200 points. -/
noncomputable def buildScatter (data : List Row) (xCol yCol : String) : Option ScatterOut :=
  let xy := data.filterMap (fun row =>
    match safeToNumberLoose (rowGet row xCol), safeToNumberLoose (rowGet row yCol) with
    | some x, some y => some (x, y)
    | _, _ => none)
  if xy.length < 30 then none
  else
    let maxPts := 1200
    let points :=
      if maxPts < xy.length then
        (List.range maxPts).map (fun i => xy.getD (i * xy.length / maxPts) (0, 0))
      else xy
    some { points := points, correlation := pearson (xy.map Prod.fst) (xy.map Prod.snd),
           n := xy.length, sx := stdevCharts (xy.map Prod.fst),
           sy := stdevCharts (xy.map Prod.snd) }

/-- Do all of `cols` parse numerically on this row (a "complete" row of the
correlation matrix)? -/
def corrAllParse (row : Row) (cols : List String) : Bool :=
  cols.all (fun c => (safeToNumberLoose (rowGet row c)).isSome)

/-- The rows retained by `buildCorrMatrix` (those where every selected
column parses). -/
def corrCompleteRows (data : List Row) (cols : List String) : List Row :=
  data.filter (fun row => corrAllParse row cols)

/-- `series[c]` of `buildCorrMatrix`: the parses of column `c` over the
complete rows (the sources build this in one row-major pass over the
duplicate-free `cols`; for such `cols` the two constructions agree). -/
def corrSeries (data : List Row) (cols : List String) (c : String) : List ℚ :=
  (corrCompleteRows data cols).filterMap (fun row => safeToNumberLoose (rowGet row c))

/-- `buildCorrMatrix` (charts.ts): `null` under 40 complete rows, else the
full Pearson matrix (with `0` for `null` pairwise results). -/
noncomputable def buildCorrMatrix (data : List Row) (cols : List String) :
    Option (List (List ℝ) × Nat) :=
  let n := match cols.head? with
    | none => 0
    | some c => (corrSeries data cols c).length
  if n < 40 then none
  else
    some (cols.map (fun ci => cols.map (fun cj =>
      match pearson (corrSeries data cols ci) (corrSeries data cols cj) with
      | none => (0 : ℝ)
      | some r => r)), n)

/-- `sampleRows` (charts.ts): evenly strided sample of at most `n` rows. -/
def sampleRows (data : List Row) (n : Nat) : List Row :=
  if data.length ≤ n then data
  else
    let step := max 1 (data.length / n)
    (((List.range data.length).filter (fun i => i % step = 0)).take n).map
      (fun i => data.getD i [])

/-- `detectDateLikeColumns` (charts.ts): fallback detector re-scanning
columns against the date parser on a 250-row sample. -/
def detectDateLikeColumns (data : List Row) (columns alreadyDateCols : List String) :
    List String :=
  let s := sampleRows data 250
  let results := columns.filterMap (fun col =>
    if col ∈ alreadyDateCols then none
    else
      let present := s.filterMap (fun row =>
        let v := rowGet row col
        if isMissing v then none else v)
      let seen := present.length
      if seen < 15 then none
      else
        let ok := present.countP (fun v => (safeToDateLoose (some v)).isSome)
        let uniq := (present.map valToString).dedup.length
        let ratio : ℚ := (ok : ℚ) / (max 1 seen : ℚ)
        let uniqRatio : ℚ := (uniq : ℚ) / (max 1 seen : ℚ)
        let score : ℚ := ratio * 100 + min 20 (uniqRatio * 20)
        if (7 : ℚ) / 10 ≤ ratio then some (col, score) else none)
  (jsSortBy (fun a b => decide (b.2 ≤ a.2)) results).map Prod.fst

/-- `detectNumericLikeColumns` (charts.ts): symmetric numeric fallback. -/
def detectNumericLikeColumns (data : List Row) (columns alreadyNumeric : List String) :
    List String :=
  let s := sampleRows data 250
  let results := columns.filterMap (fun col =>
    if col ∈ alreadyNumeric then none
    else
      let present := s.filterMap (fun row =>
        let v := rowGet row col
        if isMissing v then none else v)
      let seen := present.length
      if seen < 15 then none
      else
        let ok := present.countP (fun v => (safeToNumberLoose (some v)).isSome)
        let uniq := (present.map valToString).dedup.length
        let ratio : ℚ := (ok : ℚ) / (max 1 seen : ℚ)
        let uniqRatio : ℚ := (uniq : ℚ) / (max 1 seen : ℚ)
        let score : ℚ := ratio * 100 + min 10 (uniqRatio * 10)
        if (85 : ℚ) / 100 ≤ ratio then some (col, score) else none)
  (jsSortBy (fun a b => decide (b.2 ≤ a.2)) results).map Prod.fst

/-- Per-purpose caps of the diversity selector (`pMax`, default 2). -/
def pMaxF (p : String) : Nat :=
  if p == "trend" then 2
  else if p == "relationship" then 2
  else if p == "distribution" then 2
  else if p == "composition" then 2
  else 2

/-- Per-type caps of the diversity selector (`tMax`, default 2). -/
def tMaxF (t : String) : Nat :=
  if t == "histogram" then 2
  else if t == "bar" then 2
  else if t == "box" then 1
  else if t == "time" then 2
  else if t == "scatter" then 1
  else if t == "corr" then 1
  else 2

/-- `canTake` (charts.ts). -/
def canTake (pc tc : String → Nat) (c : Candidate) : Bool :=
  ¬ (pMaxF c.purpose ≤ pc c.purpose) ∧ ¬ (tMaxF (specType c.spec) ≤ tc (specType c.spec))

def bumpCount (f : String → Nat) (k : String) : String → Nat :=
  fun s => if s = k then f s + 1 else f s

/-- First pass of `pickDiverse`: greedy acceptance under the caps, stopping
at `mx` picks.  Candidates are paired with their index in the original
array, which models JS object identity (each candidate is a fresh object;
`picks.includes(c.spec)` is reference equality). -/
def pdLoop1 (mx : Nat) : List (Nat × Candidate) → List (Nat × ChartSpec) →
    (String → Nat) → (String → Nat) → List (Nat × ChartSpec)
  | [], picks, _, _ => picks
  | (i, c) :: rest, picks, pc, tc =>
    if mx ≤ picks.length then picks
    else if canTake pc tc c then
      pdLoop1 mx rest (picks ++ [(i, c.spec)]) (bumpCount pc c.purpose)
        (bumpCount tc (specType c.spec))
    else pdLoop1 mx rest picks pc tc

/-- Backfill pass of `pickDiverse`: ignore the caps until `mn` picks exist;
`picks.includes(c.spec)` is modelled by index (reference) identity. -/
def pdBackfill (mn : Nat) : List (Nat × Candidate) → List (Nat × ChartSpec) →
    List (Nat × ChartSpec)
  | [], picks => picks
  | (i, c) :: rest, picks =>
    if mn ≤ picks.length then picks
    else if picks.any (fun p => p.1 == i) then pdBackfill mn rest picks
    else pdBackfill mn rest (picks ++ [(i, c.spec)])

/-- `pickDiverse` (charts.ts): score-descending stable order, greedy caps,
backfill to `mn`, cap at `mx`. -/
noncomputable def pickDiverse (cands : List Candidate) (mn mx : Nat) : List ChartSpec :=
  let sorted := jsSortBy (fun a b =>
    @decide (b.2.score ≤ a.2.score) (Classical.propDecidable _)) cands.enum
  let picks := pdLoop1 mx sorted [] (fun _ => 0) (fun _ => 0)
  ((pdBackfill mn sorted picks).map Prod.snd).take mx

/-- The `NUMERIC -> HISTOGRAM + BOX` block of `generateCharts`. -/
noncomputable def histBoxSection (data : List Row) (eda : Eda) (rowCount : Nat)
    (numericCols : List String) : List Candidate :=
  numericCols.flatMap (fun col =>
    let info := lookupCol eda col
    if isIdLikeNumeric col info rowCount then []
    else
      let values := parsedNums data col
      if values.length < 12 then []
      else
        let bins := chooseBins values.length
        let histC : List Candidate :=
          match computeHistogram values bins with
          | none => []
          | some h =>
            let spreadScore := rlog10 (((h.max - h.min + 1 : ℚ) : ℝ)) * 10
            let densityScore := rlog10 ((((h.total : ℚ) + 1 : ℚ) : ℝ)) * 10
            [{ spec := .histogram col bins h.edges h.counts h.min h.max h.total,
               score := densityScore + spreadScore, purpose := "distribution" }]
        let boxC : List Candidate :=
          match computeBox values with
          | none => []
          | some b =>
            let outlierRate : ℚ := (b.outliers.length : ℚ) / (max 1 b.total : ℚ)
            [{ spec := .box col b.min b.q1 b.median b.q3 b.max b.iqr
                 (b.outliers.take 200) b.total,
               score := rlog10 ((((b.total : ℚ) + 1 : ℚ) : ℝ)) * 10 +
                 rlog10 (((|b.iqr| + 1 : ℚ) : ℝ)) * 12 +
                 min 25 (((outlierRate * 120 : ℚ) : ℝ)),
               purpose := "distribution" }]
        histC ++ boxC)

/-- The `CATEGORICAL -> BAR` block of `generateCharts`. -/
noncomputable def barSection (data : List Row) (eda : Eda)
    (numericSet dateSet catCols : List String) : List Candidate :=
  catCols.flatMap (fun col =>
    let info := lookupCol eda col
    if col ∈ numericSet ∨ col ∈ dateSet then []
    else if isIdLikeCategorical col info then []
    else if (match info with
             | some i => isNameListColumn i
             | none => false) then []
    else
      let maxBars := 10
      match info with
      | some i =>
        if ¬ i.topValues.isEmpty then
          let capped := capTopValuesWithOther i maxBars
          if capped.isEmpty then []
          else
            let total := if (capped.map Prod.snd).sum = 0 then 1 else (capped.map Prod.snd).sum
            let top := (capped.headD ("", 0)).2
            let dominance : ℚ := (top : ℚ) / (total : ℚ)
            [{ spec := .bar col (capped.map Prod.fst) (capped.map Prod.snd) maxBars,
               score := rlog10 ((((total : ℚ) + 1 : ℚ) : ℝ)) * 10 + ((dominance : ℚ) : ℝ) * 60,
               purpose := "composition" }]
        else
          barFallback data col maxBars
      | none => barFallback data col maxBars)
where
  /-- The `// fallback frequency` path of the bar block. -/
  barFallback (data : List Row) (col : String) (maxBars : Nat) : List Candidate :=
    let freq := data.foldl (fun m row =>
      let v := rowGet row col
      if isMissing v then m
      else match v with
        | some v' => upsertCount m (valToString v')
        | none => m) []
    let nonMissing := data.countP (fun row => ¬ isMissing (rowGet row col))
    if freq.isEmpty then []
    else
      let sorted := jsSortBy (fun a b => decide (b.2 ≤ a.2)) freq
      let top0 := sorted.take maxBars
      let shownSum := (top0.map Prod.snd).sum
      let other := nonMissing - shownSum
      let top := if 0 < other then top0 ++ [("Other", other)] else top0
      let total := if (top.map Prod.snd).sum = 0 then 1 else (top.map Prod.snd).sum
      let dominance : ℚ := ((top.headD ("", 0)).2 : ℚ) / (total : ℚ)
      [{ spec := .bar col (top.map Prod.fst) (top.map Prod.snd) maxBars,
         score := rlog10 ((((total : ℚ) + 1 : ℚ) : ℝ)) * 10 + ((dominance : ℚ) : ℝ) * 60,
         purpose := "composition" }]

/-- The `DATE + NUMERIC -> TIME` block of `generateCharts`. -/
noncomputable def timeSection (data : List Row) (dateCols numericCols : List String) :
    List Candidate :=
  dateCols.flatMap (fun dcol =>
    if nameHintsId dcol then []
    else numericCols.flatMap (fun ncol =>
      match buildTimeSeries data dcol ncol with
      | none => []
      | some (points, gran) =>
        let ys := points.map Prod.snd
        let minY := ys.foldl min (ys.headD 0)
        let maxY := ys.foldl max (ys.headD 0)
        let range : ℚ := |maxY - minY|
        [{ spec := .time (ncol ++ " over " ++ dcol) dcol ncol points gran,
           score := ((points.length : ℚ) : ℝ) * 2 + rlog10 (((range + 1 : ℚ) : ℝ)) * 12,
           purpose := "trend" }]))

/-- The `NUMERIC + NUMERIC -> SCATTER` candidates (all pairs `i < j`). -/
noncomputable def scatterCandidates (data : List Row) (numericCols : List String) :
    List Candidate :=
  (List.range numericCols.length).flatMap (fun i =>
    (List.range numericCols.length).flatMap (fun j =>
      if i < j then
        let xCol := numericCols.getD i ""
        let yCol := numericCols.getD j ""
        match buildScatter data xCol yCol with
        | none => []
        | some b =>
          let rAbs : ℝ := |(b.correlation.getD 0)|
          [{ spec := .scatter (yCol ++ " vs " ++ xCol) xCol yCol b.points b.correlation,
             score := ((b.n : ℚ) : ℝ) * (2 / 100 : ℝ) + rAbs * 80 +
               rlog10 (b.sx + b.sy + 1) * 10,
             purpose := "relationship" }]
      else []))

/-- Only the best-scoring scatter candidate is kept. -/
noncomputable def scatterPickSection (data : List Row) (numericCols : List String) :
    List Candidate :=
  match jsSortBy (fun a b =>
      @decide (b.score ≤ a.score) (Classical.propDecidable _))
      (scatterCandidates data numericCols) with
  | [] => []
  | c :: _ => [c]

/-- The `CORR HEATMAP` block of `generateCharts`. -/
noncomputable def corrSection (data : List Row) (eda : Eda) (numericCols : List String) :
    List Candidate :=
  if numericCols.length < 4 then []
  else
    let ranked := ((jsSortBy (fun a b =>
        @decide (b.2 ≤ a.2) (Classical.propDecidable _))
        (numericCols.map (fun c =>
          let info := lookupCol eda c
          let sd : ℝ := (info.bind (fun i => i.stdevV)).getD 0
          let uniq : Nat := match info with
            | some i => i.uniqueCount
            | none => 0
          (c, rlog10 (sd + 1) * 10 + rlog10 ((((uniq : ℚ) + 1 : ℚ) : ℝ)) * 2)))).map
        Prod.fst).take 10
    if ranked.length < 4 then []
    else
      match buildCorrMatrix data ranked with
      | none => []
      | some (matrix, n) =>
        let entry := fun (i j : Nat) => (matrix.getD i []).getD j 0
        let maxOff : ℝ := ((List.range ranked.length).flatMap (fun i =>
          (List.range ranked.length).filterMap (fun j =>
            if i = j then none else some |entry i j|))).foldl max 0
        [{ spec := .corr "Correlation (numeric)" ranked matrix,
           score := ((ranked.length : ℚ) : ℝ) * 10 + ((n : ℚ) : ℝ) * (3 / 100 : ℝ) +
             maxOff * 120,
           purpose := "relationship" }]

/-- JS `Set` built from a list (insertion order, deduplicated). -/
def buildOrderedSet (l : List String) : List String := l.foldl addUnique []

/-- The candidate pool built by `generateCharts` before diversity selection
(the sections appear in the source's push order). -/
noncomputable def genCandidates (data : List Row) (eda : Eda) : List Candidate :=
  if data.isEmpty then []
  else
    let rowCount := data.length
    let allCols := eda.columns.map Prod.fst
    let numericFromEda := ((eda.columns.filter (fun p => p.2.type == "numeric")).filter
      (fun p => ¬ isIdLikeNumeric p.1 (some p.2) rowCount)).map Prod.fst
    let numericSet0 := buildOrderedSet numericFromEda
    let dateFromEda := (eda.columns.filter (fun p =>
      p.2.type == "date" ∨ p.2.type == "datetime")).map Prod.fst
    let dateSet0 := buildOrderedSet dateFromEda
    let catFromEda := (eda.columns.filter (fun p => p.2.type == "categorical")).map Prod.fst
    let dateSet := (detectDateLikeColumns data allCols dateSet0).foldl addUnique dateSet0
    let numericSet := (detectNumericLikeColumns data allCols numericSet0).foldl
      addUnique numericSet0
    let catCols := buildOrderedSet (catFromEda ++ allCols.filter (fun c =>
      ¬ (c ∈ numericSet) ∧ ¬ (c ∈ dateSet)))
    histBoxSection data eda rowCount numericSet ++
      barSection data eda numericSet dateSet catCols ++
      timeSection data dateSet numericSet ++
      scatterPickSection data numericSet ++
      corrSection data eda numericSet

/-- `generateCharts` (charts.ts): the chart entrypoint.  The early returns
for empty input produce the empty candidate pool, on which `pickDiverse`
returns `[]`. -/
noncomputable def generateCharts (data : List Row) (eda : Eda) : List ChartSpec :=
  pickDiverse (genCandidates data eda) 4 8

/-- JS truthiness of an optional cell value (`undefined`, `null`, `0`,
`""` are falsy). -/
def valTruthyOpt : Option Val → Bool
  | none => false
  | some .vNull => false
  | some (.vNum q) => q ≠ 0
  | some (.vStr s) => s ≠ ""

/-! ## kpis.ts -/

/-- A headline metric.  Every push in the source formats `value` as a
string, so `value : String`. -/
structure KPI where
  column : Option String := none
  label : String
  value : String
  type : String
deriving DecidableEq, Repr

/-- Integer rendering of `Number.prototype.toLocaleString()` (en-US digit
grouping, the display default modelled here). -/
def intGrouped (n : ℤ) : String :=
  let g := fun (ds : List Char) =>
    let rec go : List Char → Nat → List Char
      | [], _ => []
      | c :: cs, k => if k = 3 then ',' :: c :: go cs 1 else c :: go cs (k + 1)
    (go ds.reverse 0).reverse
  (if n < 0 then "-" else "") ++ String.mk (g (toString n.natAbs).toList)

/-- `fmtPct` (kpis.ts). -/
def fmtPct (x : ℚ) : String := toString (jsRound x) ++ "%"

/-- `fmtCompact` (kpis.ts). -/
def fmtCompact (n : ℚ) : String :=
  if 1000000000 ≤ |n| then toFixed2 (n / 1000000000) ++ "B"
  else if 1000000 ≤ |n| then toFixed2 (n / 1000000) ++ "M"
  else if 1000 ≤ |n| then intGrouped (jsRound n)
  else if n.den = 1 then intGrouped n.num
  else toFixed2 n

/-- `isIdLikeColumn` (kpis.ts): verbatim duplicate of charts.ts
`isIdLikeNumeric`. -/
def isIdLikeColumn (col : String) (info : Option ColInfo) (rowCount : Nat) : Bool :=
  isIdLikeNumeric col info rowCount

/-- `typeof info?.min === "number" ? info.min : null`. -/
def numberField (v : Option Val) : Option ℚ :=
  match v with
  | some (.vNum q) => some q
  | _ => none

/-- `scoreNumericCol` (kpis.ts): KPI relevance of a numeric column; `0`
excludes, degenerate ranges score `1`. -/
noncomputable def scoreNumericCol (col : String) (info : Option ColInfo)
    (rowCount : Nat) : ℝ :=
  match info with
  | none => 0
  | some i =>
    if isIdLikeColumn col (some i) rowCount then 0
    else
      let nn := i.nonMissingCount.getD 0
      match numberField i.minV, numberField i.maxV with
      | some mn, some mx =>
        if nn < 25 then 0
        else
          let range : ℚ := |mx - mn|
          if range = 0 then 1
          else
            let spread : ℝ := i.stdevV.getD ((range : ℚ) : ℝ)
            rlog10 ((((nn : ℚ) + 1 : ℚ) : ℝ)) * 12 + rlog10 (spread + 1) * 10
      | _, _ => if nn < 25 then 0 else 0

/-- `pickBestCategorical` (kpis.ts): best non-identifier, non-name-list
categorical column (first strict maximum wins ties). -/
def pickBestCategorical (eda : Eda) (rowCountHint : Nat) :
    Option (String × TopVal × ℚ) :=
  let cats := eda.columns.filter (fun p => p.2.type == "categorical")
  cats.foldl (fun best p =>
    let col := p.1
    let i := p.2
    if isIdLikeColumn col (some i) rowCountHint then best
    else
      match i.topValues.head? with
      | none => best
      | some top =>
        let nn0 := i.nonMissingCount.getD 0
        let nn := if nn0 = 0 then rowCountHint else nn0
        let uniqueRatio : ℚ := if 0 < nn then (i.uniqueCount : ℚ) / (nn : ℚ) else 0
        if 50 ≤ i.uniqueCount ∧ (1 : ℚ) / 2 < uniqueRatio ∧ top.pct < 40 then best
        else
          let score : ℚ := top.pct * 2 +
            (if i.uniqueCount ≤ 12 then 30 else if i.uniqueCount ≤ 25 then 15 else 0) +
            (if uniqueRatio < (4 : ℚ) / 10 then 10 else 0)
          match best with
          | none => some (col, top, score)
          | some b => if b.2.2 < score then some (col, top, score) else best) none

/-- `pickBestDate` (kpis.ts): the date column with the widest span. -/
def pickBestDate (eda : Eda) : Option (String × String × String × ℚ) :=
  let dates := eda.columns.filter (fun p => p.2.type == "date")
  dates.foldl (fun best p =>
    let i := p.2
    if ¬ (valTruthyOpt i.minV ∧ valTruthyOpt i.maxV) then best
    else
      let mnS := valToString (i.minV.getD .vNull)
      let mxS := valToString (i.maxV.getD .vNull)
      match jsDateParse mnS, jsDateParse mxS with
      | some a, some b =>
        let days : ℚ := |((b - a : ℤ) : ℚ)| / 86400000
        match best with
        | none => some (p.1, mnS, mxS, days)
        | some bb => if bb.2.2.2 < days then some (p.1, mnS, mxS, days) else best
      | _, _ => best) none

/-- The per-candidate loop body of the numeric KPI triad: emit
total/average/range for the first surviving candidate with at least 25
parsed values. -/
def kpiTriad (data : List Row) : List (String × ColInfo) → List KPI
  | [] => []
  | (col, _) :: rest =>
    let nums := parsedNums data col
    if nums.length < 25 then kpiTriad data rest
    else
      let sum := nums.sum
      let mean := sum / (nums.length : ℚ)
      let mn := nums.foldl min (nums.headD 0)
      let mx := nums.foldl max (nums.headD 0)
      [{ column := some col, label := "Total " ++ col, value := fmtCompact sum,
         type := "sum" },
       { column := some col, label := "Average " ++ col, value := fmtCompact mean,
         type := "mean" },
       { column := some col, label := col ++ " range",
         value := fmtCompact mn ++ " → " ++ fmtCompact mx, type := "range" }]

/-- `generateKPIs` (kpis.ts): the KPI entrypoint. -/
noncomputable def generateKPIs (data : List Row) (eda : Option Eda) : List KPI :=
  if data.isEmpty then []
  else
    let rowCount := data.length
    let rowsKpi : KPI := { label := "Rows", value := intGrouped rowCount, type := "count" }
    match eda with
    | none => [rowsKpi].take 6
    | some e =>
      let dupKpis : List KPI :=
        if 0 < e.duplicates then
          [{ label := "Duplicates", value := intGrouped e.duplicates, type := "count" }]
        else []
      let totalMissing := (e.columns.map (fun p => p.2.missing)).sum
      let totalCells := (e.columns.map (fun p =>
        (p.2.missing + (match p.2.nonMissingCount with
          | some nn => nn
          | none => rowCount - p.2.missing) : ℕ))).sum
      let missKpis : List KPI :=
        if 0 < totalCells then
          [{ label := "Missing rate",
             value := fmtPct ((totalMissing : ℚ) / (totalCells : ℚ) * 100),
             type := "rate" }]
        else []
      let numericCandidates :=
        ((jsSortBy (fun a b =>
            @decide (b.2.2 ≤ a.2.2) (Classical.propDecidable _))
          (((e.columns.filter (fun p => p.2.type == "numeric")).map (fun p =>
            (p.1, p.2, scoreNumericCol p.1 (some p.2) rowCount))).filter
            (fun x => @decide (0 < x.2.2) (Classical.propDecidable _)))).map
          (fun x => (x.1, x.2.1))).take 5
      let triad := kpiTriad data numericCandidates
      let catKpis : List KPI :=
        match pickBestCategorical e rowCount with
        | none => []
        | some (col, top, _) =>
          [{ column := some col, label := "Top " ++ col,
             value := top.value ++ " (" ++ toString (jsRound top.pct) ++ "%)",
             type := "top" }]
      let dateKpis : List KPI :=
        match pickBestDate e with
        | none => []
        | some (col, mn, mx, _) =>
          [{ column := some col, label := "Date span (" ++ col ++ ")",
             value := mn.take 10 ++ " → " ++ mx.take 10, type := "span" }]
      (rowsKpi :: (dupKpis ++ missKpis ++ triad ++ catKpis ++ dateKpis)).take 6

/-! ## insights.ts -/

/-- A severity-tagged natural-language observation. -/
structure Insight where
  id : String
  text : String
  severity : Option String := none
  column : Option String := none
  action : Option String := none
  suggestedQuestions : List String := []
deriving DecidableEq, Repr

/-- Parse the JS decimal-literal grammar, returning its exact value
(`[+-]? (digits [. digits] | . digits) [e [+-]? digits]`). -/
def parseLooseNum (cs0 : List Char) : Option ℚ :=
  let (sign, cs) := match cs0 with
    | '+' :: r => ((1 : ℤ), r)
    | '-' :: r => ((-1 : ℤ), r)
    | _ => ((1 : ℤ), cs0)
  let (ip, cs) := takeDigits cs
  let (fp, cs) := match cs with
    | '.' :: r => takeDigits r
    | _ => ([], cs)
  if ip.length + fp.length = 0 then none
  else match cs with
    | [] => some (decimalToRat sign ip fp 1 [])
    | 'e' :: r | 'E' :: r =>
        let (esign, r) := match r with
          | '+' :: r' => ((1 : ℤ), r')
          | '-' :: r' => ((-1 : ℤ), r')
          | _ => ((1 : ℤ), r)
        let (ed, r) := takeDigits r
        if ed.isEmpty ∨ ¬ r.isEmpty then none
        else some (decimalToRat sign ip fp esign ed)
    | _ => none

/-- `Number(s)` string coercion (decimal literals; the empty/whitespace
string is `0`, unparseable strings are `NaN`, i.e. `none`; the hex/binary
and `Infinity` literal forms do not occur in this development). -/
def jsNumberStr (s : String) : Option ℚ :=
  let t := s.trim
  if t = "" then some 0 else parseLooseNum t.toList

/-- `num` (insights.ts) applied to a dynamic profile field holding a cell
value: `Number(v)`, `null` when not finite. -/
def numOfValOpt : Option Val → Option ℚ
  | none => none
  | some .vNull => some 0
  | some (.vNum q) => some q
  | some (.vStr s) => jsNumberStr s

/-- `normalizeKey` (insights.ts and ask.ts): lower-case and keep only
`[a-z0-9]`. -/
def normalizeKey (s : String) : String :=
  String.mk (s.toLower.toList.filter (fun c => ('a' ≤ c ∧ c ≤ 'z') ∨ c.isDigit))

/-- `resolveColumn` (insights.ts): exact normalised-key match. -/
def resolveColumnIns (raw : String) (columns : List (String × ColInfo)) :
    Option String :=
  let target := normalizeKey raw
  if target = "" then none
  else (columns.find? (fun p => normalizeKey p.1 == target)).map Prod.fst

/-- `pushUnique` (insights.ts): append unless the id already exists. -/
def pushUnique (into : List Insight) (item : Insight) : List Insight :=
  if into.any (fun x => x.id == item.id) then into else into ++ [item]

/-- Severity weight of `sortBusiness`: warning 0, positive 1, info 2. -/
def severityWeight (sev : Option String) : Nat :=
  let s := sev.getD "info"
  if s == "warning" then 0 else if s == "positive" then 1 else 2

/-- `sortBusiness` (insights.ts): stable sort warning > positive > info. -/
def sortBusiness (insights : List Insight) : List Insight :=
  jsSortBy (fun a b => decide (severityWeight a.severity ≤ severityWeight b.severity))
    insights

/-- `suggest` (insights.ts): per-rule-kind follow-up question templates,
trimmed, de-duplicated, empties dropped. -/
def suggest (col : Option String) (kind : String) : List String :=
  let c := col.getD ""
  let base : List String :=
    if kind == "outlier" then
      ["explain " ++ c, "distribution of " ++ c, "should i use mean or median",
       "are there any outliers", "what risks do the outliers pose"]
    else if kind == "dominance" then
      ["top " ++ c, "distribution of " ++ c, "what stands out",
       "what decisions could be misleading", "what would you investigate next"]
    else if kind == "missing" then
      ["missing by column", "is this dataset clean", "are there any data quality risks",
       if c ≠ "" then "explain " ++ c else "summarise dataset"]
    else if kind == "time" then
      ["what is the time coverage of this dataset",
       "are there enough dates to analyse trends", "is this data seasonal",
       "what would a time trend reveal here"]
    else if kind == "headline" then
      ["summarise dataset", "what is the main metric", "what stands out",
       "what would you highlight to executives"]
    else []
  buildOrderedSet ((base.map String.trim).filter (fun s => s ≠ ""))

/-- Joined name list capped at four entries, with a trailing ellipsis
beyond four (`/* … */`). -/
def joinFour (names : List String) : String :=
  String.intercalate ", " (names.take 4) ++ (if 4 < names.length then "…" else "")

/-- The `mainMetric` anchor of `generateInsights`: first sum KPI with a
column, else first mean KPI with a column, resolved against the profile. -/
def mainMetricColOf (kpis : List KPI) (columns : List (String × ColInfo)) :
    Option String :=
  let mainMetric :=
    match kpis.find? (fun k => k.type == "sum" ∧ k.column.isSome) with
    | some k => some k
    | none => kpis.find? (fun k => k.type == "mean" ∧ k.column.isSome)
  match mainMetric with
  | some k =>
    match k.column with
    | some c => resolveColumnIns c columns
    | none => none
  | none => none

/-- One scored entry of the numeric-risk candidate pool. -/
structure OutCand where
  col : String
  score : ℚ
  insight : Insight
deriving DecidableEq, Repr

/-- The numeric outlier/negative/skew candidates contributed by one profile
entry (section 3 of `generateInsights`). -/
def outlierEntriesFor (mainMetricCol : Option String) (p : String × ColInfo) :
    List OutCand :=
  let col := p.1
  let info := p.2
  if ¬ (info.type == "numeric") then []
  else
    match numOfValOpt info.maxV, info.meanV with
    | some mx, some mean =>
      if mean = 0 then []
      else
        let ratio := mx / max (1 / 1000000000 : ℚ) mean
        let meanMedianGap : Option ℚ :=
          match info.medianV with
          | some med => if 0 < med then some (mean / max (1 / 1000000000 : ℚ) med) else none
          | none => none
        let skewHint : Bool := match meanMedianGap with
          | some g => decide ((11 : ℚ) / 10 ≤ g)
          | none => false
        if ratio < 3 then []
        else
          let isMain := mainMetricCol == some col
          let metricTag := if isMain then "Main metric" else "Metric"
          let score := (if isMain then (100 : ℚ) else 0) + ratio * 10
          let mainEntry : OutCand :=
            { col := col, score := score,
              insight :=
                { id := "outlier-" ++ normalizeKey col, severity := some "warning",
                  column := some col, action := some "investigate",
                  text := metricTag ++ " \"" ++ col ++
                    "\" has extreme values that may distort averages. " ++
                    "Use median/percentiles and segment (e.g., by category/country) before making decisions.",
                  suggestedQuestions := suggest (some col) "outlier" } }
          let negEntries : List OutCand :=
            match numOfValOpt info.minV with
            | some mn =>
              if mn < 0 then
                [{ col := col, score := score - 20,
                   insight :=
                     { id := "negatives-" ++ normalizeKey col, severity := some "info",
                       column := some col, action := some "investigate",
                       text := "\"" ++ col ++
                         "\" includes negative values. Confirm whether negatives represent refunds/credits or data errors.",
                       suggestedQuestions := ["explain " ++ col, "distribution of " ++ col,
                         "are there any data quality risks"] } }]
              else []
            | none => []
          let skewEntries : List OutCand :=
            if skewHint then
              [{ col := col, score := score - 25,
                 insight :=
                   { id := "skew-" ++ normalizeKey col, severity := some "info",
                     column := some col, action := some "monitor",
                     text := "\"" ++ col ++
                       "\" appears right-skewed (mean > median). Median-based KPIs may be more stable for reporting.",
                     suggestedQuestions := ["should i use mean or median",
                       "distribution of " ++ col, "are extreme values affecting averages"] } }]
            else []
          [mainEntry] ++ negEntries ++ skewEntries
    | _, _ => []

/-- The full numeric-risk candidate pool of `generateInsights`. -/
def outlierCandidatesOf (mainMetricCol : Option String) (eda : Eda) : List OutCand :=
  eda.columns.flatMap (outlierEntriesFor mainMetricCol)

/-- The categorical dominance candidates (section 4 of `generateInsights`). -/
def dominanceCandidatesOf (eda : Eda) : List OutCand :=
  eda.columns.flatMap (fun p =>
    let col := p.1
    let info := p.2
    if ¬ (info.type == "categorical") then []
    else match info.topValues.head? with
    | none => []
    | some top =>
      if 70 ≤ top.pct ∧ 2 ≤ info.uniqueCount then
        [{ col := col, score := top.pct * 2 - info.uniqueCount,
           insight :=
             { id := "dominance-" ++ normalizeKey col, severity := some "info",
               column := some col, action := some "segment",
               text := "Column \"" ++ col ++ "\" is highly concentrated: \"" ++
                 top.value ++ "\" accounts for ~" ++ toString (jsRound top.pct) ++
                 "%. This can hide smaller segments—break down key metrics by \"" ++
                 col ++ "\" before concluding.",
               suggestedQuestions := suggest (some col) "dominance" } }]
      else [])

/-- `generateInsights` (insights.ts): the rule set over profile + KPIs,
deduplicated by id, severity-sorted, capped at 6. -/
def generateInsights (eda : Eda) (kpis : List KPI) : List Insight :=
  let columns := eda.columns
  let mainMetricCol := mainMetricColOf kpis columns
  let ins0 : List Insight := []
  let ins1 :=
    if 0 < eda.duplicates then
      pushUnique ins0
        { id := "duplicates", severity := some "warning", action := some "clean",
          text := "Dataset contains " ++ intGrouped eda.duplicates ++
            " duplicate row(s). Consider de-duplicating before analysis.",
          suggestedQuestions := suggest none "missing" }
    else ins0
  let ins2 :=
    if ¬ eda.emptyColumns.isEmpty then
      pushUnique ins1
        { id := "empty-cols", severity := some "warning", action := some "clean",
          text := "Some columns are empty (all missing): " ++
            joinFour eda.emptyColumns ++ ". Remove or fix them.",
          suggestedQuestions := suggest none "missing" }
    else ins1
  let ins3 :=
    if ¬ eda.constantColumns.isEmpty then
      pushUnique ins2
        { id := "constant-cols", severity := some "info", action := some "clean",
          text := "Some columns are constant (no variation): " ++
            joinFour eda.constantColumns ++ ". They won’t help explain differences.",
          suggestedQuestions := ["summarise dataset", "what columns are most important",
            "what would you investigate next"] }
    else ins2
  let ins4 := columns.foldl (fun acc p =>
    let col := p.1
    let info := p.2
    match info.nonMissingCount with
    | none => acc
    | some nn =>
      let totalApprox := info.missing + nn
      if 0 < totalApprox then
        let missPct : ℚ := (info.missing : ℚ) / (totalApprox : ℚ) * 100
        if 25 ≤ missPct then
          pushUnique acc
            { id := col ++ "-missing",
              severity := some (if 40 ≤ missPct then "warning" else "info"),
              column := some col, action := some "clean",
              text := "Column \"" ++ col ++ "\" has ~" ++ toString (jsRound missPct) ++
                "% missing values. Any conclusions involving this column may be biased.",
              suggestedQuestions := suggest (some col) "missing" }
        else acc
      else acc) ins3
  let outCands := outlierCandidatesOf mainMetricCol eda
  let ins5 := ((jsSortBy (fun a b => decide (b.score ≤ a.score)) outCands).take 2).foldl
    (fun acc c => pushUnique acc c.insight) ins4
  let domCands := dominanceCandidatesOf eda
  let ins6 := ((jsSortBy (fun a b => decide (b.score ≤ a.score)) domCands).take 1).foldl
    (fun acc c => pushUnique acc c.insight) ins5
  let ins7 :=
    match columns.find? (fun p => p.2.type == "date") with
    | none => ins6
    | some (dateCol, info) =>
      let mn := if valTruthyOpt info.minV then
          some ((valToString (info.minV.getD .vNull)).take 10) else none
      let mx := if valTruthyOpt info.maxV then
          some ((valToString (info.maxV.getD .vNull)).take 10) else none
      match mn, mx with
      | some mnS, some mxS =>
        let uniq := info.uniqueCount
        pushUnique ins6
          { id := dateCol ++ "-coverage", severity := some "info",
            column := some dateCol, action := some "monitor",
            text := "Time coverage: \"" ++ dateCol ++ "\" spans " ++ mnS ++ " → " ++
              mxS ++ ". " ++
              (if 30 ≤ uniq then
                "Enough granularity (" ++ toString uniq ++
                  " unique dates) for trend/seasonality checks via weekly/monthly aggregation."
              else
                "Date coverage exists but granularity is limited (" ++ toString uniq ++
                  " unique dates)."),
            suggestedQuestions := suggest (some dateCol) "time" }
      | _, _ => ins6
  let ins8 :=
    match kpis.find? (fun k => k.type == "sum" ∧ k.column.isSome) with
    | some sumKpi =>
      let col := (resolveColumnIns (sumKpi.column.getD "") columns).getD
        (sumKpi.column.getD "")
      pushUnique ins7
        { id := "headline-total-" ++ normalizeKey col, severity := some "positive",
          column := some col, action := some "report",
          text := "Headline: Total " ++ col ++ " = " ++ sumKpi.value ++
            " (useful for top-line reporting).",
          suggestedQuestions := suggest (some col) "headline" }
    | none =>
      match kpis.find? (fun k => k.type == "mean" ∧ k.column.isSome) with
      | some meanKpi =>
        let col := (resolveColumnIns (meanKpi.column.getD "") columns).getD
          (meanKpi.column.getD "")
        pushUnique ins7
          { id := "headline-avg-" ++ normalizeKey col, severity := some "positive",
            column := some col, action := some "report",
            text := "Headline: Average " ++ col ++ " = " ++ meanKpi.value ++
              " (useful for baseline reporting).",
            suggestedQuestions := suggest (some col) "headline" }
      | none => ins7
  (sortBusiness ins8).take 6

/-! ## ask.ts -/

/-- Does an occurrence of `pat` immediately followed by a whitespace
character exist in `s` (regex `pat\s+` with literal `pat`)? -/
def containsThenWs (s pat : String) : Bool :=
  s.toList.tails.any (fun t =>
    pat.toList.isPrefixOf t &&
      (match t.drop pat.length with
       | c :: _ => c.isWhitespace
       | [] => false))

/-- Does `s` contain `pat1` followed (anywhere later) by `pat2`
(regex `pat1.*pat2`)? -/
def containsThen (s pat1 pat2 : String) : Bool :=
  s.toList.tails.any (fun t =>
    pat1.toList.isPrefixOf t ∧ strContains (String.mk (t.drop pat1.length)) pat2)

/-- `/^\s*pat\s+/` test. -/
def startsThenWs (s pat : String) : Bool :=
  let t := s.toList.dropWhile Char.isWhitespace
  pat.toList.isPrefixOf t &&
    (match t.drop pat.length with
     | c :: _ => c.isWhitespace
     | [] => false)

def isSummaryQ (q : String) : Bool :=
  strContains q "summarise" ∨ strContains q "summarize" ∨ strContains q "summary" ∨
    strContains q "overview"

def isWhatStandsOutQ (q : String) : Bool :=
  strContains q "what stands out" ∨ strContains q "stand out"

def isMainMetricQ (q : String) : Bool :=
  strContains q "main metric" ∨ strContains q "primary metric" ∨
    strContains q "key metric"

def isTopQ (q : String) : Bool := startsThenWs q "top"

def isExplainQ (q : String) : Bool := startsThenWs q "explain"

def isDistributionQ (q : String) : Bool :=
  containsThenWs q "distribution of" ∨ containsThenWs q "distribution" ∨
    containsThenWs q "dist of"

def isOutliersQ (q : String) : Bool :=
  strContains q "outlier" ∨ strContains q "anomal"

def isSkewQ (q : String) : Bool :=
  strContains q "skew" ∨ strContains q "skewed" ∨ strContains q "mean" ∨
    strContains q "median" ∨ strContains q "average" ∨ strContains q "robust"

def isTimeQ (q : String) : Bool :=
  strContains q "time coverage" ∨ strContains q "time range" ∨
    strContains q "date range" ∨ strContains q "time trend" ∨ strContains q "trend" ∨
    strContains q "time series" ∨ strContains q "season"

def isKpiGapQ (q : String) : Bool :=
  strContains q "missing kpi" ∨ containsThen q "kpi" "missing" ∨
    strContains q "what kpis" ∨ strContains q "kpi gaps" ∨
    strContains q "dashboard kpis"

def isNextStepsQ (q : String) : Bool :=
  strContains q "what would you investigate next" ∨ strContains q "investigate next" ∨
    strContains q "next steps" ∨ strContains q "what next"

def isNotAnswerableQ (q : String) : Bool :=
  strContains q "cannot answer" ∨ strContains q "can\x27t answer" ∨
    strContains q "not answer" ∨ strContains q "limitations" ∨
    containsThen q "what questions" "not"

def isDataImproveQ (q : String) : Bool :=
  containsThen q "what data" "improve" ∨ containsThen q "add" "improve" ∨
    strContains q "improve decision" ∨ strContains q "what would you add"

def isExecQ (q : String) : Bool :=
  strContains q "executive" ∨ strContains q "stakeholder" ∨
    strContains q "highlight" ∨ strContains q "warn" ∨ strContains q "risk" ∨
    strContains q "assumption" ∨ strContains q "mislead" ∨ strContains q "mistake" ∨
    strContains q "decision"

/-- `resolveColumn` (ask.ts): exact normalised match, then substring
containment either way. -/
def resolveColumnAsk (raw : String) (eda : Eda) : Option String :=
  let rawStr := raw.trim
  if rawStr = "" then none
  else
    let target := normalizeKey rawStr
    if target = "" then none
    else
      match eda.columns.find? (fun p => normalizeKey p.1 == target) with
      | some p => some p.1
      | none =>
        (eda.columns.find? (fun p =>
          strContains (normalizeKey p.1) target ∨
            strContains target (normalizeKey p.1))).map Prod.fst

/-- `fmtNum` (ask.ts). -/
def fmtNumAsk : Option ℚ → String
  | none => "—"
  | some x =>
    if 1000000000 ≤ |x| then toFixed2 (x / 1000000000) ++ "B"
    else if 1000000 ≤ |x| then toFixed2 (x / 1000000) ++ "M"
    else if 1000 ≤ |x| then intGrouped (jsRound x)
    else if x.den = 1 then intGrouped x.num
    else toFixed2 x

/-- `fmtPct` (ask.ts). -/
def fmtPctAsk : Option ℚ → String
  | none => "—"
  | some x => toString (jsRound x) ++ "%"

/-- `String(info?.min ?? "—")`. -/
def valOrDash : Option Val → String
  | none => "—"
  | some v => valToString v

/-- Remove the first occurrence of `pat` from `s`
(`String.prototype.replace` with a non-global literal pattern). -/
def removeFirst (s pat : String) : String :=
  match s.splitOn pat with
  | [] => s
  | [x] => x
  | x :: rest => x ++ String.intercalate pat rest

/-- Strip a leading `pat` plus the following whitespace run
(`.replace(/^pat\s+/, "")`; no-op when the pattern does not match). -/
def stripLeading (s pat : String) : String :=
  if startsThenWs s pat ∧ s.startsWith pat then
    String.mk ((s.toList.drop pat.length).dropWhile Char.isWhitespace)
  else s

/-- `meta` of the query entrypoint (produced by the out-of-scope ingestion
collaborator). -/
structure Meta where
  rows : Nat := 0
  columns : Nat := 0

/-- `mainNumericFromKpis` (ask.ts). -/
def mainNumericFromKpis (kpis : List KPI) : Option KPI :=
  match kpis.find? (fun k => k.type == "sum" ∧ k.column.isSome) with
  | some k => some k
  | none => kpis.find? (fun k => k.type == "mean" ∧ k.column.isSome)

/-- `answerQuestion` (ask.ts): normalise, classify intent by ordered
pattern match (first match wins), resolve referenced columns fuzzily, and
render a deterministic templated sentence; total, never throws. -/
noncomputable def answerQuestion (q : String) (meta : Meta) (eda : Eda)
    (kpis : List KPI) (charts : List ChartSpec) (insights : List Insight) : String :=
  let query := q.trim
  let queryLower := query.toLower
  let columns := eda.columns
  let hasDate := columns.any (fun p => p.2.type == "date")
  let numericCols := columns.filter (fun p => p.2.type == "numeric")
  let categoricalCols := columns.filter (fun p => p.2.type == "categorical")
  let mainNumeric := mainNumericFromKpis kpis
  let outlierInsights := insights.filter (fun i =>
    (i.severity.getD "").toLower == "warning")
  if isSummaryQ queryLower then
    let mainTxt := match mainNumeric.bind (fun k => k.column) with
      | some c => " The primary numeric signal appears to be \"" ++ c ++ "\"."
      | none => ""
    let timeTxt := if hasDate then ", with a time dimension present." else "."
    "This dataset contains " ++ toString meta.rows ++ " rows and " ++
      toString meta.columns ++ " columns. It includes " ++
      toString numericCols.length ++ " numeric columns and " ++
      toString categoricalCols.length ++ " categorical columns" ++ timeTxt ++ mainTxt
  else if isWhatStandsOutQ queryLower then
    if insights.isEmpty then "No strong anomalies or dominant patterns were detected."
    else String.intercalate "\n" (insights.map (fun i => "• " ++ i.text))
  else if isMainMetricQ queryLower then
    match mainNumeric.bind (fun k => k.column) with
    | some c => "The main metric appears to be \"" ++ c ++
        "\", based on scale and variation."
    | none => "No clear primary metric could be identified without additional context."
  else if isOutliersQ queryLower then
    if outlierInsights.isEmpty then
      "No significant outliers were detected based on basic statistical thresholds."
    else String.intercalate "\n" (outlierInsights.map (fun i => "• " ++ i.text))
  else if isSkewQ queryLower then
    if ¬ outlierInsights.isEmpty then
      "The main numeric columns appear skewed due to extreme values. Median-based analysis is recommended."
    else
      "The numeric distributions do not appear heavily skewed; mean-based summaries should be generally fine."
  else if isExplainQ queryLower then
    let raw := (stripLeading queryLower "explain").trim
    match resolveColumnAsk raw eda with
    | none => "I couldn’t find a matching column for \"" ++ raw ++
        "\". Try copying the column name from the EDA list."
    | some col =>
      match lookupCol eda col with
      | some info =>
        if info.type == "numeric" then
          let mean := fmtNumAsk info.meanV
          let median := fmtNumAsk info.medianV
          "\"" ++ col ++ "\" is a numeric column with " ++ toString info.uniqueCount ++
            " unique values and " ++ toString info.missing ++
            " missing values. It ranges from " ++ fmtNumAsk (numberField info.minV) ++
            " to " ++ fmtNumAsk (numberField info.maxV) ++ ". Mean: " ++ mean ++
            (if median ≠ "—" then ", Median: " ++ median else "") ++ "."
        else if info.type == "categorical" then
          let top := info.topValues.head?
          "\"" ++ col ++ "\" is a categorical column with " ++
            toString info.uniqueCount ++ " unique values and " ++
            toString info.missing ++ " missing values. The most common value is \"" ++
            (match top with
             | some t => t.value
             | none => "—") ++ "\" (" ++ fmtPctAsk (top.map (fun t => t.pct)) ++ ")."
        else if info.type == "date" then
          "\"" ++ col ++ "\" is a date column. It spans from " ++ valOrDash info.minV ++
            " to " ++ valOrDash info.maxV ++ " with " ++ toString info.uniqueCount ++
            " unique dates."
        else
          "\"" ++ col ++ "\" exists, but its type (" ++ info.type ++
            ") isn’t supported for detailed explanation yet."
      | none =>
        "\"" ++ col ++ "\" exists, but its type (unknown) isn’t supported for detailed explanation yet."
  else if isDistributionQ queryLower then
    let raw := (removeFirst (removeFirst (removeFirst queryLower "distribution of")
      "dist of") "distribution").trim
    match resolveColumnAsk raw eda with
    | none => "I couldn’t find a matching column for \"" ++ raw ++
        "\". Try: \"distribution of <exact column name>\"."
    | some col =>
      match lookupCol eda col with
      | some info =>
        if info.type == "numeric" then
          let hasVariation : Bool := match info.stdevV with
            | some s => @decide (0 < s) (Classical.propDecidable _)
            | none => false
          let variation := if hasVariation then "noticeable variation" else "low variation"
          "The distribution of \"" ++ col ++ "\" spans from " ++
            fmtNumAsk (numberField info.minV) ++ " to " ++
            fmtNumAsk (numberField info.maxV) ++ ". Mean: " ++ fmtNumAsk info.meanV ++
            (match info.medianV with
             | some m => ", Median: " ++ fmtNumAsk (some m)
             | none => "") ++ ", with " ++ variation ++ "."
        else if info.type == "categorical" then
          let top := info.topValues.head?
          "\"" ++ col ++ "\" contains " ++ toString info.uniqueCount ++
            " categories. The top category \"" ++
            (match top with
             | some t => t.value
             | none => "—") ++ "\" accounts for " ++
            fmtPctAsk (top.map (fun t => t.pct)) ++ "."
        else "\"" ++ col ++ "\" does not have a distribution suitable for analysis."
      | none => "\"" ++ col ++ "\" does not have a distribution suitable for analysis."
  else if isTopQ queryLower then
    let raw := (stripLeading queryLower "top").trim
    match resolveColumnAsk raw eda with
    | none => "I couldn’t find a matching column for \"" ++ raw ++ "\"."
    | some col =>
      match lookupCol eda col with
      | some info =>
        if info.topValues.isEmpty then
          "Top values could not be determined for \"" ++ col ++ "\"."
        else
          "Top values in \"" ++ col ++ "\": " ++
            String.intercalate ", " ((info.topValues.take 5).map (fun v =>
              v.value ++ " (" ++ fmtPctAsk (some v.pct) ++ ")"))
      | none => "Top values could not be determined for \"" ++ col ++ "\"."
  else if isTimeQ queryLower then
    if ¬ hasDate then
      "This dataset does not contain a date column suitable for time analysis."
    else
      match columns.find? (fun p => p.2.type == "date") with
      | none => "A date column was detected, but I couldn’t resolve it reliably."
      | some (_, info) =>
        let span := "The dataset spans from " ++ valOrDash info.minV ++ " to " ++
          valOrDash info.maxV ++ "."
        let uniq := " With " ++ toString info.uniqueCount ++
          " unique dates, basic trend analysis is feasible."
        if strContains queryLower "season" then
          span ++ uniq ++
            " To confirm seasonality, you’d typically aggregate by week/month and compare recurring peaks across periods."
        else if strContains queryLower "reveal" ∨ strContains queryLower "appropriate" ∨
            strContains queryLower "trend analysis" then
          span ++ uniq ++
            " A sensible approach is to aggregate the main numeric metric by week/month and compare changes over time, then segment by key categories (country/device/category) to see drivers."
        else span ++ uniq
  else if isKpiGapQ queryLower then
    "Potential KPI gaps for a decision-ready dashboard include: growth rates (MoM/YoY), targets/benchmarks, profit or margin metrics, segmentation KPIs (by key categories), and trend KPIs (rolling averages). Without these, insights remain mostly descriptive."
  else if isNextStepsQ queryLower then
    "Recommended next steps: segment the main metric by key categories (e.g., country/device/category), investigate extreme values, compare mean vs median trends, analyse time trends for shifts, and identify top contributors vs the long tail."
  else if isNotAnswerableQ queryLower then
    "This dataset can describe what happened (totals, distributions, segments, trends), but it cannot reliably explain causality (why it happened), intent, or performance vs targets unless you add benchmarks, campaign context, or business rules."
  else if isDataImproveQ queryLower then
    "To improve decision-making, add: targets/quotas, product/region hierarchy, customer IDs with lifecycle info, discount/promo flags, channel/source, and a clear profit/margin field. These unlock performance vs target, attribution, and actionable segmentation."
  else if isExecQ queryLower then
    "Key considerations based on this dataset: outliers may distort averages (use medians + segmentation), dominant categories can hide minority behaviour, time trends are descriptive not explanatory, and this dataset supports monitoring and exploration—not causal claims."
  else
    "Based on the dataset structure and available statistics: the data supports descriptive analysis and high-level trend exploration. Outliers suggest caution when using averages, and dominant categories may hide smaller segments. If you want something specific, reference a column (e.g., \"explain cost\", \"top country\", \"distribution of order_value_EUR\", \"time coverage\")."

/-! ## General lemmas: stable sort -/

theorem insertStable_perm (le : α → α → Bool) (x : α) (l : List α) :
    (insertStable le x l).Perm (x :: l) := by
  induction l with
  | nil => simp [insertStable]
  | cons y ys ih =>
    simp only [insertStable]
    by_cases h : le y x = true
    · simp only [h, if_pos]
      exact ((ih.cons y).trans (List.Perm.swap x y ys))
    · simp only [h]
      simp

theorem jsSortBy_perm (le : α → α → Bool) (l : List α) : (jsSortBy le l).Perm l := by
  suffices h : ∀ (acc : List α), (l.foldl (fun acc x => insertStable le x acc) acc).Perm
      (acc ++ l) by
    simpa [jsSortBy] using h []
  induction l with
  | nil => intro acc; simp
  | cons y ys ih =>
    intro acc
    simp only [List.foldl_cons]
    refine (ih (insertStable le y acc)).trans ?_
    have h1 : (insertStable le y acc ++ ys).Perm ((y :: acc) ++ ys) :=
      (insertStable_perm le y acc).append_right ys
    refine h1.trans ?_
    simp only [List.cons_append]
    exact List.perm_middle.symm

theorem jsSortBy_length (le : α → α → Bool) (l : List α) :
    (jsSortBy le l).length = l.length :=
  (jsSortBy_perm le l).length_eq

theorem jsSortBy_mem (le : α → α → Bool) {x : α} {l : List α} :
    x ∈ jsSortBy le l ↔ x ∈ l :=
  (jsSortBy_perm le l).mem_iff

theorem jsSortBy_countP (le : α → α → Bool) (p : α → Bool) (l : List α) :
    (jsSortBy le l).countP p = l.countP p :=
  (jsSortBy_perm le l).countP_eq p

/-- Sortedness of the stable insertion sort for a transitive total boolean
comparator. -/
theorem insertStable_pairwise (le : α → α → Bool)
    (htot : ∀ a b, le a b = true ∨ le b a = true)
    (htrans : ∀ a b c, le a b = true → le b c = true → le a c = true)
    (x : α) (l : List α) (hl : l.Pairwise (fun a b => le a b = true)) :
    (insertStable le x l).Pairwise (fun a b => le a b = true) := by
  induction l with
  | nil => simp [insertStable]
  | cons y ys ih =>
    rcases hl with - | ⟨hy, hys⟩
    simp only [insertStable]
    by_cases h : le y x = true
    · simp only [h, if_pos, List.pairwise_cons]
      refine ⟨?_, ih hys⟩
      intro z hz
      rcases List.mem_cons.mp ((insertStable_perm le x ys).mem_iff.mp hz) with rfl | hz'
      · exact h
      · exact hy z hz'
    · have hxy : le x y = true := (htot x y).resolve_right (by simpa using h)
      simp only [h, if_neg, Bool.false_eq_true, not_false_iff]
      constructor
      · intro z hz
        rcases List.mem_cons.mp hz with rfl | hz'
        · exact hxy
        · exact htrans x y z hxy (hy z hz')
      · exact List.Pairwise.cons hy hys

theorem jsSortBy_pairwise (le : α → α → Bool)
    (htot : ∀ a b, le a b = true ∨ le b a = true)
    (htrans : ∀ a b c, le a b = true → le b c = true → le a c = true)
    (l : List α) : (jsSortBy le l).Pairwise (fun a b => le a b = true) := by
  suffices h : ∀ (acc : List α), acc.Pairwise (fun a b => le a b = true) →
      (l.foldl (fun acc x => insertStable le x acc) acc).Pairwise
        (fun a b => le a b = true) by
    exact h [] (List.Pairwise.nil)
  induction l with
  | nil => intro acc hacc; simpa using hacc
  | cons y ys ih =>
    intro acc hacc
    exact ih _ (insertStable_pairwise le htot htrans y acc hacc)

/-- Ascending rational sort is sorted. -/
theorem jsSortBy_rat_sorted (l : List ℚ) :
    (jsSortBy (fun a b => decide (a ≤ b)) l).Pairwise (· ≤ ·) := by
  have h := jsSortBy_pairwise (fun a b : ℚ => decide (a ≤ b))
    (fun a b => by rcases le_total a b with h | h
                   · exact Or.inl (decide_eq_true h)
                   · exact Or.inr (decide_eq_true h))
    (fun a b c hab hbc => decide_eq_true (le_trans (of_decide_eq_true hab) (of_decide_eq_true hbc)))
    l
  exact h.imp (fun hx => of_decide_eq_true hx)

/-! ## General lemmas: the diversity selector -/

theorem pdLoop1_prefix (mx : Nat) (todo : List (Nat × Candidate))
    (picks : List (Nat × ChartSpec)) (pc tc : String → Nat) :
    ∃ rest, pdLoop1 mx todo picks pc tc = picks ++ rest := by
  induction todo generalizing picks pc tc with
  | nil => exact ⟨[], by simp [pdLoop1]⟩
  | cons hd tl ih =>
    obtain ⟨i, c⟩ := hd
    simp only [pdLoop1]
    by_cases h1 : mx ≤ picks.length
    · exact ⟨[], by simp [h1]⟩
    · simp only [if_neg h1]
      by_cases h2 : canTake pc tc c = true
      · simp only [h2, if_pos]
        obtain ⟨r, hr⟩ := ih (picks ++ [(i, c.spec)]) (bumpCount pc c.purpose)
          (bumpCount tc (specType c.spec))
        exact ⟨(i, c.spec) :: r, by simpa using hr⟩
      · simp only [h2]
        simpa using ih picks pc tc

theorem pdLoop1_sub (mx : Nat) (todo : List (Nat × Candidate))
    (picks : List (Nat × ChartSpec)) (pc tc : String → Nat) :
    ∀ x ∈ pdLoop1 mx todo picks pc tc,
      x ∈ picks ∨ ∃ c, (x.1, c) ∈ todo ∧ c.spec = x.2 := by
  induction todo generalizing picks pc tc with
  | nil => intro x hx; exact Or.inl (by simpa [pdLoop1] using hx)
  | cons hd tl ih =>
    obtain ⟨i, c⟩ := hd
    intro x hx
    simp only [pdLoop1] at hx
    by_cases h1 : mx ≤ picks.length
    · exact Or.inl (by simpa [h1] using hx)
    · simp only [if_neg h1] at hx
      by_cases h2 : canTake pc tc c = true
      · simp only [h2, if_pos] at hx
        rcases ih _ _ _ x hx with hmem | ⟨c', hc', hs⟩
        · rcases List.mem_append.mp hmem with hl | hr
          · exact Or.inl hl
          · obtain rfl : x = (i, c.spec) := by simpa using hr
            exact Or.inr ⟨c, by simp, rfl⟩
        · exact Or.inr ⟨c', List.mem_cons_of_mem _ hc', hs⟩
      · simp only [h2] at hx
        rcases ih _ _ _ x hx with hmem | ⟨c', hc', hs⟩
        · exact Or.inl hmem
        · exact Or.inr ⟨c', List.mem_cons_of_mem _ hc', hs⟩

theorem pdLoop1_length_le (mx : Nat) (todo : List (Nat × Candidate))
    (picks : List (Nat × ChartSpec)) (pc tc : String → Nat)
    (h : picks.length ≤ mx) : (pdLoop1 mx todo picks pc tc).length ≤ mx := by
  induction todo generalizing picks pc tc with
  | nil => simpa [pdLoop1]
  | cons hd tl ih =>
    obtain ⟨i, c⟩ := hd
    simp only [pdLoop1]
    by_cases h1 : mx ≤ picks.length
    · simpa [h1]
    · simp only [if_neg h1]
      by_cases h2 : canTake pc tc c = true
      · simp only [h2, if_pos]
        exact ih _ _ _ (by simp; omega)
      · simp only [h2]
        exact ih _ _ _ h

theorem pdBackfill_prefix (mn : Nat) (todo : List (Nat × Candidate))
    (picks : List (Nat × ChartSpec)) :
    ∃ rest, pdBackfill mn todo picks = picks ++ rest := by
  induction todo generalizing picks with
  | nil => exact ⟨[], by simp [pdBackfill]⟩
  | cons hd tl ih =>
    obtain ⟨i, c⟩ := hd
    simp only [pdBackfill]
    by_cases h1 : mn ≤ picks.length
    · exact ⟨[], by simp [h1]⟩
    · simp only [if_neg h1]
      by_cases h2 : picks.any (fun p => p.1 == i) = true
      · simp only [h2, if_pos]
        exact ih picks
      · simp only [h2]
        obtain ⟨r, hr⟩ := ih (picks ++ [(i, c.spec)])
        exact ⟨(i, c.spec) :: r, by simpa using hr⟩

theorem pdBackfill_sub (mn : Nat) (todo : List (Nat × Candidate))
    (picks : List (Nat × ChartSpec)) :
    ∀ x ∈ pdBackfill mn todo picks,
      x ∈ picks ∨ ∃ c, (x.1, c) ∈ todo ∧ c.spec = x.2 := by
  induction todo generalizing picks with
  | nil => intro x hx; exact Or.inl (by simpa [pdBackfill] using hx)
  | cons hd tl ih =>
    obtain ⟨i, c⟩ := hd
    intro x hx
    simp only [pdBackfill] at hx
    by_cases h1 : mn ≤ picks.length
    · exact Or.inl (by simpa [h1] using hx)
    · simp only [if_neg h1] at hx
      by_cases h2 : picks.any (fun p => p.1 == i) = true
      · simp only [h2, if_pos] at hx
        rcases ih _ x hx with hmem | ⟨c', hc', hs⟩
        · exact Or.inl hmem
        · exact Or.inr ⟨c', List.mem_cons_of_mem _ hc', hs⟩
      · simp only [h2] at hx
        rcases ih _ x hx with hmem | ⟨c', hc', hs⟩
        · rcases List.mem_append.mp hmem with hl | hr
          · exact Or.inl hl
          · obtain rfl : x = (i, c.spec) := by simpa using hr
            exact Or.inr ⟨c, by simp, rfl⟩
        · exact Or.inr ⟨c', List.mem_cons_of_mem _ hc', hs⟩

theorem pdBackfill_length_le (mn k : Nat) (todo : List (Nat × Candidate))
    (picks : List (Nat × ChartSpec)) (hp : picks.length ≤ k) (hmn : mn ≤ k) :
    (pdBackfill mn todo picks).length ≤ k := by
  induction todo generalizing picks with
  | nil => simpa [pdBackfill]
  | cons hd tl ih =>
    obtain ⟨i, c⟩ := hd
    simp only [pdBackfill]
    by_cases h1 : mn ≤ picks.length
    · simpa [h1]
    · simp only [if_neg h1]
      by_cases h2 : picks.any (fun p => p.1 == i) = true
      · simp only [h2, if_pos]
        exact ih _ hp
      · simp only [h2]
        exact ih _ (by simp; omega)

theorem nodup_subset_length {l1 l2 : List ℕ} (h : l1.Nodup) (hs : l1 ⊆ l2) :
    l1.length ≤ l2.length := by
  calc l1.length = l1.toFinset.card := (List.toFinset_card_of_nodup h).symm
    _ ≤ l2.toFinset.card := Finset.card_le_card (by
        intro a ha
        simp only [List.mem_toFinset] at *
        exact hs ha)
    _ ≤ l2.length := l2.toFinset_card_le

theorem pdBackfill_length_ge (mn : Nat) :
    ∀ (todo : List (Nat × Candidate)) (picks : List (Nat × ChartSpec)),
    (todo.map Prod.fst).Nodup →
    min mn (picks.length + todo.countP (fun x => ¬ picks.any (fun p => p.1 == x.1))) ≤
      (pdBackfill mn todo picks).length := by
  intro todo
  induction todo with
  | nil =>
    intro picks _
    simp only [pdBackfill, List.countP_nil]
    omega
  | cons hd tl ih =>
    intro picks hnd
    obtain ⟨i, c⟩ := hd
    simp only [List.map_cons, List.nodup_cons] at hnd
    obtain ⟨hi, htl⟩ := hnd
    simp only [pdBackfill]
    by_cases h1 : mn ≤ picks.length
    · simp only [h1, if_pos]
      omega
    · simp only [if_neg h1]
      by_cases h2 : picks.any (fun p => p.1 == i) = true
      · simp only [h2, if_pos]
        have := ih picks htl
        have hcp : (((i, c) : Nat × Candidate) :: tl).countP
            (fun x => ¬ picks.any (fun p => p.1 == x.1)) =
            tl.countP (fun x => ¬ picks.any (fun p => p.1 == x.1)) := by
          simp [List.countP_cons, h2]
        omega
      · have h2' : (picks.any fun p => p.1 == i) = false := Bool.eq_false_iff.mpr h2
        rw [h2']
        simp only [Bool.false_eq_true, if_false]
        have heq : tl.countP (fun x => ¬ (picks ++ [(i, c.spec)]).any (fun p => p.1 == x.1)) =
            tl.countP (fun x => ¬ picks.any (fun p => p.1 == x.1)) := by
          apply List.countP_congr
          intro x hx
          have hne : i ≠ x.1 := by
            intro hcontra
            exact hi (hcontra ▸ List.mem_map_of_mem Prod.fst hx)
          simp [List.any_append, hne]
        have hrec := ih (picks ++ [(i, c.spec)]) htl
        rw [heq] at hrec
        have hcp : (((i, c) : Nat × Candidate) :: tl).countP
            (fun x => ¬ picks.any (fun p => p.1 == x.1)) =
            tl.countP (fun x => ¬ picks.any (fun p => p.1 == x.1)) + 1 := by
          simp [List.countP_cons, h2']
        rw [hcp]
        simp only [List.length_append, List.length_cons, List.length_nil] at hrec ⊢
        omega

theorem mem_of_mem_enum {l : List α} {i : Nat} {c : α} (h : (i, c) ∈ l.enum) : c ∈ l := by
  have := List.mem_map_of_mem Prod.snd h
  rwa [List.enum_map_snd] at this

theorem exists_enum_of_mem {l : List α} {c : α} (h : c ∈ l) : ∃ i, (i, c) ∈ l.enum := by
  obtain ⟨⟨n, hn⟩, rfl⟩ := List.mem_iff_get.mp h
  refine ⟨n, ?_⟩
  have hn' : n < l.enum.length := by simpa [List.enum_length] using hn
  have h1 : l.enum[n] = (n, l[n]) := List.getElem_enum l n hn'
  have h2 := List.getElem_mem hn'
  rw [h1] at h2
  simpa [List.get_eq_getElem] using h2

theorem countP_enum (l : List α) (p : α → Bool) :
    l.enum.countP (fun x => p x.2) = l.countP p := by
  have h := List.countP_map p Prod.snd l.enum
  rw [List.enum_map_snd] at h
  rw [h]
  rfl

/-- The score-descending order used by `pickDiverse`. -/
noncomputable def pdSorted (cands : List Candidate) : List (Nat × Candidate) :=
  jsSortBy (fun a b => @decide (b.2.score ≤ a.2.score) (Classical.propDecidable _))
    cands.enum

theorem pickDiverse_eq (cands : List Candidate) (mn mx : Nat) :
    pickDiverse cands mn mx =
      ((pdBackfill mn (pdSorted cands)
        (pdLoop1 mx (pdSorted cands) [] (fun _ => 0) (fun _ => 0))).map Prod.snd).take mx :=
  rfl

theorem pdSorted_perm (cands : List Candidate) : (pdSorted cands).Perm cands.enum :=
  jsSortBy_perm _ _

/-- Every selected chart comes from the candidate pool. -/
theorem pickDiverse_sub {cands : List Candidate} {mn mx : Nat} {s : ChartSpec}
    (h : s ∈ pickDiverse cands mn mx) : ∃ c ∈ cands, c.spec = s := by
  rw [pickDiverse_eq] at h
  have h2 := List.mem_of_mem_take h
  obtain ⟨pair, hpair, rfl⟩ := List.mem_map.mp h2
  rcases pdBackfill_sub _ _ _ pair hpair with hin | ⟨c, hc, hs⟩
  · rcases pdLoop1_sub _ _ _ _ _ pair hin with hnil | ⟨c, hc, hs⟩
    · cases hnil
    · exact ⟨c, mem_of_mem_enum ((pdSorted_perm cands).mem_iff.mp hc), hs⟩
  · exact ⟨c, mem_of_mem_enum ((pdSorted_perm cands).mem_iff.mp hc), hs⟩

/-- `generateCharts` never returns more than `mx` entries. -/
theorem pickDiverse_length_le (cands : List Candidate) (mn mx : Nat) :
    (pickDiverse cands mn mx).length ≤ mx := by
  rw [pickDiverse_eq]
  simp [List.length_take]

/-- Under the backfill, at least `min mn |cands|` charts are returned. -/
theorem pickDiverse_length_ge (cands : List Candidate) (mn mx : Nat) (hmn : mn ≤ mx)
    (h : mn ≤ cands.length) : mn ≤ (pickDiverse cands mn mx).length := by
  rw [pickDiverse_eq]
  set sorted := pdSorted cands with hsorted
  have hperm := pdSorted_perm cands
  have hnd : (sorted.map Prod.fst).Nodup := by
    have : (sorted.map Prod.fst).Perm (cands.enum.map Prod.fst) := hperm.map Prod.fst
    rw [this.nodup_iff, List.enum_map_fst]
    exact List.nodup_range _
  set L := pdLoop1 mx sorted [] (fun _ => 0) (fun _ => 0) with hL
  have hLle : L.length ≤ mx := pdLoop1_length_le _ _ _ _ _ (by simp)
  have hmatched : sorted.countP (fun x => L.any (fun p => p.1 == x.1)) ≤ L.length := by
    set F := sorted.filter (fun x => L.any (fun p => p.1 == x.1)) with hF
    have hFnd : (F.map Prod.fst).Nodup := by
      have hsub : F.Sublist sorted := List.filter_sublist _
      exact ((hsub.map Prod.fst).nodup hnd)
    have hFsub : (F.map Prod.fst) ⊆ (L.map Prod.fst) := by
      intro a ha
      obtain ⟨x, hx, rfl⟩ := List.mem_map.mp ha
      have hpx := List.of_mem_filter hx
      obtain ⟨p, hp, hpp⟩ := List.any_eq_true.mp hpx
      have : p.1 = x.1 := by simpa using hpp
      rw [← this]
      exact List.mem_map_of_mem Prod.fst hp
    calc sorted.countP (fun x => L.any (fun p => p.1 == x.1)) = F.length := by
          rw [List.countP_eq_length_filter]
      _ = (F.map Prod.fst).length := (List.length_map _ _).symm
      _ ≤ (L.map Prod.fst).length := nodup_subset_length hFnd hFsub
      _ = L.length := List.length_map _ _
  have hcount : sorted.length = cands.length := by
    rw [hperm.length_eq, List.enum_length]
  have hnotP : sorted.length ≤ L.length +
      sorted.countP (fun x => ¬ L.any (fun p => p.1 == x.1)) := by
    have hsplit := List.length_eq_countP_add_countP (fun x => L.any (fun p => p.1 == x.1)) sorted
    omega
  have hge := pdBackfill_length_ge mn sorted L hnd
  have hble : (pdBackfill mn sorted L).length ≤ mx := pdBackfill_length_le mn mx _ _ hLle hmn
  rw [List.length_take, List.length_map]
  omega

theorem map_sum_add (P : List γ) (g h : γ → ℕ) :
    (P.map (fun p => g p + h p)).sum = (P.map g).sum + (P.map h).sum := by
  induction P with
  | nil => simp
  | cons q Q ih => simp [ih]; omega

theorem sum_indicator {P : List String} {x : String} (hP : P.Nodup) (hx : x ∈ P) :
    (P.map (fun p => if x == p then (1 : ℕ) else 0)).sum = 1 := by
  induction P with
  | nil => cases hx
  | cons q Q ih =>
    simp only [List.nodup_cons] at hP
    rcases List.mem_cons.mp hx with rfl | hx'
    · simp only [List.map_cons, List.sum_cons, beq_self_eq_true, if_pos]
      have hz : (Q.map (fun p => if x == p then (1 : ℕ) else 0)).sum = 0 := by
        apply List.sum_eq_zero
        intro a ha
        obtain ⟨p, hp, rfl⟩ := List.mem_map.mp ha
        have : ¬ (x == p) = true := by
          intro hcontra
          exact hP.1 (by simpa using (beq_iff_eq.mp hcontra) ▸ hp)
        simp [this]
      rw [hz]
    · have hne : ¬ (x == q) = true := by
        intro hcontra
        exact hP.1 ((beq_iff_eq.mp hcontra) ▸ hx')
      simp only [List.map_cons, List.sum_cons, hne, if_neg, Bool.false_eq_true]
      simpa using ih hP.2 hx'

theorem length_le_sum_countP (A : List β) (f : β → String) (P : List String)
    (hP : P.Nodup) (hmem : ∀ a ∈ A, f a ∈ P) :
    A.length ≤ (P.map (fun p => A.countP (fun a => f a == p))).sum := by
  induction A with
  | nil => simp
  | cons a A ih =>
    have hfa : f a ∈ P := hmem a (List.mem_cons_self a A)
    have ihh := ih (fun x hx => hmem x (List.mem_cons_of_mem _ hx))
    have hsplit : (P.map (fun p => (a :: A).countP (fun x => f x == p))).sum =
        (P.map (fun p => A.countP (fun x => f x == p))).sum +
          (P.map (fun p => if f a == p then 1 else 0)).sum := by
      rw [← map_sum_add]
      apply congrArg
      apply List.map_congr_left
      intro p _
      simp [List.countP_cons]
    rw [hsplit, sum_indicator hP hfa]
    simpa using ihh

/-- Acceptance through the first `pickDiverse` pass: a candidate whose
purpose and type are not over-subscribed in the whole pool, and whose
pool's cap-limited size fits under `mx`, is always taken. -/
theorem pdLoop1_mem_caps (mx : Nat) (P : List String) (hPn : P.Nodup)
    (ocp : String → Nat)
    (hsum : (P.map (fun p => min (pMaxF p) (ocp p))).sum ≤ mx)
    (i : Nat) (c : Candidate)
    (hc1 : ocp c.purpose ≤ pMaxF c.purpose) :
    ∀ (todo A : List (Nat × Candidate)) (pc tc : String → Nat),
      (i, c) ∈ todo →
      (∀ x ∈ todo, x.2.purpose ∈ P) →
      (∀ x ∈ A, x.2.purpose ∈ P) →
      (∀ p, pc p = A.countP (fun x => x.2.purpose == p)) →
      (∀ t, tc t = A.countP (fun x => specType x.2.spec == t)) →
      (∀ p, A.countP (fun x => x.2.purpose == p) ≤ pMaxF p) →
      (∀ p, A.countP (fun x => x.2.purpose == p) +
        todo.countP (fun x => x.2.purpose == p) ≤ ocp p) →
      (A.countP (fun x => specType x.2.spec == specType c.spec) +
        todo.countP (fun x => specType x.2.spec == specType c.spec) ≤
          tMaxF (specType c.spec)) →
      (i, c.spec) ∈ pdLoop1 mx todo (A.map (fun x => (x.1, x.2.spec))) pc tc := by
  intro todo
  induction todo with
  | nil => intro A pc tc hmem; cases hmem
  | cons hd tl ih =>
    intro A pc tc hmem htodoP hAP hpc htc hA hAo hTy
    obtain ⟨j, c'⟩ := hd
    -- the loop cannot have hit the size cap before taking `c`
    have hnotbreak : ¬ (mx ≤ (A.map (fun x => (x.1, x.2.spec))).length) := by
      have hlen : (A.map (fun x => (x.1, x.2.spec))).length = A.length :=
        List.length_map _ _
      have hp0 : c.purpose ∈ P := htodoP (i, c) hmem
      have hcount1 : 1 ≤ (((j, c') :: tl).countP (fun x => x.2.purpose == c.purpose)) := by
        have : 0 < (((j, c') :: tl).countP (fun x => x.2.purpose == c.purpose)) :=
          List.countP_pos_iff.mpr ⟨(i, c), hmem, by simp⟩
        omega
      have hstrict : A.countP (fun x => x.2.purpose == c.purpose) + 1 ≤
          min (pMaxF c.purpose) (ocp c.purpose) := by
        have := hAo c.purpose
        omega
      have hpoint : ∀ p ∈ P.erase c.purpose,
          A.countP (fun x => x.2.purpose == p) ≤ min (pMaxF p) (ocp p) := by
        intro p _
        have h1 := hA p
        have h2 := hAo p
        omega
      have hA_le : A.length ≤
          (P.map (fun p => A.countP (fun x => x.2.purpose == p))).sum :=
        length_le_sum_countP A (fun x => x.2.purpose) P hPn hAP
      have hperm : P.Perm (c.purpose :: P.erase c.purpose) :=
        List.perm_cons_erase hp0
      have hsplitA : (P.map (fun p => A.countP (fun x => x.2.purpose == p))).sum =
          A.countP (fun x => x.2.purpose == c.purpose) +
            ((P.erase c.purpose).map (fun p => A.countP (fun x => x.2.purpose == p))).sum := by
        rw [(hperm.map _).sum_eq]
        simp
      have hsplitM : (P.map (fun p => min (pMaxF p) (ocp p))).sum =
          min (pMaxF c.purpose) (ocp c.purpose) +
            ((P.erase c.purpose).map (fun p => min (pMaxF p) (ocp p))).sum := by
        rw [(hperm.map _).sum_eq]
        simp
      have herase : ((P.erase c.purpose).map
            (fun p => A.countP (fun x => x.2.purpose == p))).sum ≤
          ((P.erase c.purpose).map (fun p => min (pMaxF p) (ocp p))).sum :=
        List.sum_le_sum hpoint
      rw [hlen]
      omega
    rcases List.mem_cons.mp hmem with heq | hmem'
    · -- the candidate itself is at the head: it is accepted
      obtain ⟨h1, h2⟩ := Prod.mk.inj heq
      subst h1
      subst h2
      have hcountP1 : 1 ≤ (((i, c) :: tl).countP (fun x => x.2.purpose == c.purpose)) := by
        have : 0 < (((i, c) :: tl).countP (fun x => x.2.purpose == c.purpose)) :=
          List.countP_pos_iff.mpr ⟨(i, c), List.mem_cons_self _ _, by simp⟩
        omega
      have hcountT1 : 1 ≤ (((i, c) :: tl).countP
          (fun x => specType x.2.spec == specType c.spec)) := by
        have : 0 < (((i, c) :: tl).countP (fun x => specType x.2.spec == specType c.spec)) :=
          List.countP_pos_iff.mpr ⟨(i, c), List.mem_cons_self _ _, by simp⟩
        omega
      have hcan : canTake pc tc c = true := by
        have hcp : pc c.purpose < pMaxF c.purpose := by
          have h3 := hAo c.purpose
          rw [hpc c.purpose]
          omega
        have hct : tc (specType c.spec) < tMaxF (specType c.spec) := by
          rw [htc (specType c.spec)]
          omega
        simp only [canTake, Bool.and_eq_true, decide_eq_true_eq]
        constructor
        · simpa using Nat.not_le.mpr hcp
        · simpa using Nat.not_le.mpr hct
      show (i, c.spec) ∈ pdLoop1 mx ((i, c) :: tl) _ pc tc
      simp only [pdLoop1, if_neg hnotbreak, hcan, if_pos]
      obtain ⟨rest, hrest⟩ := pdLoop1_prefix mx tl
        ((A.map (fun x => (x.1, x.2.spec))) ++ [(i, c.spec)]) (bumpCount pc c.purpose)
        (bumpCount tc (specType c.spec))
      rw [hrest]
      simp
    · -- another candidate is at the head: process it and recurse
      show (i, c.spec) ∈ pdLoop1 mx ((j, c') :: tl) _ pc tc
      simp only [pdLoop1, if_neg hnotbreak]
      by_cases hct : canTake pc tc c' = true
      · simp only [hct, if_pos]
        have hmap : (A.map (fun x => (x.1, x.2.spec))) ++ [(j, c'.spec)] =
            ((A ++ [(j, c')]).map (fun x => (x.1, x.2.spec))) := by
          simp
        rw [hmap]
        apply ih (A ++ [(j, c')]) _ _ hmem'
          (fun x hx => htodoP x (List.mem_cons_of_mem _ hx))
        · intro x hx
          rcases List.mem_append.mp hx with hl | hr
          · exact hAP x hl
          · obtain rfl : x = (j, c') := by simpa using hr
            exact htodoP (j, c') (List.mem_cons_self _ _)
        · intro p
          simp only [bumpCount, List.countP_append, List.countP_cons, List.countP_nil]
          rw [hpc p]
          by_cases hpp : p = c'.purpose
          · subst hpp
            simp
          · have : ¬ (c'.purpose == p) = true := by simpa using (Ne.symm hpp)
            simp [hpp, this]
        · intro t
          simp only [bumpCount, List.countP_append, List.countP_cons, List.countP_nil]
          rw [htc t]
          by_cases htt : t = specType c'.spec
          · subst htt
            simp
          · have : ¬ (specType c'.spec == t) = true := by simpa using (Ne.symm htt)
            simp [htt, this]
        · intro p
          simp only [List.countP_append, List.countP_cons, List.countP_nil]
          by_cases hpp : (c'.purpose == p) = true
          · have hcanp : pc c'.purpose < pMaxF c'.purpose := by
              have hh := hct
              simp only [canTake, Bool.and_eq_true, decide_eq_true_eq] at hh
              exact Nat.not_le.mp hh.1
            rw [hpc c'.purpose] at hcanp
            have hpeq : c'.purpose = p := beq_iff_eq.mp hpp
            subst hpeq
            simp only [beq_self_eq_true, if_pos]
            omega
          · have h3 := hA p
            simp [hpp]
            omega
        · intro p
          have h3 := hAo p
          simp only [List.countP_cons] at h3
          simp only [List.countP_append, List.countP_cons, List.countP_nil]
          omega
        · have h3 := hTy
          simp only [List.countP_cons] at h3
          simp only [List.countP_append, List.countP_cons, List.countP_nil]
          omega
      · simp only [hct, if_neg, Bool.false_eq_true]
        apply ih A pc tc hmem'
          (fun x hx => htodoP x (List.mem_cons_of_mem _ hx)) hAP hpc htc hA
        · intro p
          have h3 := hAo p
          simp only [List.countP_cons] at h3
          omega
        · have h3 := hTy
          simp only [List.countP_cons] at h3
          omega

/-- A candidate whose purpose and type are within the caps pool-wide, in a
pool whose cap-limited size fits under `mx`, always appears in the selector
output. -/
theorem pickDiverse_mem (cands : List Candidate) (c : Candidate) {mn mx : Nat}
    (hmn : mn ≤ mx) (hc : c ∈ cands)
    (hp : cands.countP (fun x => x.purpose == c.purpose) ≤ pMaxF c.purpose)
    (ht : cands.countP (fun x => specType x.spec == specType c.spec) ≤
      tMaxF (specType c.spec))
    (hsum : (((cands.map (fun x => x.purpose)).dedup).map
      (fun p => min (pMaxF p) (cands.countP (fun x => x.purpose == p)))).sum ≤ mx) :
    c.spec ∈ pickDiverse cands mn mx := by
  classical
  obtain ⟨i, hi⟩ := exists_enum_of_mem hc
  have hisort : (i, c) ∈ pdSorted cands := (pdSorted_perm cands).mem_iff.mpr hi
  have hcnt : ∀ (f : Candidate → Bool),
      (pdSorted cands).countP (fun x => f x.2) = cands.countP f := by
    intro f
    exact ((pdSorted_perm cands).countP_eq _).trans (countP_enum cands f)
  have hL := pdLoop1_mem_caps mx ((cands.map (fun x => x.purpose)).dedup)
    (List.nodup_dedup _)
    (fun p => cands.countP (fun x => x.purpose == p)) hsum i c hp
    (pdSorted cands) [] (fun _ => 0) (fun _ => 0) hisort
    (by
      intro x hx
      have hx2 : x.2 ∈ cands := mem_of_mem_enum ((pdSorted_perm cands).mem_iff.mp hx)
      exact List.mem_dedup.mpr (List.mem_map_of_mem _ hx2))
    (by intro x hx; cases hx)
    (by intro p; simp)
    (by intro t; simp)
    (by intro p; simp)
    (by
      intro p
      simp only [List.countP_nil, Nat.zero_add]
      exact le_of_eq (hcnt (fun y => y.purpose == p)))
    (by
      simp only [List.countP_nil, Nat.zero_add]
      exact le_of_eq_of_le (hcnt (fun y => specType y.spec == specType c.spec)) ht)
  have hLle : (pdLoop1 mx (pdSorted cands) [] (fun _ => 0) (fun _ => 0)).length ≤ mx :=
    pdLoop1_length_le _ _ _ _ _ (by simp)
  obtain ⟨rest, hrest⟩ := pdBackfill_prefix mn (pdSorted cands)
    (pdLoop1 mx (pdSorted cands) [] (fun _ => 0) (fun _ => 0))
  have hmemB : (i, c.spec) ∈ pdBackfill mn (pdSorted cands)
      (pdLoop1 mx (pdSorted cands) [] (fun _ => 0) (fun _ => 0)) := by
    rw [hrest]
    exact List.mem_append_left _ (by simpa using hL)
  have hBle : (pdBackfill mn (pdSorted cands)
      (pdLoop1 mx (pdSorted cands) [] (fun _ => 0) (fun _ => 0))).length ≤ mx :=
    pdBackfill_length_le mn mx _ _ hLle hmn
  rw [pickDiverse_eq]
  rw [List.take_of_length_le (by simpa using hBle)]
  exact List.mem_map_of_mem Prod.snd hmemB

/-! ## General lemmas: box plots and quantiles -/

theorem sorted_getD_mono {s : List ℚ} (hs : s.Pairwise (· ≤ ·)) {i j : Nat}
    (hij : i ≤ j) (hj : j < s.length) : s.getD i 0 ≤ s.getD j 0 := by
  have hi : i < s.length := lt_of_le_of_lt hij hj
  rw [List.getD_eq_getElem s 0 hi, List.getD_eq_getElem s 0 hj]
  rcases Nat.lt_or_ge i j with hlt | hge
  · exact List.Sorted.rel_get_of_lt hs (a := ⟨i, hi⟩) (b := ⟨j, hj⟩) hlt
  · have : i = j := le_antisymm hij hge
    subst this
    exact le_refl _

/-- The interpolated order statistic at a fractional position. -/
def interpAt (s : List ℚ) (pos : ℚ) : ℚ :=
  let n := s.length
  let base := (jsFloor pos).toNat
  let a := s.getD base 0
  let b := s.getD (min (n - 1) (base + 1)) 0
  a + (b - a) * (pos - base)

theorem quantileSorted_eq_interp {s : List ℚ} (hn : 2 ≤ s.length) (q : ℚ) :
    quantileSorted s q = some (interpAt s (((s.length : ℚ) - 1) * q)) := by
  unfold quantileSorted interpAt
  have h0 : ¬ (s.length = 0) := by omega
  have h1 : ¬ (s.length = 1) := by omega
  simp only [h0, h1, if_neg, if_false]

theorem floor_toNat_facts {pos : ℚ} (h : 0 ≤ pos) :
    ((jsFloor pos).toNat : ℚ) ≤ pos ∧ pos < ((jsFloor pos).toNat : ℚ) + 1 := by
  have hfl : (0 : ℤ) ≤ jsFloor pos := by
    unfold jsFloor
    exact Int.floor_nonneg.mpr h
  have h1 : ((jsFloor pos : ℤ) : ℚ) ≤ pos := Int.floor_le pos
  have h2 : pos < ((jsFloor pos : ℤ) : ℚ) + 1 := Int.lt_floor_add_one pos
  have h3 : (((jsFloor pos).toNat : ℤ) : ℚ) = ((jsFloor pos : ℤ) : ℚ) := by
    rw [Int.toNat_of_nonneg hfl]
  constructor
  · calc ((jsFloor pos).toNat : ℚ) = ((jsFloor pos : ℤ) : ℚ) := by push_cast at h3 ⊢; exact h3
      _ ≤ pos := h1
  · calc pos < ((jsFloor pos : ℤ) : ℚ) + 1 := h2
      _ = ((jsFloor pos).toNat : ℚ) + 1 := by push_cast at h3 ⊢; rw [h3]

theorem interpAt_mono {s : List ℚ} (hs : s.Pairwise (· ≤ ·)) (hn : 2 ≤ s.length)
    {pos pos' : ℚ} (h0 : 0 ≤ pos) (hle : pos ≤ pos')
    (h1 : pos' ≤ (s.length : ℚ) - 1) : interpAt s pos ≤ interpAt s pos' := by
  have h0' : 0 ≤ pos' := le_trans h0 hle
  obtain ⟨hb1, hb2⟩ := floor_toNat_facts h0
  obtain ⟨hb1', hb2'⟩ := floor_toNat_facts h0'
  set base := (jsFloor pos).toNat with hbase
  set base' := (jsFloor pos').toNat with hbase'
  have hbn : base ≤ s.length - 1 := by
    have : (base : ℚ) ≤ (s.length : ℚ) - 1 := le_trans hb1 (le_trans hle h1)
    have h2 : (base : ℚ) ≤ ((s.length - 1 : ℕ) : ℚ) := by
      push_cast [Nat.cast_sub (by omega : 1 ≤ s.length)] at this ⊢
      exact this
    exact_mod_cast h2
  have hbn' : base' ≤ s.length - 1 := by
    have : (base' : ℚ) ≤ (s.length : ℚ) - 1 := le_trans hb1' h1
    have h2 : (base' : ℚ) ≤ ((s.length - 1 : ℕ) : ℚ) := by
      push_cast [Nat.cast_sub (by omega : 1 ≤ s.length)] at this ⊢
      exact this
    exact_mod_cast h2
  have hblt : base < s.length := by omega
  have hblt' : base' < s.length := by omega
  have hmlt : min (s.length - 1) (base + 1) < s.length := by omega
  have hmlt' : min (s.length - 1) (base' + 1) < s.length := by omega
  have hab : s.getD base 0 ≤ s.getD (min (s.length - 1) (base + 1)) 0 :=
    sorted_getD_mono hs (by omega) hmlt
  have hab' : s.getD base' 0 ≤ s.getD (min (s.length - 1) (base' + 1)) 0 :=
    sorted_getD_mono hs (by omega) hmlt'
  have hrest0 : 0 ≤ pos - (base : ℚ) := by linarith
  have hrest1 : pos - (base : ℚ) ≤ 1 := by linarith
  have hrest0' : 0 ≤ pos' - (base' : ℚ) := by linarith
  rcases Nat.lt_or_ge base base' with hbb | hbb
  · -- strictly later base: interp pos ≤ upper point ≤ lower point of pos'
    have hstep1 : interpAt s pos ≤ s.getD (min (s.length - 1) (base + 1)) 0 := by
      unfold interpAt
      simp only [← hbase]
      nlinarith [hab, hrest0, hrest1]
    have hstep2 : s.getD (min (s.length - 1) (base + 1)) 0 ≤ s.getD base' 0 := by
      apply sorted_getD_mono hs (by omega) hblt'
    have hstep3 : s.getD base' 0 ≤ interpAt s pos' := by
      unfold interpAt
      simp only [← hbase']
      nlinarith [hab', hrest0']
    calc interpAt s pos ≤ _ := hstep1
      _ ≤ _ := hstep2
      _ ≤ _ := hstep3
  · -- same base (pos ≤ pos' forces base ≤ base')
    have hbb' : base ≤ base' := by
      have : (base : ℚ) ≤ pos' := le_trans hb1 hle
      by_contra hcon
      push_neg at hcon
      have : (base' : ℚ) + 1 ≤ (base : ℚ) := by exact_mod_cast hcon
      linarith
    have heq : base = base' := le_antisymm hbb' hbb
    unfold interpAt
    simp only [← hbase, ← hbase']
    rw [← heq]
    have hkey := mul_le_mul_of_nonneg_left (sub_le_sub_right hle ((base : ℚ)))
      (sub_nonneg.mpr hab)
    linarith

theorem quantileSorted_mono {s : List ℚ} (hs : s.Pairwise (· ≤ ·)) (hn : 2 ≤ s.length)
    {q q' a b : ℚ} (h0 : 0 ≤ q) (hq : q ≤ q') (h1 : q' ≤ 1)
    (ha : quantileSorted s q = some a) (hb : quantileSorted s q' = some b) : a ≤ b := by
  rw [quantileSorted_eq_interp hn] at ha hb
  obtain rfl : a = interpAt s (((s.length : ℚ) - 1) * q) := by
    exact (Option.some.inj ha).symm
  obtain rfl : b = interpAt s (((s.length : ℚ) - 1) * q') := by
    exact (Option.some.inj hb).symm
  have hlen : (1 : ℚ) ≤ (s.length : ℚ) := by exact_mod_cast Nat.one_le_of_lt hn
  apply interpAt_mono hs hn
  · exact mul_nonneg (by linarith) h0
  · exact mul_le_mul_of_nonneg_left hq (by linarith)
  · have h2 : ((s.length : ℚ) - 1) * q' ≤ ((s.length : ℚ) - 1) * 1 :=
      mul_le_mul_of_nonneg_left h1 (by linarith)
    simpa using h2

/-- Inversion of a successful `computeBox`. -/
theorem computeBox_inv {values : List ℚ} {b : BoxOut} (h : computeBox values = some b) :
    12 ≤ (jsSortBy (fun a b => decide (a ≤ b)) values).length ∧
    quantileSorted (jsSortBy (fun a b => decide (a ≤ b)) values) (1 / 4) = some b.q1 ∧
    quantileSorted (jsSortBy (fun a b => decide (a ≤ b)) values) (1 / 2) = some b.median ∧
    quantileSorted (jsSortBy (fun a b => decide (a ≤ b)) values) (3 / 4) = some b.q3 ∧
    b.iqr = b.q3 - b.q1 ∧
    b.outliers = (jsSortBy (fun a b => decide (a ≤ b)) values).filter
      (fun v => v < b.q1 - 3 / 2 * (b.q3 - b.q1) ∨ b.q3 + 3 / 2 * (b.q3 - b.q1) < v) := by
  unfold computeBox at h
  set clean := jsSortBy (fun a b => decide (a ≤ b)) values with hclean
  by_cases hlen : clean.length < 12
  · rw [if_pos hlen] at h
    cases h
  · rw [if_neg hlen] at h
    rcases hq1 : quantileSorted clean (1 / 4) with _ | q1
    · rw [hq1] at h; cases h
    rcases hq2 : quantileSorted clean (1 / 2) with _ | med
    · rw [hq1, hq2] at h; cases h
    rcases hq3 : quantileSorted clean (3 / 4) with _ | q3
    · rw [hq1, hq2, hq3] at h; cases h
    rw [hq1, hq2, hq3] at h
    simp only [Option.some.injEq] at h
    subst h
    refine ⟨by omega, rfl, rfl, rfl, rfl, rfl⟩

/-- The box quartiles are ordered: `q1 ≤ median ≤ q3`. -/
theorem computeBox_quartiles_mono {values : List ℚ} {b : BoxOut}
    (h : computeBox values = some b) : b.q1 ≤ b.median ∧ b.median ≤ b.q3 := by
  obtain ⟨hlen, hq1, hq2, hq3, -, -⟩ := computeBox_inv h
  have hsorted := jsSortBy_rat_sorted values
  have hn : 2 ≤ (jsSortBy (fun a b => decide (a ≤ b)) values).length := by omega
  constructor
  · exact quantileSorted_mono hsorted hn (by norm_num) (by norm_num) (by norm_num) hq1 hq2
  · exact quantileSorted_mono hsorted hn (by norm_num) (by norm_num) (by norm_num) hq2 hq3

/-- Every outlier of `computeBox` is strictly outside the fences. -/
theorem computeBox_outliers_outside {values : List ℚ} {b : BoxOut}
    (h : computeBox values = some b) :
    ∀ v ∈ b.outliers, v < b.q1 - 3 / 2 * b.iqr ∨ b.q3 + 3 / 2 * b.iqr < v := by
  obtain ⟨-, -, -, -, hiqr, hout⟩ := computeBox_inv h
  intro v hv
  rw [hout] at hv
  have := List.of_mem_filter hv
  rw [hiqr]
  simpa using this

/-- The outlier list of `computeBox` is ascending. -/
theorem computeBox_outliers_sorted {values : List ℚ} {b : BoxOut}
    (h : computeBox values = some b) : b.outliers.Pairwise (· ≤ ·) := by
  obtain ⟨-, -, -, -, -, hout⟩ := computeBox_inv h
  rw [hout]
  exact List.Pairwise.sublist (List.filter_sublist _) (jsSortBy_rat_sorted values)

/-! ## General lemmas: histograms and profiles -/

theorem sum_if_eq {k bins : Nat} (hk : k < bins) :
    (((List.range bins).map (fun i => if k = i then 1 else 0)).sum : ℕ) = 1 := by
  induction bins with
  | zero => omega
  | succ n ih =>
    rw [List.range_succ, List.map_append, List.sum_append]
    by_cases hkn : k = n
    · subst hkn
      have hz : ((List.range k).map (fun i => if k = i then 1 else 0)).sum = 0 := by
        apply List.sum_eq_zero
        intro a ha
        obtain ⟨i, hi, rfl⟩ := List.mem_map.mp ha
        have : k ≠ i := by
          have := List.mem_range.mp hi
          omega
        simp [this]
      simp [hz]
    · have hk' : k < n := by omega
      rw [ih hk']
      simp [hkn]

theorem sum_countP_range {α : Type} (l : List α) (f : α → Nat) (bins : Nat)
    (hf : ∀ x ∈ l, f x < bins) :
    ((List.range bins).map (fun i => l.countP (fun x => f x = i))).sum = l.length := by
  induction l with
  | nil => simp
  | cons a l ih =>
    have hsplit : ((List.range bins).map (fun i => (a :: l).countP (fun x => f x = i))).sum
        = ((List.range bins).map (fun i => l.countP (fun x => f x = i))).sum +
          ((List.range bins).map (fun i => if f a = i then 1 else 0)).sum := by
      rw [← map_sum_add]
      apply congrArg
      apply List.map_congr_left
      intro i _
      rw [List.countP_cons]
      by_cases hfa : f a = i
      · simp [hfa]
      · simp [hfa]
    rw [hsplit, ih (fun x hx => hf x (List.mem_cons_of_mem a hx)),
      sum_if_eq (hf a (List.mem_cons_self a l))]
    simp

theorem histIdx_lt {mn span : ℚ} {bins : Nat} (hb : 0 < bins) (v : ℚ) :
    histIdx mn span bins v < bins := by
  unfold histIdx
  have h1 : min (bins - 1) (max 0 (jsFloor ((v - mn) / span * bins))).toNat ≤ bins - 1 :=
    min_le_left _ _
  omega

theorem chooseBins_pos (n : Nat) : 0 < chooseBins n := by
  unfold chooseBins
  split_ifs <;> norm_num

/-- Inversion of a successful `computeHistogram`. -/
theorem computeHistogram_inv {values : List ℚ} {bins : Nat} {h : HistOut}
    (hh : computeHistogram values bins = some h) :
    h.total = values.length ∧
    h.counts = (List.range bins).map (fun i =>
      (jsSortBy (fun a b => decide (a ≤ b)) values).countP (fun v =>
        histIdx ((jsSortBy (fun a b => decide (a ≤ b)) values).headD 0)
          (if (jsSortBy (fun a b => decide (a ≤ b)) values).getLastD 0 -
              (jsSortBy (fun a b => decide (a ≤ b)) values).headD 0 = 0 then 1
           else (jsSortBy (fun a b => decide (a ≤ b)) values).getLastD 0 -
              (jsSortBy (fun a b => decide (a ≤ b)) values).headD 0) bins v = i)) := by
  unfold computeHistogram at hh
  set clean := jsSortBy (fun a b => decide (a ≤ b)) values with hclean
  by_cases he : clean.isEmpty
  · rw [if_pos he] at hh
    cases hh
  · rw [if_neg he] at hh
    simp only [Option.some.injEq] at hh
    subst hh
    refine ⟨?_, rfl⟩
    show clean.length = values.length
    exact jsSortBy_length _ _

/-- The counts of a histogram sum to its total. -/
theorem computeHistogram_sum {values : List ℚ} {bins : Nat} {h : HistOut}
    (hb : 0 < bins) (hh : computeHistogram values bins = some h) :
    h.counts.sum = h.total := by
  obtain ⟨htot, hcnt⟩ := computeHistogram_inv hh
  rw [hcnt, htot, ← jsSortBy_length (fun a b => decide (a ≤ b)) values]
  exact sum_countP_range _ _ _ (fun x _ => histIdx_lt hb x)

/-- Association lookup over a key-tagged map. -/
theorem find_map_pair {β : Type} (l : List String) (f : String → β) (col : String) :
    ((l.map (fun c => (c, f c))).find? (fun p => p.1 == col)).map Prod.snd =
      if col ∈ l then some (f col) else none := by
  induction l with
  | nil => simp
  | cons a t ih =>
    rw [List.map_cons]
    by_cases hac : (a == col) = true
    · have hac2 : a = col := by simpa using hac
      subst hac2
      rw [List.find?_cons_of_pos _ (by simpa using hac)]
      simp
    · rw [List.find?_cons_of_neg _ (by simpa using hac)]
      rw [ih]
      have hne : ¬ col = a := fun hh => (by simpa using hac : ¬ a = col) hh.symm
      by_cases hct : col ∈ t
      · simp [List.mem_cons, hct]
      · simp [List.mem_cons, hct, hne]

/-- A profile found in `runEDA`'s column table is `profileColumn` at that
column. -/
theorem lookupCol_runEDA {data : List Row} {col : String} {info : ColInfo}
    (h : lookupCol (runEDA data) col = some info) :
    info = profileColumn data ((columnNames data).filter (fun c =>
      data.all (fun row => isMissing (rowGet row c)))) col := by
  unfold lookupCol runEDA at h
  by_cases hd : data.isEmpty
  · rw [if_pos hd] at h
    simp at h
  · rw [if_neg hd] at h
    simp only [] at h
    rw [find_map_pair] at h
    by_cases hcm : col ∈ columnNames data
    · rw [if_pos hcm] at h
      exact (Option.some.inj h).symm
    · rw [if_neg hcm] at h
      cases h

/-- A numeric profile records `nonMissingCount` as the number of parsed
values. -/
theorem profileColumn_numeric {data : List Row} {e : List String} {col : String}
    (ht : (profileColumn data e col).type = "numeric") :
    (profileColumn data e col).nonMissingCount = some (parsedNums data col).length := by
  unfold profileColumn at ht ⊢
  simp only [] at ht ⊢
  split_ifs at ht ⊢
  all_goals first
    | (show some (jsSortBy (fun a b => decide (a ≤ b)) (parsedNums data col)).length = _
       rw [jsSortBy_length])
    | exact absurd (show ("categorical" : String) = "numeric" from ht) (by decide)
    | exact absurd (show ("date" : String) = "numeric" from ht) (by decide)

/-! ## General lemmas: the chart candidate pool -/

/-- The `numericSet` of `generateCharts` (profiled numeric columns without
identifier-likes, extended by the numeric fallback detector). -/
def numericSetOf (data : List Row) (eda : Eda) : List String :=
  let numericSet0 := buildOrderedSet (((eda.columns.filter
    (fun p => p.2.type == "numeric")).filter
    (fun p => ¬ isIdLikeNumeric p.1 (some p.2) data.length)).map Prod.fst)
  (detectNumericLikeColumns data (eda.columns.map Prod.fst) numericSet0).foldl
    addUnique numericSet0

/-- The `dateSet` of `generateCharts`. -/
def dateSetOf (data : List Row) (eda : Eda) : List String :=
  let dateSet0 := buildOrderedSet ((eda.columns.filter (fun p =>
    p.2.type == "date" ∨ p.2.type == "datetime")).map Prod.fst)
  (detectDateLikeColumns data (eda.columns.map Prod.fst) dateSet0).foldl
    addUnique dateSet0

/-- The `catCols` of `generateCharts`. -/
def catColsOf (data : List Row) (eda : Eda) : List String :=
  buildOrderedSet (((eda.columns.filter (fun p => p.2.type == "categorical")).map
      Prod.fst) ++
    (eda.columns.map Prod.fst).filter (fun c =>
      ¬ (c ∈ numericSetOf data eda) ∧ ¬ (c ∈ dateSetOf data eda)))

theorem genCandidates_eq (data : List Row) (eda : Eda) :
    genCandidates data eda =
      if data.isEmpty then [] else
        histBoxSection data eda data.length (numericSetOf data eda) ++
        barSection data eda (numericSetOf data eda) (dateSetOf data eda)
          (catColsOf data eda) ++
        timeSection data (dateSetOf data eda) (numericSetOf data eda) ++
        scatterPickSection data (numericSetOf data eda) ++
        corrSection data eda (numericSetOf data eda) := rfl

/-- Inversion of histogram/box candidate membership. -/
theorem histBoxSection_mem {data : List Row} {eda : Eda} {rc : Nat}
    {cols : List String} {c : Candidate} (h : c ∈ histBoxSection data eda rc cols) :
    (∃ col h0, col ∈ cols ∧
      computeHistogram (parsedNums data col) (chooseBins (parsedNums data col).length)
        = some h0 ∧
      c.spec = .histogram col (chooseBins (parsedNums data col).length) h0.edges
        h0.counts h0.min h0.max h0.total ∧ c.purpose = "distribution") ∨
    (∃ col b, col ∈ cols ∧ computeBox (parsedNums data col) = some b ∧
      c.spec = .box col b.min b.q1 b.median b.q3 b.max b.iqr (b.outliers.take 200)
        b.total ∧ c.purpose = "distribution") := by
  unfold histBoxSection at h
  obtain ⟨col, hcol, hc⟩ := List.mem_flatMap.mp h
  simp only [] at hc
  split_ifs at hc with h1 h2
  · cases hc
  · cases hc
  · rcases List.mem_append.mp hc with hh | hb
    · rcases hhist : computeHistogram (parsedNums data col)
          (chooseBins (parsedNums data col).length) with _ | h0
      · rw [hhist] at hh
        cases hh
      · rw [hhist] at hh
        rcases List.mem_singleton.mp hh with rfl
        exact Or.inl ⟨col, h0, hcol, hhist, rfl, rfl⟩
    · rcases hbox : computeBox (parsedNums data col) with _ | b
      · rw [hbox] at hb
        cases hb
      · rw [hbox] at hb
        rcases List.mem_singleton.mp hb with rfl
        exact Or.inr ⟨col, b, hcol, hbox, rfl, rfl⟩

/-- Every bar-section candidate is a bar chart. -/
theorem barFallback_type {data : List Row} {col : String} {maxBars : Nat}
    {c : Candidate} (h : c ∈ barSection.barFallback data col maxBars) :
    specType c.spec = "bar" := by
  unfold barSection.barFallback at h
  simp only [] at h
  split_ifs at h
  all_goals first
    | (rcases List.mem_singleton.mp h with rfl
       rfl)
    | cases h

theorem barSection_type {data : List Row} {eda : Eda} {ns ds cats : List String}
    {c : Candidate} (h : c ∈ barSection data eda ns ds cats) :
    specType c.spec = "bar" := by
  unfold barSection at h
  obtain ⟨col, hcol, hc⟩ := List.mem_flatMap.mp h
  simp only [] at hc
  split_ifs at hc with h1 h2 h3
  · cases hc
  · cases hc
  · cases hc
  · rcases hinfo : lookupCol eda col with _ | i
    · rw [hinfo] at hc
      exact barFallback_type hc
    · rw [hinfo] at hc
      simp only [] at hc
      split_ifs at hc
      all_goals first
        | (rcases List.mem_singleton.mp hc with rfl
           rfl)
        | exact barFallback_type hc
        | cases hc

/-- Every time-section candidate is a time chart. -/
theorem timeSection_type {data : List Row} {dcols ncols : List String}
    {c : Candidate} (h : c ∈ timeSection data dcols ncols) :
    specType c.spec = "time" := by
  unfold timeSection at h
  obtain ⟨dcol, hdcol, hc⟩ := List.mem_flatMap.mp h
  split_ifs at hc with h1
  · cases hc
  · obtain ⟨ncol, hncol, hc2⟩ := List.mem_flatMap.mp hc
    rcases hts : buildTimeSeries data dcol ncol with _ | pg
    · rw [hts] at hc2
      cases hc2
    · rw [hts] at hc2
      rcases pg with ⟨points, gran⟩
      simp only [] at hc2
      rcases List.mem_singleton.mp hc2 with rfl
      rfl

/-- Every scatter candidate is a relationship-purpose scatter chart. -/
theorem scatterCandidates_shape {data : List Row} {ncols : List String}
    {c : Candidate} (h : c ∈ scatterCandidates data ncols) :
    specType c.spec = "scatter" ∧ c.purpose = "relationship" := by
  unfold scatterCandidates at h
  obtain ⟨i, hi, hc⟩ := List.mem_flatMap.mp h
  obtain ⟨j, hj, hc2⟩ := List.mem_flatMap.mp hc
  split_ifs at hc2 with h1
  · simp only [] at hc2
    rcases hbs : buildScatter data (ncols.getD i "") (ncols.getD j "") with _ | b
    · rw [hbs] at hc2
      cases hc2
    · rw [hbs] at hc2
      simp only [] at hc2
      rcases List.mem_singleton.mp hc2 with rfl
      exact ⟨rfl, rfl⟩
  · cases hc2

/-- The scatter pick keeps at most one candidate, drawn from the scatter
candidate pool. -/
theorem scatterPickSection_cases (data : List Row) (ncols : List String) :
    scatterPickSection data ncols = [] ∨
    ∃ c, scatterPickSection data ncols = [c] ∧ c ∈ scatterCandidates data ncols := by
  unfold scatterPickSection
  rcases hs : jsSortBy (fun a b =>
      @decide (b.score ≤ a.score) (Classical.propDecidable _))
      (scatterCandidates data ncols) with _ | ⟨c, rest⟩
  · rw [hs]
    exact Or.inl rfl
  · rw [hs]
    refine Or.inr ⟨c, rfl, ?_⟩
    have : c ∈ jsSortBy (fun a b =>
        @decide (b.score ≤ a.score) (Classical.propDecidable _))
        (scatterCandidates data ncols) := by
      rw [hs]
      exact List.mem_cons_self _ _
    exact (jsSortBy_mem _).mp this

/-- Inversion of the correlation section: the single candidate carries a
successful `buildCorrMatrix` result over its column list. -/
theorem corrSection_mem {data : List Row} {eda : Eda} {ncols : List String}
    {c : Candidate} (h : c ∈ corrSection data eda ncols) :
    ∃ R M n, c.spec = .corr "Correlation (numeric)" R M ∧
      buildCorrMatrix data R = some (M, n) ∧ c.purpose = "relationship" := by
  unfold corrSection at h
  split_ifs at h with h1
  · cases h
  · simp only [] at h
    split_ifs at h with h2
    · cases h
    · split at h
      · cases h
      · rename_i matrix n heq
        rcases List.mem_singleton.mp h with rfl
        exact ⟨_, matrix, n, rfl, heq, rfl⟩

theorem scatterPickSection_shape {data : List Row} {ncols : List String}
    {c : Candidate} (h : c ∈ scatterPickSection data ncols) :
    specType c.spec = "scatter" ∧ c.purpose = "relationship" := by
  rcases scatterPickSection_cases data ncols with he | ⟨c0, he, hc0⟩
  · rw [he] at h
    cases h
  · rw [he] at h
    rcases List.mem_singleton.mp h with rfl
    exact scatterCandidates_shape hc0

/-- Case analysis over the origin of a chart candidate. -/
theorem genCandidates_cases {data : List Row} {eda : Eda} {c : Candidate}
    (h : c ∈ genCandidates data eda) :
    c ∈ histBoxSection data eda data.length (numericSetOf data eda) ∨
    specType c.spec = "bar" ∨ specType c.spec = "time" ∨
    (specType c.spec = "scatter" ∧ c.purpose = "relationship") ∨
    c ∈ corrSection data eda (numericSetOf data eda) := by
  rw [genCandidates_eq] at h
  by_cases hd : data.isEmpty
  · rw [if_pos hd] at h
    cases h
  · rw [if_neg hd] at h
    rcases List.mem_append.mp h with h2 | hcorr
    · rcases List.mem_append.mp h2 with h3 | hsc
      · rcases List.mem_append.mp h3 with h4 | htime
        · rcases List.mem_append.mp h4 with hhb | hbar
          · exact Or.inl hhb
          · exact Or.inr (Or.inl (barSection_type hbar))
        · exact Or.inr (Or.inr (Or.inl (timeSection_type htime)))
      · exact Or.inr (Or.inr (Or.inr (Or.inl (scatterPickSection_shape hsc))))
    · exact Or.inr (Or.inr (Or.inr (Or.inr hcorr)))

/-- A box chart in the candidate pool is `computeBox` of the column's parsed
values (with the outlier list capped at 200). -/
theorem genCandidates_box {data : List Row} {eda : Eda} {c : Candidate}
    (h : c ∈ genCandidates data eda) {col : String} {mn q1 med q3 mx iqr : ℚ}
    {outs : List ℚ} {total : Nat}
    (hs : c.spec = .box col mn q1 med q3 mx iqr outs total) :
    ∃ b, computeBox (parsedNums data col) = some b ∧ mn = b.min ∧ q1 = b.q1 ∧
      med = b.median ∧ q3 = b.q3 ∧ mx = b.max ∧ iqr = b.iqr ∧
      outs = b.outliers.take 200 ∧ total = b.total := by
  rcases genCandidates_cases h with hhb | hbar | htime | ⟨hsc, -⟩ | hcorr
  · rcases histBoxSection_mem hhb with ⟨col2, h0, -, hhist, hspec, -⟩ |
      ⟨col2, b, -, hbox, hspec, -⟩
    · rw [hs] at hspec
      exact ChartSpec.noConfusion hspec
    · rw [hs] at hspec
      injection hspec with e1 e2 e3 e4 e5 e6 e7 e8 e9
      subst e1
      exact ⟨b, hbox, e2, e3, e4, e5, e6, e7, e8, e9⟩
  · rw [hs] at hbar
    exact absurd (show ("box" : String) = "bar" from hbar) (by decide)
  · rw [hs] at htime
    exact absurd (show ("box" : String) = "time" from htime) (by decide)
  · rw [hs] at hsc
    exact absurd (show ("box" : String) = "scatter" from hsc) (by decide)
  · obtain ⟨R, M, n, hspec, -, -⟩ := corrSection_mem hcorr
    rw [hs] at hspec
    exact ChartSpec.noConfusion hspec

/-- A histogram chart in the candidate pool is `computeHistogram` of the
column's parsed values at `chooseBins`. -/
theorem genCandidates_hist {data : List Row} {eda : Eda} {c : Candidate}
    (h : c ∈ genCandidates data eda) {col : String} {bins : Nat} {edges : List ℚ}
    {counts : List Nat} {mn mx : ℚ} {total : Nat}
    (hs : c.spec = .histogram col bins edges counts mn mx total) :
    ∃ h0, computeHistogram (parsedNums data col)
        (chooseBins (parsedNums data col).length) = some h0 ∧
      bins = chooseBins (parsedNums data col).length ∧ edges = h0.edges ∧
      counts = h0.counts ∧ mn = h0.min ∧ mx = h0.max ∧ total = h0.total := by
  rcases genCandidates_cases h with hhb | hbar | htime | ⟨hsc, -⟩ | hcorr
  · rcases histBoxSection_mem hhb with ⟨col2, h0, -, hhist, hspec, -⟩ |
      ⟨col2, b, -, hbox, hspec, -⟩
    · rw [hs] at hspec
      injection hspec with e1 e2 e3 e4 e5 e6 e7
      subst e1
      exact ⟨h0, hhist, e2, e3, e4, e5, e6, e7⟩
    · rw [hs] at hspec
      exact ChartSpec.noConfusion hspec
  · rw [hs] at hbar
    exact absurd (show ("histogram" : String) = "bar" from hbar) (by decide)
  · rw [hs] at htime
    exact absurd (show ("histogram" : String) = "time" from htime) (by decide)
  · rw [hs] at hsc
    exact absurd (show ("histogram" : String) = "scatter" from hsc) (by decide)
  · obtain ⟨R, M, n, hspec, -, -⟩ := corrSection_mem hcorr
    rw [hs] at hspec
    exact ChartSpec.noConfusion hspec

/-- A correlation chart in the candidate pool is a successful
`buildCorrMatrix` over its own column list. -/
theorem genCandidates_corr {data : List Row} {eda : Eda} {c : Candidate}
    (h : c ∈ genCandidates data eda) {title : String} {cols : List String}
    {M : List (List ℝ)} (hs : c.spec = .corr title cols M) :
    ∃ n, buildCorrMatrix data cols = some (M, n) := by
  rcases genCandidates_cases h with hhb | hbar | htime | ⟨hsc, -⟩ | hcorr
  · rcases histBoxSection_mem hhb with ⟨col2, h0, -, hhist, hspec, -⟩ |
      ⟨col2, b, -, hbox, hspec, -⟩
    · rw [hs] at hspec
      exact ChartSpec.noConfusion hspec
    · rw [hs] at hspec
      exact ChartSpec.noConfusion hspec
  · rw [hs] at hbar
    exact absurd (show ("corr" : String) = "bar" from hbar) (by decide)
  · rw [hs] at htime
    exact absurd (show ("corr" : String) = "time" from htime) (by decide)
  · rw [hs] at hsc
    exact absurd (show ("corr" : String) = "scatter" from hsc) (by decide)
  · obtain ⟨R, M2, n, hspec, hbm, -⟩ := corrSection_mem hcorr
    rw [hs] at hspec
    injection hspec with e1 e2 e3
    subst e2
    subst e3
    exact ⟨n, hbm⟩

theorem generateCharts_eq (data : List Row) (eda : Eda) :
    generateCharts data eda = pickDiverse (genCandidates data eda) 4 8 := rfl

/-- Concrete-membership driver: a candidate at position `i` of the pool whose
purpose and type counts fit the caps is selected. -/
theorem mem_generateCharts_at {data : List Row} {eda : Eda} {i : Nat}
    {c : Candidate} (tps : List (String × String))
    (hmap : (genCandidates data eda).map (fun x => (specType x.spec, x.purpose)) = tps)
    (hget : (genCandidates data eda)[i]? = some c)
    (hp : tps.countP (fun x => x.2 == c.purpose) ≤ pMaxF c.purpose)
    (ht2 : tps.countP (fun x => x.1 == specType c.spec) ≤ tMaxF (specType c.spec))
    (hsum : (((tps.map Prod.snd).dedup).map (fun p =>
      min (pMaxF p) (tps.countP (fun x => x.2 == p)))).sum ≤ 8) :
    c.spec ∈ generateCharts data eda := by
  obtain ⟨hlt, hgeteq⟩ := List.getElem?_eq_some.mp hget
  have hc : c ∈ genCandidates data eda := by
    rw [← hgeteq]
    exact List.getElem_mem _
  have hcount : ∀ p, (genCandidates data eda).countP (fun x => x.purpose == p) =
      tps.countP (fun x => x.2 == p) := by
    intro p
    rw [← hmap, List.countP_map]
    rfl
  have hcountT : ∀ t, (genCandidates data eda).countP
      (fun x => specType x.spec == t) = tps.countP (fun x => x.1 == t) := by
    intro t
    rw [← hmap, List.countP_map]
    rfl
  have hpmap : (genCandidates data eda).map (fun x => x.purpose) =
      tps.map Prod.snd := by
    rw [← hmap, List.map_map]
    rfl
  rw [generateCharts_eq]
  apply pickDiverse_mem _ c (by norm_num) hc
  · rw [hcount]
    exact hp
  · rw [hcountT]
    exact ht2
  · rw [hpmap]
    calc ((((tps.map Prod.snd).dedup).map (fun p =>
          min (pMaxF p) ((genCandidates data eda).countP
            (fun x => x.purpose == p)))).sum) =
        (((tps.map Prod.snd).dedup).map (fun p =>
          min (pMaxF p) (tps.countP (fun x => x.2 == p)))).sum := by
          apply congrArg
          apply List.map_congr_left
          intro p _
          rw [hcount]
      _ ≤ 8 := hsum

/-- **C1** (amended): every emitted box plot has its published outliers
strictly outside the 1.5·IQR fences and ordered quartiles
`q1 ≤ median ≤ q3`; the whisker ends need not bracket the quartiles. -/
theorem C1_box_fences_and_quartiles {data : List Row} {eda : Eda} {col : String}
    {mn q1 med q3 mx iqr : ℚ} {outs : List ℚ} {total : Nat}
    (h : ChartSpec.box col mn q1 med q3 mx iqr outs total ∈ generateCharts data eda) :
    (∀ v ∈ outs, v < q1 - 3 / 2 * iqr ∨ q3 + 3 / 2 * iqr < v) ∧
    q1 ≤ med ∧ med ≤ q3 := by
  rw [generateCharts_eq] at h
  obtain ⟨c, hc, hcs⟩ := pickDiverse_sub h
  obtain ⟨b, hbox, e1, e2, e3, e4, e5, e6, e7, e8⟩ := genCandidates_box hc hcs
  refine ⟨?_, ?_, ?_⟩
  · intro v hv
    rw [e7] at hv
    have hv2 : v ∈ b.outliers := List.mem_of_mem_take hv
    have hout := computeBox_outliers_outside hbox v hv2
    rw [e2, e4, e6]
    rw [(computeBox_inv hbox).2.2.2.2.1] at hout
    rw [(computeBox_inv hbox).2.2.2.2.1]
    exact hout
  · rw [e2, e3]
    exact (computeBox_quartiles_mono hbox).1
  · rw [e3, e4]
    exact (computeBox_quartiles_mono hbox).2

/-- **C2**: an emitted histogram's counts sum to its total, which is the
numeric column's profiled non-missing count. -/
theorem C2_hist_total_nonmissing {data : List Row} {col : String} {bins : Nat}
    {edges : List ℚ} {counts : List Nat} {mn mx : ℚ} {total : Nat} {info : ColInfo}
    (h : ChartSpec.histogram col bins edges counts mn mx total ∈
      generateCharts data (runEDA data))
    (hl : lookupCol (runEDA data) col = some info) (ht : info.type = "numeric") :
    counts.sum = total ∧ info.nonMissingCount = some total := by
  rw [generateCharts_eq] at h
  obtain ⟨c, hc, hcs⟩ := pickDiverse_sub h
  obtain ⟨h0, hhist, e1, e2, e3, e4, e5, e6⟩ := genCandidates_hist hc hcs
  have hsum := computeHistogram_sum (chooseBins_pos (parsedNums data col).length) hhist
  have htot := (computeHistogram_inv hhist).1
  refine ⟨?_, ?_⟩
  · rw [e3, e6]
    exact hsum
  · rw [e6, htot]
    have hinfo := lookupCol_runEDA hl
    rw [hinfo]
    apply profileColumn_numeric
    rw [← hinfo]
    exact ht

/-- **C3**: `generateCharts` emits at most 8 charts, and at least 4 whenever
the candidate pool holds at least 4 entries. -/
theorem C3_chart_count_bounds (data : List Row) (eda : Eda) :
    (generateCharts data eda).length ≤ 8 ∧
    (4 ≤ (genCandidates data eda).length → 4 ≤ (generateCharts data eda).length) := by
  rw [generateCharts_eq]
  exact ⟨pickDiverse_length_le _ _ _,
    fun hge => pickDiverse_length_ge _ _ _ (by norm_num) hge⟩

/-- **C10**: an emitted box plot publishes at most 200 outliers: the
ascending outlier list is truncated to its first (smallest) 200 entries, and
every suppressed entry is at least every published one. -/
theorem C10_outlier_truncation {data : List Row} {eda : Eda} {col : String}
    {mn q1 med q3 mx iqr : ℚ} {outs : List ℚ} {total : Nat}
    (h : ChartSpec.box col mn q1 med q3 mx iqr outs total ∈ generateCharts data eda) :
    outs.length ≤ 200 ∧ outs.Pairwise (· ≤ ·) ∧
    ∃ full : List ℚ, outs = full.take 200 ∧
      (∀ v ∈ full, v < q1 - 3 / 2 * iqr ∨ q3 + 3 / 2 * iqr < v) ∧
      ∀ v ∈ outs, ∀ w ∈ full.drop 200, v ≤ w := by
  rw [generateCharts_eq] at h
  obtain ⟨c, hc, hcs⟩ := pickDiverse_sub h
  obtain ⟨b, hbox, e1, e2, e3, e4, e5, e6, e7, e8⟩ := genCandidates_box hc hcs
  have hsorted := computeBox_outliers_sorted hbox
  have houtside := computeBox_outliers_outside hbox
  have hiqr := (computeBox_inv hbox).2.2.2.2.1
  refine ⟨?_, ?_, b.outliers, e7, ?_, ?_⟩
  · rw [e7]
    simp [List.length_take]
  · rw [e7]
    exact List.Pairwise.sublist (List.take_sublist _ _) hsorted
  · intro v hv
    rw [e2, e4, e6, hiqr]
    rw [hiqr] at houtside
    exact houtside v hv
  · intro v hv w hw
    have hsplit : b.outliers.take 200 ++ b.outliers.drop 200 = b.outliers :=
      List.take_append_drop _ _
    have hp : (b.outliers.take 200 ++ b.outliers.drop 200).Pairwise (· ≤ ·) := by
      rw [hsplit]
      exact hsorted
    rw [e7] at hv
    exact (List.pairwise_append.mp hp).2.2 v hv w hw

/-! ## Concrete datasets -/

set_option maxRecDepth 1000000

theorem exists_getElem? {α : Type} (l : List α) {i : Nat} (hi : i < l.length) :
    ∃ c, l[i]? = some c :=
  ⟨l[i], List.getElem?_eq_getElem hi⟩

theorem spec_at_of_maps {data : List Row} {eda : Eda} {i : Nat} {c : Candidate}
    {specs : List ChartSpec}
    (hspec : (genCandidates data eda).map (fun x => x.spec) = specs)
    (hget : (genCandidates data eda)[i]? = some c) :
    specs[i]? = some c.spec := by
  rw [← hspec, List.getElem?_map, hget]
  rfl

theorem tp_at_of_maps {data : List Row} {eda : Eda} {i : Nat} {c : Candidate}
    {tps : List (String × String)}
    (hmap : (genCandidates data eda).map (fun x => (specType x.spec, x.purpose)) = tps)
    (hget : (genCandidates data eda)[i]? = some c) :
    tps[i]? = some (specType c.spec, c.purpose) := by
  rw [← hmap, List.getElem?_map, hget]
  rfl

/-- A 12-row single-column dataset: three zeros and nine hundreds. -/
def d1 : List Row :=
  (List.replicate 3 [("v", Val.vNum 0)]) ++ (List.replicate 9 [("v", Val.vNum 100)])

theorem d1_tp_map : (genCandidates d1 (runEDA d1)).map
    (fun x => (specType x.spec, x.purpose)) =
    [("histogram", "distribution"), ("box", "distribution")] := by
  with_unfolding_all rfl

theorem d1_spec_map : (genCandidates d1 (runEDA d1)).map (fun x => x.spec) =
    [ChartSpec.histogram "v" 8
        [0, 25 / 2, 25, 75 / 2, 50, 125 / 2, 75, 175 / 2, 100]
        [3, 0, 0, 0, 0, 0, 0, 9] 0 100 12,
     ChartSpec.box "v" 100 75 100 100 100 25 [0, 0, 0] 12] := by
  with_unfolding_all rfl

theorem d1_len : (genCandidates d1 (runEDA d1)).length = 2 := by
  have := congrArg List.length d1_tp_map
  simpa using this

theorem d1_box_mem : ChartSpec.box "v" 100 75 100 100 100 25 [0, 0, 0] 12 ∈
    generateCharts d1 (runEDA d1) := by
  obtain ⟨c, hget⟩ := exists_getElem? (genCandidates d1 (runEDA d1))
    (i := 1) (by rw [d1_len]; omega)
  have hsp : c.spec = ChartSpec.box "v" 100 75 100 100 100 25 [0, 0, 0] 12 := by
    have h1 := spec_at_of_maps d1_spec_map hget
    simpa using h1.symm
  have htp := tp_at_of_maps d1_tp_map hget
  have htype : specType c.spec = "box" := by rw [hsp]; rfl
  have hpurp : c.purpose = "distribution" := by
    simp only [List.getElem?_cons_succ, List.getElem?_cons_zero,
      Option.some.injEq] at htp
    exact (Prod.mk.inj htp.symm).2
  rw [← hsp]
  apply mem_generateCharts_at _ d1_tp_map hget
  · rw [hpurp]
    decide
  · rw [htype]
    decide
  · decide

theorem d1_hist_mem : ChartSpec.histogram "v" 8
    [0, 25 / 2, 25, 75 / 2, 50, 125 / 2, 75, 175 / 2, 100]
    [3, 0, 0, 0, 0, 0, 0, 9] 0 100 12 ∈ generateCharts d1 (runEDA d1) := by
  obtain ⟨c, hget⟩ := exists_getElem? (genCandidates d1 (runEDA d1))
    (i := 0) (by rw [d1_len]; omega)
  have hsp : c.spec = ChartSpec.histogram "v" 8
      [0, 25 / 2, 25, 75 / 2, 50, 125 / 2, 75, 175 / 2, 100]
      [3, 0, 0, 0, 0, 0, 0, 9] 0 100 12 := by
    have h1 := spec_at_of_maps d1_spec_map hget
    simpa using h1.symm
  have htp := tp_at_of_maps d1_tp_map hget
  have htype : specType c.spec = "histogram" := by rw [hsp]; rfl
  have hpurp : c.purpose = "distribution" := by
    simp only [List.getElem?_cons_zero, Option.some.injEq] at htp
    exact (Prod.mk.inj htp.symm).2
  rw [← hsp]
  apply mem_generateCharts_at _ d1_tp_map hget
  · rw [hpurp]
    decide
  · rw [htype]
    decide
  · decide

/-- **C1** counterexample: `generateCharts` emits a box plot whose whisker
minimum 100 exceeds its first quartile 75. -/
theorem C1_counterexample_min_gt_q1 :
    ChartSpec.box "v" 100 75 100 100 100 25 [0, 0, 0] 12 ∈
      generateCharts d1 (runEDA d1) ∧ ¬ ((100 : ℚ) ≤ 75) :=
  ⟨d1_box_mem, by norm_num⟩

/-- **C1** witness: the amended fence/quartile property at the emitted d1
box plot. -/
theorem C1_witness_d1 :
    (∀ v ∈ [(0 : ℚ), 0, 0], v < 75 - 3 / 2 * 25 ∨ 100 + 3 / 2 * 25 < v) ∧
    (75 : ℚ) ≤ 100 ∧ (100 : ℚ) ≤ 100 :=
  C1_box_fences_and_quartiles d1_box_mem

/-- **C10** witness: the truncation property at the emitted d1 box plot. -/
theorem C10_witness_d1 :
    ([(0 : ℚ), 0, 0].length ≤ 200) ∧ ([(0 : ℚ), 0, 0].Pairwise (· ≤ ·)) ∧
    ∃ full : List ℚ, [(0 : ℚ), 0, 0] = full.take 200 ∧
      (∀ v ∈ full, v < 75 - 3 / 2 * 25 ∨ 100 + 3 / 2 * 25 < v) ∧
      ∀ v ∈ [(0 : ℚ), 0, 0], ∀ w ∈ full.drop 200, v ≤ w :=
  C10_outlier_truncation d1_box_mem

/-- **C2** witness: count/total/non-missing agreement at the emitted d1
histogram. -/
theorem C2_witness_d1 :
    lookupCol (runEDA d1) "v" = some (profileColumn d1 [] "v") ∧
    (profileColumn d1 [] "v").type = "numeric" ∧
    (([3, 0, 0, 0, 0, 0, 0, 9] : List Nat).sum = 12 ∧
      (profileColumn d1 [] "v").nonMissingCount = some 12) :=
  ⟨by with_unfolding_all rfl, by with_unfolding_all rfl,
   C2_hist_total_nonmissing d1_hist_mem (by with_unfolding_all rfl)
     (by with_unfolding_all rfl)⟩

/-- A 12-row two-numeric-column dataset yielding four chart candidates. -/
def d3 : List Row := (List.range 12).map (fun (i : ℕ) =>
  [("x", Val.vNum ((i : ℚ) + 1)), ("y", Val.vNum (((i * i : ℕ) : ℚ) + 1 / 2))])

theorem d3_card : 4 ≤ (genCandidates d3 (runEDA d3)).length := by
  have h : (genCandidates d3 (runEDA d3)).map (fun x => (specType x.spec, x.purpose)) =
      [("histogram", "distribution"), ("box", "distribution"),
       ("histogram", "distribution"), ("box", "distribution")] := by
    with_unfolding_all rfl
  have := congrArg List.length h
  simp at this
  omega

/-- **C3** witness: the 4–8 bounds at a dataset with four candidates. -/
theorem C3_witness_d3 :
    (generateCharts d3 (runEDA d3)).length ≤ 8 ∧
    (4 ≤ (genCandidates d3 (runEDA d3)).length →
      4 ≤ (generateCharts d3 (runEDA d3)).length) :=
  C3_chart_count_bounds d3 (runEDA d3)

/-- The column names referenced by a chart specification (title first). -/
def specCols : ChartSpec → List String
  | .histogram col .. => [col]
  | .box col .. => [col]
  | .bar col .. => [col]
  | .time col x y _ _ => [col, x, y]
  | .scatter col x y _ _ => [col, x, y]
  | .corr col cs _ => col :: cs

/-- 40 rows of sequential `order_id` 1..40 beside a cyclic `amount`. -/
def d7 : List Row := (List.range 40).map (fun (i : ℕ) =>
  [("order_id", Val.vNum ((i + 1 : ℕ) : ℚ)),
   ("amount", Val.vNum (((i % 10) * 3 : ℕ) + (1 : ℚ) / 2))])

theorem d7_tp_map : (genCandidates d7 (runEDA d7)).map
    (fun x => (specType x.spec, x.purpose)) =
    [("histogram", "distribution"), ("box", "distribution"),
     ("scatter", "relationship")] := by
  with_unfolding_all rfl

theorem d7_cols_map : (genCandidates d7 (runEDA d7)).map (fun x => specCols x.spec) =
    [["amount"], ["amount"], ["order_id vs amount", "amount", "order_id"]] := by
  with_unfolding_all rfl

theorem d7_id_profile : (lookupCol (runEDA d7) "order_id").map
    (fun i => (i.type, i.inferredAs)) = some ("categorical", some "id") := by
  with_unfolding_all rfl

/-- **C7**: the profile classifies `order_id` as an identifier, yet
`generateCharts` still emits a scatter chart over `order_id` (the numeric
fallback detector re-adds the column to the numeric set). -/
theorem C7_order_id_scatter_bug :
    (lookupCol (runEDA d7) "order_id").map (fun i => (i.type, i.inferredAs)) =
      some ("categorical", some "id") ∧
    ∃ pts corr, ChartSpec.scatter "order_id vs amount" "amount" "order_id" pts corr ∈
      generateCharts d7 (runEDA d7) := by
  refine ⟨d7_id_profile, ?_⟩
  obtain ⟨c, hget⟩ := exists_getElem? (genCandidates d7 (runEDA d7)) (i := 2) (by
    have := congrArg List.length d7_tp_map
    simp at this
    omega)
  have htp := tp_at_of_maps d7_tp_map hget
  have htype : specType c.spec = "scatter" := by
    simp only [List.getElem?_cons_succ, List.getElem?_cons_zero,
      Option.some.injEq] at htp
    exact (Prod.mk.inj htp.symm).1
  have hpurp : c.purpose = "relationship" := by
    simp only [List.getElem?_cons_succ, List.getElem?_cons_zero,
      Option.some.injEq] at htp
    exact (Prod.mk.inj htp.symm).2
  have hcols : specCols c.spec = ["order_id vs amount", "amount", "order_id"] := by
    have h1 : ((genCandidates d7 (runEDA d7)).map (fun x => specCols x.spec))[2]? =
        some (specCols c.spec) := by
      rw [List.getElem?_map, hget]
      rfl
    rw [d7_cols_map] at h1
    simpa using h1.symm
  obtain ⟨title, x, y, pts, corr, hspec⟩ :
      ∃ title x y pts corr, c.spec = .scatter title x y pts corr := by
    rcases hcs : c.spec with _ | _ | _ | _ | ⟨t, x, y, pts, corr⟩ | _
    all_goals first
      | exact ⟨_, _, _, _, _, rfl⟩
      | (rw [hcs] at htype
         exact absurd (show ("histogram" : String) = "scatter" from htype) (by decide))
      | (rw [hcs] at htype
         exact absurd (show ("box" : String) = "scatter" from htype) (by decide))
      | (rw [hcs] at htype
         exact absurd (show ("bar" : String) = "scatter" from htype) (by decide))
      | (rw [hcs] at htype
         exact absurd (show ("time" : String) = "scatter" from htype) (by decide))
      | (rw [hcs] at htype
         exact absurd (show ("corr" : String) = "scatter" from htype) (by decide))
  rw [hspec] at hcols
  simp only [specCols, List.cons.injEq] at hcols
  obtain ⟨rfl, rfl, rfl, -⟩ := hcols
  refine ⟨pts, corr, ?_⟩
  rw [← hspec]
  apply mem_generateCharts_at _ d7_tp_map hget
  · rw [hpurp]
    decide
  · rw [htype]
    decide
  · decide

/-- **C9**: with no date-typed column in the profile, a time/trend question
gets the fixed plain-language sentence (the query path is total and returns
a string in every branch). -/
theorem C9_time_question_no_date (meta : Meta) (eda : Eda) (kpis : List KPI)
    (charts : List ChartSpec) (insights : List Insight)
    (hnd : eda.columns.any (fun p => p.2.type == "date") = false) :
    answerQuestion "time trend" meta eda kpis charts insights =
      "This dataset does not contain a date column suitable for time analysis." := by
  unfold answerQuestion
  have h1 : isSummaryQ ("time trend".trim.toLower) = false := by with_unfolding_all rfl
  have h2 : isWhatStandsOutQ ("time trend".trim.toLower) = false := by
    with_unfolding_all rfl
  have h3 : isMainMetricQ ("time trend".trim.toLower) = false := by
    with_unfolding_all rfl
  have h4 : isOutliersQ ("time trend".trim.toLower) = false := by
    with_unfolding_all rfl
  have h5 : isSkewQ ("time trend".trim.toLower) = false := by with_unfolding_all rfl
  have h6 : isExplainQ ("time trend".trim.toLower) = false := by with_unfolding_all rfl
  have h7 : isDistributionQ ("time trend".trim.toLower) = false := by
    with_unfolding_all rfl
  have h8 : isTopQ ("time trend".trim.toLower) = false := by with_unfolding_all rfl
  have h9 : isTimeQ ("time trend".trim.toLower) = true := by with_unfolding_all rfl
  simp only [h1, h2, h3, h4, h5, h6, h7, h8, h9, hnd, Bool.false_eq_true, if_false,
    if_true, Bool.not_eq_true, not_false_iff]

/-- A one-numeric-column profile with no date column. -/
def eda9 : Eda := { columns := [("amount", { type := "numeric", uniqueCount := 5 })] }

/-- **C9** witness: the fixed sentence at a concrete date-free profile. -/
theorem C9_witness_eda9 :
    answerQuestion "time trend" {} eda9 [] [] [] =
      "This dataset does not contain a date column suitable for time analysis." :=
  C9_time_question_no_date {} eda9 [] [] [] rfl

/-- **C4** (amended): for a non-empty row set the KPI list holds at most 6
entries and starts with the row-count KPI; the empty row set returns no
KPIs at all. -/
theorem C4_kpis_amended (data : List Row) (eda : Option Eda) (hne : data ≠ []) :
    (generateKPIs data eda).length ≤ 6 ∧
    (generateKPIs data eda).head? =
      some { label := "Rows", value := intGrouped data.length, type := "count" } := by
  unfold generateKPIs
  have hd : data.isEmpty = false := by
    cases data with
    | nil => exact absurd rfl hne
    | cons a l => rfl
  simp only [hd, Bool.false_eq_true, if_false]
  cases eda with
  | none => exact ⟨(by norm_num : (1 : ℕ) ≤ 6), rfl⟩
  | some e =>
    refine ⟨?_, rfl⟩
    simp only []
    rw [List.length_take]
    exact min_le_left _ _

/-- **C4** counterexample: the empty row set yields an empty KPI list, with
no leading "Rows" entry. -/
theorem C4_counterexample_empty : generateKPIs [] none = [] := by
  with_unfolding_all rfl

/-- **C4** witness: the amended head/length property at a one-row dataset. -/
theorem C4_witness_one_row :
    (generateKPIs [[("a", Val.vNum 1)]] none).length ≤ 6 ∧
    (generateKPIs [[("a", Val.vNum 1)]] none).head? =
      some { label := "Rows", value := intGrouped 1, type := "count" } :=
  C4_kpis_amended [[("a", Val.vNum 1)]] none (List.cons_ne_nil _ _)

/-- **C8** (amended): identifier-like or under-sampled numeric columns
score 0, but a degenerate range (`max == min`) scores 1, not 0: such a
column stays a KPI candidate. -/
theorem C8_score_semantics :
    (∀ col info rc, isIdLikeColumn col (some info) rc = true →
      scoreNumericCol col (some info) rc = 0) ∧
    (∀ col info rc, isIdLikeColumn col (some info) rc = false →
      info.nonMissingCount.getD 0 < 25 → scoreNumericCol col (some info) rc = 0) ∧
    (∀ col info rc q, isIdLikeColumn col (some info) rc = false →
      ¬ info.nonMissingCount.getD 0 < 25 →
      numberField info.minV = some q → numberField info.maxV = some q →
      scoreNumericCol col (some info) rc = 1) := by
  refine ⟨?_, ?_, ?_⟩
  · intro col info rc hid
    unfold scoreNumericCol
    simp only [hid, if_true]
  · intro col info rc hid hnn
    unfold scoreNumericCol
    simp only [hid, Bool.false_eq_true, if_false]
    rcases hmn : numberField info.minV with _ | mn <;>
      rcases hmx : numberField info.maxV with _ | mx <;>
      simp only [hnn, if_true]
  · intro col info rc q hid hnn hmn hmx
    unfold scoreNumericCol
    simp only [hid, Bool.false_eq_true, if_false, hmn, hmx, hnn, if_false]
    have h0 : |q - q| = 0 := by simp
    simp only [h0, if_pos rfl]
    simp

/-- 25 identical rows of a single constant numeric column. -/
def d8 : List Row := List.replicate 25 [("k", Val.vNum 7)]

theorem d8_cols : (runEDA d8).columns = [("k", profileColumn d8 [] "k")] := by
  with_unfolding_all rfl

/-- **C8** counterexample: a constant 25-row numeric column scores 1 and
contributes the Total/Average/range KPI triad. -/
theorem C8_counterexample_constant_triad :
    numberField ((profileColumn d8 [] "k").minV) = some 7 ∧
    numberField ((profileColumn d8 [] "k").maxV) = some 7 ∧
    scoreNumericCol "k" (some (profileColumn d8 [] "k")) 25 = 1 ∧
    { column := some "k", label := "Total k", value := "175", type := "sum" } ∈
      generateKPIs d8 (some (runEDA d8)) := by
  have hmin : numberField ((profileColumn d8 [] "k").minV) = some 7 := by
    with_unfolding_all rfl
  have hmax : numberField ((profileColumn d8 [] "k").maxV) = some 7 := by
    with_unfolding_all rfl
  have hid : isIdLikeColumn "k" (some (profileColumn d8 [] "k")) 25 = false := by
    with_unfolding_all rfl
  have hnn : (profileColumn d8 [] "k").nonMissingCount = some 25 := by
    with_unfolding_all rfl
  have hty : ((profileColumn d8 [] "k").type == "numeric") = true := by
    with_unfolding_all rfl
  have hmiss : (profileColumn d8 [] "k").missing = 0 := by with_unfolding_all rfl
  have hscore : scoreNumericCol "k" (some (profileColumn d8 [] "k")) 25 = 1 :=
    C8_score_semantics.2.2 "k" _ 25 7 hid (by rw [hnn]; norm_num) hmin hmax
  refine ⟨hmin, hmax, hscore, ?_⟩
  have hlen : d8.length = 25 := by simp [d8]
  have hdup : (runEDA d8).duplicates = 24 := by with_unfolding_all rfl
  unfold generateKPIs
  have hne : d8.isEmpty = false := by with_unfolding_all rfl
  simp only [hne, Bool.false_eq_true, if_false]
  simp only [d8_cols, hlen, hdup]
  have hf1 : List.filter (fun p : String × ColInfo => p.2.type == "numeric")
      [("k", profileColumn d8 [] "k")] = [("k", profileColumn d8 [] "k")] := by
    rw [List.filter_cons, if_pos hty, List.filter_nil]
  rw [hf1]
  have hdec : (@decide ((0:ℝ) < 1) (Classical.propDecidable _)) = true := by
    rw [decide_eq_true_eq]
    norm_num
  simp only [List.map_cons, List.map_nil, List.filter_cons, List.filter_nil, hscore,
    hdec, if_true, hmiss, hnn, List.sum_cons, List.sum_nil]
  have hsortS : ∀ (le : String × ColInfo × ℝ → String × ColInfo × ℝ → Bool)
      (x : String × ColInfo × ℝ), jsSortBy le [x] = [x] := fun _ _ => rfl
  have htriad : kpiTriad d8 [("k", profileColumn d8 [] "k")] =
      [{ column := some "k", label := "Total k", value := "175", type := "sum" },
       { column := some "k", label := "Average k", value := "7", type := "mean" },
       { column := some "k", label := "k range", value := "7 → 7", type := "range" }] := by
    with_unfolding_all rfl
  have hcat : pickBestCategorical (runEDA d8) 25 = none := by with_unfolding_all rfl
  have hdate : pickBestDate (runEDA d8) = none := by with_unfolding_all rfl
  simp only [hsortS, List.map_cons, List.map_nil, htriad, hcat, hdate]
  norm_num
  refine Or.inr (Or.inr (Or.inr ?_))
  rw [htriad]
  simp

/-- A degenerate-range numeric profile (constant value 7 over 25 rows). -/
def info8w : ColInfo :=
  { type := "numeric", minV := some (Val.vNum 7), maxV := some (Val.vNum 7),
    nonMissingCount := some 25 }

/-- **C8** witness: the degenerate-range score at a concrete profile. -/
theorem C8_witness_degenerate : scoreNumericCol "k" (some info8w) 30 = 1 :=
  C8_score_semantics.2.2 "k" info8w 30 7 (by with_unfolding_all rfl)
    (by with_unfolding_all decide) (by with_unfolding_all rfl)
    (by with_unfolding_all rfl)

/-- The identifying fields of the numeric-outlier main warning. -/
def isOutlierWarning (i : Insight) : Bool :=
  i.severity == some "warning" && i.action == some "investigate"

theorem countP_pushUnique_le (p : Insight → Bool) (l : List Insight) (x : Insight) :
    (pushUnique l x).countP p ≤ l.countP p + 1 := by
  unfold pushUnique
  split_ifs
  · omega
  · rw [List.countP_append]
    have : List.countP p [x] ≤ 1 := by
      rw [List.countP_cons, List.countP_nil]
      split_ifs <;> omega
    omega

theorem countP_pushUnique_not {p : Insight → Bool} (l : List Insight) {x : Insight}
    (hx : p x = false) : (pushUnique l x).countP p = l.countP p := by
  unfold pushUnique
  split_ifs
  · rfl
  · rw [List.countP_append, List.countP_cons, List.countP_nil, hx]
    rfl

theorem countP_foldl_pushUnique_le (p : Insight → Bool) (T : List OutCand) :
    ∀ l, ((T.foldl (fun acc c => pushUnique acc c.insight) l).countP p) ≤
      l.countP p + T.length := by
  induction T with
  | nil => intro l; simp
  | cons c T ih =>
    intro l
    calc ((T.foldl (fun acc c => pushUnique acc c.insight)
          (pushUnique l c.insight)).countP p) ≤
        (pushUnique l c.insight).countP p + T.length := ih _
      _ ≤ l.countP p + 1 + T.length := by
          have := countP_pushUnique_le p l c.insight
          omega
      _ = l.countP p + (c :: T).length := by simp; omega

theorem countP_foldl_pushUnique_not (p : Insight → Bool) (T : List OutCand)
    (hT : ∀ c ∈ T, p c.insight = false) :
    ∀ l, ((T.foldl (fun acc c => pushUnique acc c.insight) l).countP p) =
      l.countP p := by
  induction T with
  | nil => intro l; rfl
  | cons c T ih =>
    intro l
    have h1 := hT c (List.mem_cons_self c T)
    calc ((T.foldl (fun acc c => pushUnique acc c.insight)
          (pushUnique l c.insight)).countP p) =
        (pushUnique l c.insight).countP p :=
          ih (fun x hx => hT x (List.mem_cons_of_mem c hx)) _
      _ = l.countP p := countP_pushUnique_not _ h1

theorem dominance_not_warning {eda : Eda} {oc : OutCand}
    (h : oc ∈ dominanceCandidatesOf eda) : isOutlierWarning oc.insight = false := by
  unfold dominanceCandidatesOf at h
  obtain ⟨pp, hp, hc⟩ := List.mem_flatMap.mp h
  simp only [] at hc
  split_ifs at hc <;>
    first
      | cases hc
      | (split at hc <;>
          first
            | cases hc
            | (split_ifs at hc <;>
                first
                  | (rcases List.mem_singleton.mp hc with rfl
                     rfl)
                  | cases hc))

theorem countP_foldl_missing (cols : List (String × ColInfo)) :
    ∀ l : List Insight, ((cols.foldl (fun acc p =>
      let col := p.1
      let info := p.2
      match info.nonMissingCount with
      | none => acc
      | some nn =>
        let totalApprox := info.missing + nn
        if 0 < totalApprox then
          let missPct : ℚ := (info.missing : ℚ) / (totalApprox : ℚ) * 100
          if 25 ≤ missPct then
            pushUnique acc
              { id := col ++ "-missing",
                severity := some (if 40 ≤ missPct then "warning" else "info"),
                column := some col, action := some "clean",
                text := "Column \"" ++ col ++ "\" has ~" ++ toString (jsRound missPct) ++
                  "% missing values. Any conclusions involving this column may be biased.",
                suggestedQuestions := suggest (some col) "missing" }
          else acc
        else acc) l).countP isOutlierWarning) = l.countP isOutlierWarning := by
  induction cols with
  | nil => intro l; rfl
  | cons p cols ih =>
    intro l
    rw [List.foldl_cons, ih]
    simp only []
    rcases p.2.nonMissingCount with _ | nn
    · rfl
    · simp only []
      split_ifs <;>
        first
          | rfl
          | exact countP_pushUnique_not _ (by simp [isOutlierWarning])

theorem insightsOutlierCap (eda : Eda) (kpis : List KPI) :
    (generateInsights eda kpis).countP isOutlierWarning ≤ 2 := by
  unfold generateInsights
  simp only []
  have hstep : ∀ l : List Insight,
      (List.take 6 (sortBusiness l)).countP isOutlierWarning ≤
        l.countP isOutlierWarning := by
    intro l
    calc (List.take 6 (sortBusiness l)).countP isOutlierWarning ≤
        (sortBusiness l).countP isOutlierWarning :=
          (List.take_sublist _ _).countP_le _
      _ = l.countP isOutlierWarning := (jsSortBy_perm _ _).countP_eq _
  apply le_trans (hstep _)
  have hheadline : ∀ l : List Insight,
      (match kpis.find? (fun k : KPI => k.type == "sum" ∧ k.column.isSome) with
       | some sumKpi =>
         let col := (resolveColumnIns (sumKpi.column.getD "") eda.columns).getD
           (sumKpi.column.getD "")
         pushUnique l
           { id := "headline-total-" ++ normalizeKey col, severity := some "positive",
             column := some col, action := some "report",
             text := "Headline: Total " ++ col ++ " = " ++ sumKpi.value ++
               " (useful for top-line reporting).",
             suggestedQuestions := suggest (some col) "headline" }
       | none =>
         match kpis.find? (fun k : KPI => k.type == "mean" ∧ k.column.isSome) with
         | some meanKpi =>
           let col := (resolveColumnIns (meanKpi.column.getD "") eda.columns).getD
             (meanKpi.column.getD "")
           pushUnique l
             { id := "headline-avg-" ++ normalizeKey col, severity := some "positive",
               column := some col, action := some "report",
               text := "Headline: Average " ++ col ++ " = " ++ meanKpi.value ++
                 " (useful for baseline reporting).",
               suggestedQuestions := suggest (some col) "headline" }
         | none => l).countP isOutlierWarning = l.countP isOutlierWarning := by
    intro l
    split
    · exact countP_pushUnique_not _ (by rfl)
    · split
      · exact countP_pushUnique_not _ (by rfl)
      · rfl
  have hcov : ∀ l : List Insight,
      (match eda.columns.find? (fun p : String × ColInfo => p.2.type == "date") with
       | none => l
       | some (dateCol, info) =>
         let mn := if valTruthyOpt info.minV then
             some ((valToString (info.minV.getD .vNull)).take 10) else none
         let mx := if valTruthyOpt info.maxV then
             some ((valToString (info.maxV.getD .vNull)).take 10) else none
         match mn, mx with
         | some mnS, some mxS =>
           let uniq := info.uniqueCount
           pushUnique l
             { id := dateCol ++ "-coverage", severity := some "info",
               column := some dateCol, action := some "monitor",
               text := "Time coverage: \"" ++ dateCol ++ "\" spans " ++ mnS ++ " → " ++
                 mxS ++ ". " ++
                 (if 30 ≤ uniq then
                   "Enough granularity (" ++ toString uniq ++
                     " unique dates) for trend/seasonality checks via weekly/monthly aggregation."
                 else
                   "Date coverage exists but granularity is limited (" ++ toString uniq ++
                     " unique dates)."),
               suggestedQuestions := suggest (some dateCol) "time" }
         | _, _ => l).countP isOutlierWarning = l.countP isOutlierWarning := by
    intro l
    split
    · rfl
    · simp only []
      split
      · exact countP_pushUnique_not _ (by rfl)
      · rfl
  refine le_trans (le_of_eq (hheadline _)) ?_
  refine le_trans (le_of_eq (hcov _)) ?_
  refine le_trans (le_of_eq (countP_foldl_pushUnique_not _ _ ?_ _)) ?_
  · intro c hc
    exact dominance_not_warning ((jsSortBy_mem _).mp (List.mem_of_mem_take hc))
  refine le_trans (countP_foldl_pushUnique_le _ _ _) ?_
  refine le_trans (Nat.add_le_add (le_of_eq ?_) ?_) (by norm_num : (0 : ℕ) + 2 ≤ 2)
  · rw [countP_foldl_missing]
    split_ifs <;> simp [countP_pushUnique_not, isOutlierWarning]
  · exact List.length_take_le _ _

theorem outlierRule_fwd (mainCol : Option String) (col : String) (info : ColInfo)
    (h : ((outlierEntriesFor mainCol (col, info)).any
      (fun oc => isOutlierWarning oc.insight)) = true) :
    info.type = "numeric" ∧ ∃ mx mean, numOfValOpt info.maxV = some mx ∧
      info.meanV = some mean ∧ mean ≠ 0 ∧
      3 ≤ mx / max (1 / 1000000000) mean := by
  unfold outlierEntriesFor at h
  simp only [] at h
  by_cases hty : ¬ (info.type == "numeric") = true
  · rw [if_pos hty] at h
    simp at h
  · rw [if_neg hty] at h
    rcases hmx : numOfValOpt info.maxV with _ | mx <;> rw [hmx] at h <;>
      rcases hmean : info.meanV with _ | mean <;> rw [hmean] at h
    · simp at h
    · simp at h
    · simp at h
    · simp only [] at h
      by_cases hm0 : mean = 0
      · rw [if_pos hm0] at h
        simp at h
      · rw [if_neg hm0] at h
        by_cases hr3 : mx / max (1 / 1000000000 : ℚ) mean < 3
        · rw [if_pos hr3] at h
          simp at h
        · rw [if_neg hr3] at h
          exact ⟨by simpa using hty, mx, mean, rfl, rfl, hm0, not_lt.mp hr3⟩

theorem outlierRule_bwd (mainCol : Option String) (col : String) (info : ColInfo)
    (hty : info.type = "numeric") (mx mean : ℚ)
    (hmx : numOfValOpt info.maxV = some mx) (hmean : info.meanV = some mean)
    (hm0 : mean ≠ 0) (hr : 3 ≤ mx / max (1 / 1000000000) mean) :
    ((outlierEntriesFor mainCol (col, info)).any
      (fun oc => isOutlierWarning oc.insight)) = true := by
  unfold outlierEntriesFor
  simp only []
  rw [if_neg (by simp [hty])]
  rw [hmx, hmean]
  simp only []
  rw [if_neg hm0, if_neg (not_lt.mpr hr)]
  simp [isOutlierWarning]

theorem outlierHead_entry (mainCol : Option String) (col : String) (info : ColInfo)
    (mx mean : ℚ) (hty : info.type = "numeric")
    (hmx : numOfValOpt info.maxV = some mx) (hmean : info.meanV = some mean)
    (hm0 : mean ≠ 0) (hr : 3 ≤ mx / max (1 / 1000000000) mean) :
    ∃ oc0, (outlierEntriesFor mainCol (col, info)).head? = some oc0 ∧
      oc0.insight.id = "outlier-" ++ normalizeKey col ∧
      oc0.insight.severity = some "warning" ∧
      oc0.score = (if mainCol == some col then (100 : ℚ) else 0) +
        mx / max (1 / 1000000000) mean * 10 := by
  unfold outlierEntriesFor
  simp only []
  rw [if_neg (by simp [hty]), hmx, hmean]
  simp only []
  rw [if_neg hm0, if_neg (not_lt.mpr hr)]
  exact ⟨_, rfl, rfl, rfl, rfl⟩

/-- **C5** (amended): the outlier warning for a numeric column is emitted
exactly when max and mean parse, the mean is nonzero, and
`max / max(1e-9, mean) >= 3` (a negative mean also qualifies through the
1e-9 clamp); the emitted warning carries score
`(100 if main metric else 0) + ratio*10`; at most 2 such warnings survive
into the output. -/
theorem C5_outlier_rule_and_cap :
    (∀ (mainCol : Option String) (col : String) (info : ColInfo),
      ((outlierEntriesFor mainCol (col, info)).any
        (fun oc => isOutlierWarning oc.insight)) = true ↔
      (info.type = "numeric" ∧ ∃ mx mean, numOfValOpt info.maxV = some mx ∧
        info.meanV = some mean ∧ mean ≠ 0 ∧
        3 ≤ mx / max (1 / 1000000000) mean)) ∧
    (∀ (mainCol : Option String) (col : String) (info : ColInfo) (mx mean : ℚ),
      info.type = "numeric" → numOfValOpt info.maxV = some mx →
      info.meanV = some mean → mean ≠ 0 →
      3 ≤ mx / max (1 / 1000000000) mean →
      ∃ oc0, (outlierEntriesFor mainCol (col, info)).head? = some oc0 ∧
        oc0.insight.id = "outlier-" ++ normalizeKey col ∧
        oc0.insight.severity = some "warning" ∧
        oc0.score = (if mainCol == some col then (100 : ℚ) else 0) +
          mx / max (1 / 1000000000) mean * 10) ∧
    (∀ (eda : Eda) (kpis : List KPI),
      (generateInsights eda kpis).countP isOutlierWarning ≤ 2) :=
  ⟨fun mc col info =>
    ⟨outlierRule_fwd mc col info,
     fun h =>
       outlierRule_bwd mc col info h.1 (Exists.choose h.2)
         (Exists.choose h.2.choose_spec)
         h.2.choose_spec.choose_spec.1 h.2.choose_spec.choose_spec.2.1
         h.2.choose_spec.choose_spec.2.2.1 h.2.choose_spec.choose_spec.2.2.2⟩,
   fun mc col info mx mean hty hmx hmean hm0 hr =>
     outlierHead_entry mc col info mx mean hty hmx hmean hm0 hr,
   insightsOutlierCap⟩

/-- A numeric profile with negative mean `-5` and max `100`. -/
def info5 : ColInfo :=
  { type := "numeric", missing := 0, uniqueCount := 3,
    minV := some (.vNum (-50)), maxV := some (.vNum 100),
    meanV := some (-5), medianV := some (-6), nonMissingCount := some 30 }

/-- A one-column profile around `info5`. -/
def eda5 : Eda := { columns := [("x", info5)] }

/-- **C5** counterexample: a column with mean `-5 < 0` still receives the
outlier warning (the original rule requires `mean > 0`). -/
theorem C5_counterexample_negative_mean :
    info5.meanV = some (-5) ∧ ¬ ((0 : ℚ) < -5) ∧
    (generateInsights eda5 []).any
      (fun i => i.id == "outlier-x" && i.severity == some "warning") = true :=
  ⟨rfl, by norm_num, by with_unfolding_all rfl⟩

theorem devSq_nonneg (xs : List ℚ) : 0 ≤ devSq xs := by
  unfold devSq
  apply List.sum_nonneg
  intro a ha
  obtain ⟨x, hx, rfl⟩ := List.mem_map.mp ha
  positivity

theorem zip_self_map {α : Type} (x : List α) : x.zip x = x.map (fun a => (a, a)) := by
  induction x with
  | nil => rfl
  | cons a l ih => simp [List.zip_cons_cons, ih]

/-- `pearson` of a series with itself is `1` when the variance numerator is
nonzero. -/
theorem pearson_self {x : List ℚ} (hlen : 8 ≤ x.length) (hdev : devSq x ≠ 0) :
    pearson x x = some 1 := by
  unfold pearson
  rw [if_neg (by omega : ¬ (x.length ≠ x.length ∨ x.length < 8))]
  have hnum : ((x.zip x).map (fun p => (p.1 - qmean x) * (p.2 - qmean x))).sum =
      devSq x := by
    rw [zip_self_map, List.map_map]
    unfold devSq
    apply congrArg
    apply List.map_congr_left
    intro a _
    simp [Function.comp]
    ring
  have hnn : (0 : ℚ) ≤ devSq x := devSq_nonneg x
  have hden : Real.sqrt (((devSq x * devSq x : ℚ) : ℝ)) = ((devSq x : ℚ) : ℝ) := by
    push_cast
    rw [show ((devSq x : ℚ) : ℝ) * ((devSq x : ℚ) : ℝ) = ((devSq x : ℚ) : ℝ) ^ 2 by
      ring]
    rw [Real.sqrt_sq (by exact_mod_cast hnn)]
  have hdne : ((devSq x : ℚ) : ℝ) ≠ 0 := by exact_mod_cast hdev
  simp only []
  rw [hnum, hden, if_neg hdne]
  rw [div_self hdne]

/-- `pearson` is symmetric in its two series (of equal length). -/
theorem pearson_comm {x y : List ℚ} (hlen : x.length = y.length) :
    pearson x y = pearson y x := by
  unfold pearson
  rw [hlen]
  have hnum : ((y.zip x).map (fun p => (p.1 - qmean y) * (p.2 - qmean x))).sum =
      ((x.zip y).map (fun p => (p.1 - qmean x) * (p.2 - qmean y))).sum := by
    rw [← List.zip_swap x y, List.map_map]
    apply congrArg
    apply List.map_congr_left
    intro a _
    simp [Function.comp, Prod.swap]
    ring
  simp only []
  rw [hnum, show devSq y * devSq x = devSq x * devSq y from mul_comm _ _]

theorem filterMap_length_of_isSome {α β : Type} {f : α → Option β} {l : List α}
    (h : ∀ x ∈ l, (f x).isSome) : (l.filterMap f).length = l.length := by
  induction l with
  | nil => rfl
  | cons a l ih =>
    rcases hf : f a with _ | b
    · have := h a (List.mem_cons_self a l)
      rw [hf] at this
      cases this
    · rw [List.filterMap_cons_some hf, List.length_cons,
        ih (fun x hx => h x (List.mem_cons_of_mem a hx))]
      rfl

/-- Over the complete rows, every selected column's series has the full
row count. -/
theorem corrSeries_length {data : List Row} {cols : List String} {c : String}
    (hc : c ∈ cols) :
    (corrSeries data cols c).length = (corrCompleteRows data cols).length := by
  unfold corrSeries
  apply filterMap_length_of_isSome
  intro row hrow
  have hall := List.of_mem_filter hrow
  unfold corrAllParse at hall
  exact List.all_eq_true.mp hall c hc

theorem buildCorrMatrix_inv {data : List Row} {cols : List String}
    {M : List (List ℝ)} {n : Nat} (h : buildCorrMatrix data cols = some (M, n)) :
    M = cols.map (fun ci => cols.map (fun cj =>
      match pearson (corrSeries data cols ci) (corrSeries data cols cj) with
      | none => (0 : ℝ) | some r => r)) ∧ 40 ≤ n ∧
    ∃ c0, cols.head? = some c0 ∧ n = (corrSeries data cols c0).length := by
  unfold buildCorrMatrix at h
  simp only [] at h
  split_ifs at h with h40
  rcases hc0 : cols.head? with _ | c0
  · rw [hc0] at h40
    simp only [] at h40
    exact absurd (by omega : (0 : ℕ) < 40) h40
  · rw [hc0] at h h40
    simp only [] at h h40
    have h2 := Option.some.inj h
    have hM := congrArg Prod.fst h2
    have hn := congrArg Prod.snd h2
    simp only [] at hM hn
    exact ⟨hM.symm, by omega, c0, rfl, hn.symm⟩

/-- **C6** (amended): every emitted correlation matrix is symmetric, and its
diagonal entry is `1` at each column whose series over the complete rows has
nonzero squared deviation (a column constant on the complete rows gets `0`
instead). -/
theorem C6_corr_symmetric_diagonal {data : List Row} {eda : Eda} {title : String}
    {cols : List String} {M : List (List ℝ)}
    (h : ChartSpec.corr title cols M ∈ generateCharts data eda) :
    (∀ i j, i < cols.length → j < cols.length →
      (M.getD i []).getD j 0 = (M.getD j []).getD i 0) ∧
    (∀ i, i < cols.length →
      devSq (corrSeries data cols (cols.getD i "")) ≠ 0 →
      (M.getD i []).getD i 0 = 1) := by
  rw [generateCharts_eq] at h
  obtain ⟨c, hc, hcs⟩ := pickDiverse_sub h
  obtain ⟨n, hbm⟩ := genCandidates_corr hc hcs
  obtain ⟨hM, h40, c0, hc0, hn⟩ := buildCorrMatrix_inv hbm
  have hc0mem : c0 ∈ cols := List.mem_of_mem_head? hc0
  have hNge : 40 ≤ (corrCompleteRows data cols).length := by
    rw [← corrSeries_length hc0mem, ← hn]
    exact h40
  have hmemD : ∀ i, i < cols.length → cols.getD i "" ∈ cols := by
    intro i hi
    rw [List.getD_eq_getElem _ _ hi]
    exact List.getElem_mem _
  have getD_map_lt : ∀ {α β : Type} (f : α → β) (l : List α) (d : β) {i : Nat},
      i < l.length → ∀ (d2 : α), (l.map f).getD i d = f (l.getD i d2) := by
    intro α β f l d i hi d2
    rw [List.getD_eq_getElem (l.map f) d (by simpa using hi), List.getElem_map,
      List.getD_eq_getElem l d2 hi]
  have hentry : ∀ i, i < cols.length → ∀ j, j < cols.length →
      (M.getD i []).getD j 0 =
        (match pearson (corrSeries data cols (cols.getD i ""))
            (corrSeries data cols (cols.getD j "")) with
         | none => (0 : ℝ) | some r => r) := by
    intro i hi j hj
    rw [hM, getD_map_lt _ cols _ hi "", getD_map_lt _ cols _ hj ""]
  constructor
  · intro i j hi hj
    rw [hentry i hi j hj, hentry j hj i hi]
    have hlen : (corrSeries data cols (cols.getD i "")).length =
        (corrSeries data cols (cols.getD j "")).length := by
      rw [corrSeries_length (hmemD i hi), corrSeries_length (hmemD j hj)]
    rw [pearson_comm hlen]
  · intro i hi hdev
    rw [hentry i hi i hi]
    have hlen8 : 8 ≤ (corrSeries data cols (cols.getD i "")).length := by
      rw [corrSeries_length (hmemD i hi)]
      omega
    rw [pearson_self hlen8 hdev]

theorem all_perm {α : Type} {p : α → Bool} {l1 l2 : List α} (h : l1.Perm l2) :
    l1.all p = l2.all p := by
  by_cases h1 : l1.all p = true
  · rw [h1]
    symm
    rw [List.all_eq_true] at h1 ⊢
    exact fun x hx => h1 x (h.mem_iff.mpr hx)
  · have h2 : ¬ l2.all p = true := fun hh =>
      h1 (by
        rw [List.all_eq_true] at hh ⊢
        exact fun x hx => hh x (h.mem_iff.mp hx))
    rw [Bool.not_eq_true] at h1 h2
    rw [h1, h2]

theorem corrCompleteRows_perm {data : List Row} {R S : List String} (h : R.Perm S) :
    corrCompleteRows data R = corrCompleteRows data S := by
  unfold corrCompleteRows
  apply List.filter_congr
  intro row _
  unfold corrAllParse
  exact all_perm h

theorem corrSeries_perm {data : List Row} {R S : List String} (h : R.Perm S)
    (c : String) : corrSeries data R c = corrSeries data S c := by
  unfold corrSeries
  rw [corrCompleteRows_perm h]

/-- `pearson` of a constant series with itself is `null`. -/
theorem pearson_self_none {x : List ℚ} (hdev : devSq x = 0) : pearson x x = none := by
  unfold pearson
  by_cases hc : x.length ≠ x.length ∨ x.length < 8
  · rw [if_pos hc]
  · rw [if_neg hc]
    simp only []
    rw [if_pos]
    rw [hdev]
    norm_num

theorem pMaxF_le_two (p : String) : pMaxF p ≤ 2 := by
  unfold pMaxF
  split_ifs <;> norm_num

theorem sum_min_pMaxF_le (P : List String) (cnt : String → ℕ) :
    (P.map (fun p => min (pMaxF p) (cnt p))).sum ≤ 2 * P.length := by
  induction P with
  | nil => simp
  | cons q Q ih =>
    rw [List.map_cons, List.sum_cons]
    have h1 : min (pMaxF q) (cnt q) ≤ 2 := le_trans (min_le_left _ _) (pMaxF_le_two q)
    simp only [List.length_cons]
    omega

/-- 44 rows over four numeric columns; `a` is constant on the 40 complete
rows (`b` is missing on the last four, where `a` differs). -/
def d6 : List Row := (List.range 44).map (fun (i : ℕ) =>
  [("a", Val.vNum (if i < 40 then 5 else 6))] ++
  (if i < 40 then [("b", Val.vNum (((i % 20 : ℕ) : ℚ) + 1 / 2))] else []) ++
  [("c", Val.vNum (((i % 10 : ℕ) : ℚ) + 1 / 4)),
   ("d", Val.vNum (((i % 8 : ℕ) : ℚ) + 3 / 4))])

theorem d6_isEmpty : d6.isEmpty = false := by with_unfolding_all rfl

theorem d6_len : d6.length = 44 := by simp [d6]

theorem d6_numericSet : numericSetOf d6 (runEDA d6) = ["a", "b", "c", "d"] := by
  with_unfolding_all rfl

theorem d6_dateSet : dateSetOf d6 (runEDA d6) = [] := by with_unfolding_all rfl

theorem d6_catCols : catColsOf d6 (runEDA d6) = [] := by with_unfolding_all rfl

theorem d6_hb_map : (histBoxSection d6 (runEDA d6) 44 ["a", "b", "c", "d"]).map
    (fun c => (specType c.spec, c.purpose)) =
    [("histogram", "distribution"), ("box", "distribution"),
     ("histogram", "distribution"), ("box", "distribution"),
     ("histogram", "distribution"), ("box", "distribution"),
     ("histogram", "distribution"), ("box", "distribution")] := by
  with_unfolding_all rfl

theorem d6_complete_len : (corrCompleteRows d6 ["a", "b", "c", "d"]).length = 40 := by
  with_unfolding_all rfl

theorem d6_series_a : corrSeries d6 ["a", "b", "c", "d"] "a" =
    List.replicate 40 5 := by
  with_unfolding_all rfl

theorem d6_devSq_a : devSq (List.replicate 40 5) = 0 := by
  with_unfolding_all rfl

theorem d6_unique_a : (lookupCol (runEDA d6) "a").map (fun x => x.uniqueCount) =
    some 2 := by
  with_unfolding_all rfl

theorem corrSection_length_le_one (data : List Row) (eda : Eda)
    (ncols : List String) : (corrSection data eda ncols).length ≤ 1 := by
  unfold corrSection
  split_ifs
  · norm_num
  · simp only []
    split_ifs
    · norm_num
    · split
      · norm_num
      · norm_num

/-- The ranking score of the correlation section column ordering. -/
noncomputable def corrRankScore (eda : Eda) (c : String) : String × ℝ :=
  let info := lookupCol eda c
  let sd : ℝ := (info.bind (fun i => i.stdevV)).getD 0
  let uniq : Nat := match info with
    | some i => i.uniqueCount
    | none => 0
  (c, rlog10 (sd + 1) * 10 + rlog10 ((((uniq : ℚ) + 1 : ℚ) : ℝ)) * 2)

/-- The ranked column list of `corrSection`. -/
noncomputable def corrRanked (eda : Eda) (ncols : List String) : List String :=
  ((jsSortBy (fun a b => @decide (b.2 ≤ a.2) (Classical.propDecidable _))
    (ncols.map (corrRankScore eda))).map Prod.fst).take 10

theorem corrSection_eq (data : List Row) (eda : Eda) (ncols : List String) :
    corrSection data eda ncols =
      if ncols.length < 4 then []
      else if (corrRanked eda ncols).length < 4 then []
      else
        match buildCorrMatrix data (corrRanked eda ncols) with
        | none => []
        | some (matrix, n) =>
          [{ spec := .corr "Correlation (numeric)" (corrRanked eda ncols) matrix,
             score := (((corrRanked eda ncols).length : ℚ) : ℝ) * 10 +
               ((n : ℚ) : ℝ) * (3 / 100 : ℝ) +
               (((List.range (corrRanked eda ncols).length).flatMap (fun i =>
                 (List.range (corrRanked eda ncols).length).filterMap (fun j =>
                   if i = j then none
                   else some |((matrix.getD i []).getD j 0)|))).foldl max 0) * 120,
             purpose := "relationship" }] := by
  unfold corrSection corrRanked corrRankScore
  rfl

theorem corrRanked_perm {eda : Eda} {ncols : List String} (h10 : ncols.length ≤ 10) :
    (corrRanked eda ncols).Perm ncols := by
  unfold corrRanked
  rw [List.take_of_length_le (by
    rw [List.length_map, jsSortBy_length, List.length_map]
    exact h10)]
  have hp1 := (jsSortBy_perm (fun a b =>
    @decide (b.2 ≤ a.2) (Classical.propDecidable _))
    (ncols.map (corrRankScore eda))).map Prod.fst
  rw [List.map_map] at hp1
  have h2 : ncols.map (Prod.fst ∘ corrRankScore eda) = ncols.map id := rfl
  rw [h2, List.map_id] at hp1
  exact hp1

/-- With at most 10 numeric columns, the correlation chart column list is
a permutation of the numeric set. -/
theorem corrSection_mem_perm {data : List Row} {eda : Eda} {ncols : List String}
    {c : Candidate} (h10 : ncols.length ≤ 10) (h : c ∈ corrSection data eda ncols) :
    ∃ R M n, c.spec = .corr "Correlation (numeric)" R M ∧
      buildCorrMatrix data R = some (M, n) ∧ R.Perm ncols := by
  rw [corrSection_eq] at h
  split_ifs at h with h1 h2
  · cases h
  · cases h
  · split at h
    · cases h
    · rename_i matrix n heq
      rcases List.mem_singleton.mp h with rfl
      exact ⟨_, matrix, n, rfl, heq, corrRanked_perm h10⟩

/-- With 4–10 numeric columns and at least 40 complete rows, the
correlation section emits its chart. -/
theorem corrSection_ne_nil {data : List Row} {eda : Eda} {ncols : List String}
    (h4 : 4 ≤ ncols.length) (h10 : ncols.length ≤ 10)
    (hN : 40 ≤ (corrCompleteRows data ncols).length) :
    corrSection data eda ncols ≠ [] := by
  have hperm := @corrRanked_perm eda _ h10
  have hlenR : (corrRanked eda ncols).length = ncols.length := hperm.length_eq
  rw [corrSection_eq]
  rw [if_neg (by omega), if_neg (by omega)]
  split
  · rename_i heq
    exfalso
    unfold buildCorrMatrix at heq
    simp only [] at heq
    split_ifs at heq with hlt
    · rcases hh : (corrRanked eda ncols).head? with _ | c0
      · rw [List.head?_eq_none_iff] at hh
        rw [hh] at hlenR
        simp at hlenR
        omega
      · rw [hh] at hlt
        simp only [] at hlt
        have hc0 : c0 ∈ ncols := hperm.mem_iff.mp (List.mem_of_mem_head? hh)
        rw [corrSeries_perm hperm c0, corrSeries_length hc0] at hlt
        omega
  · rename_i matrix n heq
    simp

theorem scatterPickSection_length_le_one (data : List Row) (ncols : List String) :
    (scatterPickSection data ncols).length ≤ 1 := by
  rcases scatterPickSection_cases data ncols with he | ⟨c0, he, -⟩ <;> rw [he] <;>
    norm_num

theorem d6_bar : barSection d6 (runEDA d6) ["a", "b", "c", "d"] [] [] = [] := rfl

theorem d6_time : timeSection d6 [] ["a", "b", "c", "d"] = [] := rfl

theorem d6_split : genCandidates d6 (runEDA d6) =
    histBoxSection d6 (runEDA d6) 44 ["a", "b", "c", "d"] ++
    barSection d6 (runEDA d6) ["a", "b", "c", "d"] [] [] ++
    timeSection d6 [] ["a", "b", "c", "d"] ++
    scatterPickSection d6 ["a", "b", "c", "d"] ++
    corrSection d6 (runEDA d6) ["a", "b", "c", "d"] := by
  rw [genCandidates_eq]
  simp only [d6_isEmpty, Bool.false_eq_true, if_false, d6_numericSet, d6_dateSet,
    d6_catCols, d6_len]

theorem d6_corr : ∃ (R : List String) (M : List (List ℝ)),
    ChartSpec.corr "Correlation (numeric)" R M ∈ generateCharts d6 (runEDA d6) ∧
    R.Perm ["a", "b", "c", "d"] ∧ buildCorrMatrix d6 R = some (M, 40) := by
  have hne := @corrSection_ne_nil d6 (runEDA d6) ["a", "b", "c", "d"]
    (by norm_num) (by norm_num) (by rw [d6_complete_len])
  obtain ⟨c, hcmem⟩ := List.exists_mem_of_ne_nil _ hne
  obtain ⟨R, M, n, hspec, hbm, hRperm⟩ := corrSection_mem_perm (by norm_num) hcmem
  obtain ⟨hM, h40, c0, hc0, hn⟩ := buildCorrMatrix_inv hbm
  have hc0R : c0 ∈ R := List.mem_of_mem_head? hc0
  have hc0cols : c0 ∈ ["a", "b", "c", "d"] := hRperm.mem_iff.mp hc0R
  have hn40 : n = 40 := by
    rw [hn, corrSeries_perm hRperm c0, corrSeries_length hc0cols, d6_complete_len]
  subst hn40
  obtain ⟨R', M', n', hspec', hbm', hpurp0⟩ := corrSection_mem hcmem
  have htype : specType c.spec = "corr" := by
    rw [hspec]
    rfl
  have hcount_hb_p : (histBoxSection d6 (runEDA d6) 44 ["a", "b", "c", "d"]).countP
      (fun x => x.purpose == "relationship") = 0 := by
    have e1 : (histBoxSection d6 (runEDA d6) 44 ["a", "b", "c", "d"]).countP
        (fun x => x.purpose == "relationship") =
        ((histBoxSection d6 (runEDA d6) 44 ["a", "b", "c", "d"]).map
          (fun c => (specType c.spec, c.purpose))).countP
          (fun y => y.2 == "relationship") := by
      rw [List.countP_map]
      rfl
    rw [e1, d6_hb_map]
    decide
  have hcount_hb_t : (histBoxSection d6 (runEDA d6) 44 ["a", "b", "c", "d"]).countP
      (fun x => specType x.spec == "corr") = 0 := by
    have e1 : (histBoxSection d6 (runEDA d6) 44 ["a", "b", "c", "d"]).countP
        (fun x => specType x.spec == "corr") =
        ((histBoxSection d6 (runEDA d6) 44 ["a", "b", "c", "d"]).map
          (fun c => (specType c.spec, c.purpose))).countP
          (fun y => y.1 == "corr") := by
      rw [List.countP_map]
      rfl
    rw [e1, d6_hb_map]
    decide
  have hsp_t : (scatterPickSection d6 ["a", "b", "c", "d"]).countP
      (fun x => specType x.spec == "corr") = 0 := by
    rw [List.countP_eq_zero]
    intro x hx
    rw [(scatterPickSection_shape hx).1]
    decide
  have hmem2 : c.spec ∈ pickDiverse (genCandidates d6 (runEDA d6)) 4 8 := by
    apply pickDiverse_mem _ c (by norm_num)
    · rw [d6_split]
      exact List.mem_append_right _ hcmem
    · rw [hpurp0, d6_split]
      simp only [List.countP_append]
      have h1 := hcount_hb_p
      have h2 : (barSection d6 (runEDA d6) ["a", "b", "c", "d"] [] []).countP
          (fun x => x.purpose == "relationship") = 0 := by
        rw [d6_bar]
        rfl
      have h3 : (timeSection d6 [] ["a", "b", "c", "d"]).countP
          (fun x => x.purpose == "relationship") = 0 := by
        rw [d6_time]
        rfl
      have h4 : (scatterPickSection d6 ["a", "b", "c", "d"]).countP
          (fun x => x.purpose == "relationship") ≤ 1 :=
        le_trans (List.countP_le_length _) (scatterPickSection_length_le_one _ _)
      have h5 : (corrSection d6 (runEDA d6) ["a", "b", "c", "d"]).countP
          (fun x => x.purpose == "relationship") ≤ 1 :=
        le_trans (List.countP_le_length _) (corrSection_length_le_one _ _ _)
      have hpm : pMaxF "relationship" = 2 := by decide
      omega
    · rw [htype, d6_split]
      simp only [List.countP_append]
      have h1 := hcount_hb_t
      have h2 : (barSection d6 (runEDA d6) ["a", "b", "c", "d"] [] []).countP
          (fun x => specType x.spec == "corr") = 0 := by
        rw [d6_bar]
        rfl
      have h3 : (timeSection d6 [] ["a", "b", "c", "d"]).countP
          (fun x => specType x.spec == "corr") = 0 := by
        rw [d6_time]
        rfl
      have h5 : (corrSection d6 (runEDA d6) ["a", "b", "c", "d"]).countP
          (fun x => specType x.spec == "corr") ≤ 1 :=
        le_trans (List.countP_le_length _) (corrSection_length_le_one _ _ _)
      have htm : tMaxF "corr" = 1 := by decide
      omega
    · have hsub : ((genCandidates d6 (runEDA d6)).map (fun x => x.purpose)).dedup ⊆
          ["distribution", "relationship"] := by
        intro p hp
        have hp2 : p ∈ (genCandidates d6 (runEDA d6)).map (fun x => x.purpose) :=
          List.mem_dedup.mp hp
        obtain ⟨x, hx, rfl⟩ := List.mem_map.mp hp2
        rw [d6_split] at hx
        rcases List.mem_append.mp hx with hx1 | hxe
        · rcases List.mem_append.mp hx1 with hx2 | hxd
          · rcases List.mem_append.mp hx2 with hx3 | hxt
            · rcases List.mem_append.mp hx3 with hxb | hxbar
              · have hm1 := List.mem_map_of_mem
                  (fun c => (specType c.spec, c.purpose)) hxb
                rw [d6_hb_map] at hm1
                have hm2 := List.mem_map_of_mem Prod.snd hm1
                simp at hm2
                simp [hm2]
              · rw [d6_bar] at hxbar
                cases hxbar
            · rw [d6_time] at hxt
              cases hxt
          · have := (scatterPickSection_shape hxd).2
            simp [this]
        · obtain ⟨-, -, -, -, -, hpp⟩ := corrSection_mem hxe
          simp [hpp]
      have hnd := List.nodup_dedup ((genCandidates d6 (runEDA d6)).map
        (fun x => x.purpose))
      have hlen2 : (((genCandidates d6 (runEDA d6)).map
          (fun x => x.purpose)).dedup).length ≤ 2 := by
        have := (hnd.subperm hsub).length_le
        simpa using this
      calc ((((genCandidates d6 (runEDA d6)).map (fun x => x.purpose)).dedup).map
            (fun p => min (pMaxF p) ((genCandidates d6 (runEDA d6)).countP
              (fun x => x.purpose == p)))).sum ≤
          2 * (((genCandidates d6 (runEDA d6)).map (fun x => x.purpose)).dedup).length :=
            sum_min_pMaxF_le _ _
        _ ≤ 8 := by omega
  rw [hspec] at hmem2
  exact ⟨R, M, hmem2, hRperm, hbm⟩

theorem getD_map_of_lt {α β : Type} (f : α → β) (l : List α) (d : β) {i : Nat}
    (hi : i < l.length) (d2 : α) : (l.map f).getD i d = f (l.getD i d2) := by
  rw [List.getD_eq_getElem (l.map f) d (by simpa using hi), List.getElem_map,
    List.getD_eq_getElem l d2 hi]

/-- **C6 counterexample**: on `d6` the engine emits a correlation matrix whose
diagonal entry at column `a` is `0`, not `1`, although `a` has `uniqueCount = 2`
(it is not constant over the whole dataset, only over the complete rows). -/
theorem C6_counterexample_constant_on_complete :
    ∃ (cols : List String) (M : List (List ℝ)) (i : Nat),
      ChartSpec.corr "Correlation (numeric)" cols M ∈ generateCharts d6 (runEDA d6) ∧
      i < cols.length ∧ cols.getD i "" = "a" ∧
      (lookupCol (runEDA d6) "a").map (fun x => x.uniqueCount) = some 2 ∧
      (M.getD i []).getD i 0 = 0 ∧ (M.getD i []).getD i 0 ≠ 1 := by
  obtain ⟨R, M, hmem, hperm, hbm⟩ := d6_corr
  have hamem : "a" ∈ R := hperm.mem_iff.mpr (by simp)
  obtain ⟨i, hi, hgi⟩ := List.getElem_of_mem hamem
  obtain ⟨hM, h40, c0, hc0, hn⟩ := buildCorrMatrix_inv hbm
  have hgd : R.getD i "" = "a" := by
    rw [List.getD_eq_getElem _ _ hi, hgi]
  have hser : corrSeries d6 R "a" = List.replicate 40 5 := by
    rw [corrSeries_perm hperm, d6_series_a]
  have hps : pearson (corrSeries d6 R "a") (corrSeries d6 R "a") = none := by
    rw [hser]
    exact pearson_self_none d6_devSq_a
  have hentry0 : (M.getD i []).getD i 0 =
      (match pearson (corrSeries d6 R (R.getD i ""))
          (corrSeries d6 R (R.getD i "")) with
       | none => (0 : ℝ) | some r => r) := by
    rw [hM, getD_map_of_lt _ R _ hi "", getD_map_of_lt _ R _ hi ""]
  have hentry : (M.getD i []).getD i 0 = 0 := by
    rw [hentry0, hgd, hps]
  exact ⟨R, M, i, hmem, hi, hgd, d6_unique_a, hentry, by rw [hentry]; norm_num⟩

theorem C6_witness_d6 :
    ∃ (cols : List String) (M : List (List ℝ)),
      ChartSpec.corr "Correlation (numeric)" cols M ∈ generateCharts d6 (runEDA d6) ∧
      ∀ i j, i < cols.length → j < cols.length →
        (M.getD i []).getD j 0 = (M.getD j []).getD i 0 := by
  obtain ⟨R, M, hmem, hperm, hbm⟩ := d6_corr
  exact ⟨R, M, hmem, fun i j hi hj =>
    (C6_corr_symmetric_diagonal hmem).1 i j hi hj⟩
